import Mathlib

/-!
# Scheduler reconciler

A shallow embedding of `pkg/reconciler/scheduler/scheduler.go` and of the
status helpers of `pkg/apis/events/v1alpha1`.

* Go pointers and `(value, error)` results become `Option` and `Except`.
* The cluster (listers, typed clients, the job executor) is a record `World`
  of response functions; every function of the reconciler returns, next to its
  Go results, the list of external calls it issued, in order.
* The object under reconciliation is passed and returned explicitly.
* Logging, metrics and timestamps of conditions are not represented.
-/

namespace SchedulerReconciler

/-! ## Data model -/

/-- Go `error` value: its text and whether `apierrs.IsNotFound` holds of it. -/
structure GoError where
  IsNotFound : Bool
  Error : String
deriving DecidableEq, Repr

/-- The errors built by `errors.New` and `fmt.Errorf`: plain text, never a
not-found API status. -/
def errorsNew (msg : String) : GoError :=
  { IsNotFound := false, Error := msg }

/-- Status of a condition (`corev1.ConditionStatus`). -/
inductive ConditionStatus where
  | ConditionTrue
  | ConditionFalse
  | ConditionUnknown
deriving DecidableEq, Repr

/-- Named conditions of a Scheduler. `scheduler.go` marks the third one through
`MarkGCSReady` and `MarkGCSNotReady`, `scheduler_lifecycle.go` declares it as
`SchedulerJobReady`; the specification calls it `NotificationReady`. -/
inductive ConditionType where
  | PullSubscriptionReady
  | TopicReady
  | NotificationReady
deriving DecidableEq, Repr

/-- One readiness condition (`apis.Condition`) without its timestamp. -/
structure Condition where
  Status : ConditionStatus
  Reason : String
  Message : String
deriving DecidableEq, Repr

/-- Selector of a key of a secret (`corev1.SecretKeySelector`). -/
structure SecretKeySelector where
  Name : String
  Key : String
deriving DecidableEq, Repr

/-- Reference to another object (`corev1.ObjectReference`). -/
structure ObjectReference where
  APIVersion : String
  Kind : String
  Namespace : String
  Name : String
deriving DecidableEq, Repr

/-- Sink of the events (`apisv1alpha1.Destination`). -/
structure Destination where
  ObjectReference : Option ObjectReference
  URI : Option String
deriving DecidableEq, Repr

/-- Owner reference (`metav1.OwnerReference`). -/
structure OwnerReference where
  APIVersion : String
  Kind : String
  Name : String
  UID : String
  Controller : Option Bool
  BlockOwnerDeletion : Option Bool
deriving DecidableEq, Repr

/-- The part of `metav1.ObjectMeta` the reconciler reads or writes. -/
structure ObjectMeta where
  Namespace : String
  Name : String
  UID : String
  ResourceVersion : String
  Finalizers : List String
  DeletionTimestamp : Option Nat
  Labels : List (String × String)
  OwnerReferences : List OwnerReference
deriving DecidableEq, Repr

/-- Parsed address (`apis.URL`). -/
structure URL where
  Raw : String
deriving DecidableEq, Repr

/-- Desired state of a Scheduler. `scheduler.go` and the tests of the
`resources` package read `GCSSecret`, `Project` and `Bucket`;
`scheduler_defaults.go` reads the pointer `Secret`. -/
structure SchedulerSpec where
  Secret : Option SecretKeySelector
  GCSSecret : SecretKeySelector
  Project : String
  Bucket : String
  Sink : Destination
  CloudEventOverrides : Option (List (String × String))
deriving DecidableEq, Repr

/-- The three named conditions; `none` is a condition never observed. -/
structure Conditions where
  PullSubscriptionReady : Option Condition
  TopicReady : Option Condition
  NotificationReady : Option Condition
deriving DecidableEq, Repr

/-- Observed state of a Scheduler. -/
structure SchedulerStatus where
  Conditions : Conditions
  SinkURI : Option URL
  NotificationID : String
  ProjectID : String
  TopicID : String
deriving DecidableEq, Repr

/-- The primary object. -/
structure Scheduler where
  ObjectMeta : ObjectMeta
  Spec : SchedulerSpec
  Status : SchedulerStatus
deriving DecidableEq, Repr

/-- Desired state of a Topic (`pubsubv1alpha1.TopicSpec`). -/
structure TopicSpec where
  Secret : Option SecretKeySelector
  Project : String
  Topic : String
  PropagationPolicy : String
deriving DecidableEq, Repr

/-- Observed state of a Topic; `IsReady` carries the verdict of
`TopicStatus.IsReady()`. -/
structure TopicStatus where
  IsReady : Bool
  ProjectID : String
  TopicID : String
deriving DecidableEq, Repr

/-- Topic sub-resource. -/
structure Topic where
  ObjectMeta : ObjectMeta
  Spec : TopicSpec
  Status : TopicStatus
deriving DecidableEq, Repr

/-- Desired state of a PullSubscription. -/
structure PullSubscriptionSpec where
  Secret : Option SecretKeySelector
  Project : String
  Topic : String
  Sink : Destination
  CloudEventOverrides : Option (List (String × String))
deriving DecidableEq, Repr

/-- Observed state of a PullSubscription; `IsReady` carries the verdict of
`PullSubscriptionStatus.IsReady()`. -/
structure PullSubscriptionStatus where
  IsReady : Bool
  SinkURI : String
deriving DecidableEq, Repr

/-- PullSubscription sub-resource. -/
structure PullSubscription where
  ObjectMeta : ObjectMeta
  Spec : PullSubscriptionSpec
  Status : PullSubscriptionStatus
deriving DecidableEq, Repr

/-- Phase of a notification job (`ops.OpsJobStatus`). `scheduler.go` produces
six of them; `OpsJobAlreadyCreated` is listed by the specification only. -/
inductive OpsJobStatus where
  | OpsJobGetFailed
  | OpsJobCreated
  | OpsJobAlreadyCreated
  | OpsJobCreateFailed
  | OpsJobCompleteSuccessful
  | OpsJobCompleteFailed
  | OpsJobOngoing
deriving DecidableEq, Repr

/-- Arguments of a notification job (`operations.NotificationArgs`); `Owner`
is the metadata of the owning Scheduler. -/
structure NotificationArgs where
  UID : String
  Image : String
  Action : String
  ProjectID : String
  Bucket : String
  TopicID : String
  NotificationId : String
  Secret : SecretKeySelector
  Owner : ObjectMeta
deriving DecidableEq, Repr

/-- Type of a condition of a job (`batchv1.JobConditionType`). -/
inductive JobConditionType where
  | JobComplete
  | JobFailed
deriving DecidableEq, Repr

/-- One condition of a job (`batchv1.JobCondition`), the structured condition
through which the job executor reports success or failure; `CondType` is the
Go field `Type`. -/
structure JobCondition where
  CondType : JobConditionType
  Status : ConditionStatus
deriving DecidableEq, Repr

/-- Observed state of a job (`batchv1.JobStatus`): its conditions. -/
structure JobStatus where
  Conditions : List JobCondition
deriving DecidableEq, Repr

/-- A batch job running one notification operation. -/
structure Job where
  Namespace : String
  Name : String
  Args : NotificationArgs
  Status : JobStatus
deriving DecidableEq, Repr

/-- Termination state of one container of a pod. -/
structure ContainerStatus where
  Terminated : Option String
deriving DecidableEq, Repr

/-- Pod of a job. -/
structure Pod where
  Namespace : String
  Name : String
  ContainerStatuses : List ContainerStatus
deriving DecidableEq, Repr

/-- Result a job leaves in its termination message
(`operations.NotificationActionResult`). -/
structure NotificationActionResult where
  Result : Bool
  Error : String
  NotificationId : String
  ProjectId : String
deriving DecidableEq, Repr

/-- One external call, with its arguments. -/
inductive Call where
  | SchedulerListerGet (ns name : String)
  | TopicsGet (ns name : String)
  | TopicsCreate (t : Topic)
  | TopicsDelete (ns name : String)
  | PullSubscriptionsGet (ns name : String)
  | PullSubscriptionsCreate (ps : PullSubscription)
  | PullSubscriptionsDelete (ns name : String)
  | JobListerGet (ns name : String)
  | JobsCreate (job : Job)
  | GetJobPod (ns uid action : String)
  | SchedulersPatch (ns name body : String)
  | SchedulersUpdateStatus (s : Scheduler)
deriving DecidableEq, Repr

/-- The collaborator a call is addressed to. -/
inductive CallTarget where
  | SchedulerLister
  | Topics
  | PullSubscriptions
  | Jobs
  | SchedulersPatch
  | SchedulersUpdateStatus
deriving DecidableEq, Repr

/-- Collaborator of a call; the job lister, the job client and the pod lookup
together are the job executor. -/
def Call.target : Call → CallTarget
  | Call.SchedulerListerGet _ _ => CallTarget.SchedulerLister
  | Call.TopicsGet _ _ => CallTarget.Topics
  | Call.TopicsCreate _ => CallTarget.Topics
  | Call.TopicsDelete _ _ => CallTarget.Topics
  | Call.PullSubscriptionsGet _ _ => CallTarget.PullSubscriptions
  | Call.PullSubscriptionsCreate _ => CallTarget.PullSubscriptions
  | Call.PullSubscriptionsDelete _ _ => CallTarget.PullSubscriptions
  | Call.JobListerGet _ _ => CallTarget.Jobs
  | Call.JobsCreate _ => CallTarget.Jobs
  | Call.GetJobPod _ _ _ => CallTarget.Jobs
  | Call.SchedulersPatch _ _ _ => CallTarget.SchedulersPatch
  | Call.SchedulersUpdateStatus _ => CallTarget.SchedulersUpdateStatus

/-- The collaborators of one reconcile pass. The first group are functions of
libraries and of packages outside `src/`; the second group are the answers of
the resource store and of the job executor to each call of the pass. -/
structure World where
  /-- Image for the notification jobs (`Reconciler.NotificationOpsImage`). -/
  NotificationOpsImage : String
  /-- Go quoting of a string, the `%q` verb (`strconv.Quote`). -/
  Quote : String → String
  /-- Decoding of a termination message (`json.Unmarshal`); the error carries
  the decoder's text. -/
  Unmarshal : String → Except String NotificationActionResult
  /-- Parsing of an address (`apis.ParseURL`); the result may be a nil URL. -/
  ParseURL : String → Except String (Option URL)
  /-- Deterministic name of the job of an owner and an action
  (`operations.NotificationJobName`). -/
  NotificationJobName : ObjectMeta → String → String
  /-- Text describing the failure of a job (`ops.JobFailedMessage`). -/
  JobFailedMessage : Job → String
  /-- Read of the informer cache at the start of `Reconcile`. -/
  SchedulerListerGet : String → String → Except GoError Scheduler
  /-- Read of the informer cache inside `updateStatus`. -/
  SchedulerListerGetAgain : String → String → Except GoError Scheduler
  TopicsGet : String → String → Except GoError Topic
  TopicsCreate : Topic → Except GoError Topic
  TopicsDelete : String → String → Option GoError
  PullSubscriptionsGet : String → String → Except GoError PullSubscription
  PullSubscriptionsCreate : PullSubscription → Except GoError PullSubscription
  PullSubscriptionsDelete : String → String → Option GoError
  JobListerGet : String → String → Except GoError Job
  /-- Creation of a job: the object and the error, either of which may be nil. -/
  JobsCreate : Job → Option Job × Option GoError
  /-- Lookup of the pod of a job by owner UID and action (`ops.GetJobPod`). -/
  GetJobPod : String → String → String → Except GoError Pod
  SchedulersPatch : String → String → String → Option GoError
  SchedulersUpdateStatus : Scheduler → Except GoError Scheduler

/-! ## Constants -/

/-- Name of the controller (`controller.go`). -/
def controllerAgentName : String := "cloud-run-events-scheduler-source-controller"

/-- Finalizer token of the controller. -/
def finalizerName : String := controllerAgentName

/-! ## Encoding of merge patches (`json.Marshal`) -/

/-- Lower-case hexadecimal digit. -/
def hexDigit (n : Nat) : Char :=
  if n < 10 then Char.ofNat (48 + n) else Char.ofNat (87 + n)

/-- Encoding of one character inside a JSON string, as `encoding/json` writes
it with HTML escaping on: quote and backslash are escaped, line feed, carriage
return and tab have short forms, the other control characters and `<`, `>`,
`&` are written `\u00XX`, and so are U+2028 and U+2029. -/
def jsonEscapeChar (c : Char) : List Char :=
  if c.toNat = 34 then [Char.ofNat 92, Char.ofNat 34]
  else if c.toNat = 92 then [Char.ofNat 92, Char.ofNat 92]
  else if c.toNat = 10 then [Char.ofNat 92, 'n']
  else if c.toNat = 13 then [Char.ofNat 92, 'r']
  else if c.toNat = 9 then [Char.ofNat 92, 't']
  else if c.toNat < 32 ∨ c.toNat = 60 ∨ c.toNat = 62 ∨ c.toNat = 38 then
    [Char.ofNat 92, 'u', '0', '0', hexDigit (c.toNat / 16), hexDigit (c.toNat % 16)]
  else if c.toNat = 8232 then [Char.ofNat 92, 'u', '2', '0', '2', '8']
  else if c.toNat = 8233 then [Char.ofNat 92, 'u', '2', '0', '2', '9']
  else [c]

/-- JSON encoding of a string. -/
def jsonString (s : String) : String :=
  "\"" ++ String.mk (s.data.flatMap jsonEscapeChar) ++ "\""

/-- JSON encoding of a non-nil slice of strings. -/
def jsonStringArray (l : List String) : String :=
  "[" ++ ",".intercalate (l.map jsonString) ++ "]"

/-- The Go value `mergePatch` of the finalizer functions:
`map{"metadata": map{"finalizers": ..., "resourceVersion": ...}}`. -/
structure MergePatch where
  finalizers : List String
  resourceVersion : String
deriving DecidableEq, Repr

/-- Body of a merge patch (`json.Marshal(mergePatch)`); the keys of a Go map are
encoded in sorted order. -/
def marshalMergePatch (p : MergePatch) : String :=
  "\x7b\"metadata\":\x7b\"finalizers\":" ++ jsonStringArray p.finalizers ++
    ",\"resourceVersion\":" ++ jsonString p.resourceVersion ++ "\x7d\x7d"

/-! ## Status helpers (`scheduler_lifecycle.go`) -/

/-- Modelled from the spec: the condition set behind `schedulerCondSet`
(declared in `scheduler_types.go`, not under `src/`, and managed by the
condition library). Read of one named condition. -/
def Conditions.GetCondition (c : Conditions) : ConditionType → Option Condition
  | ConditionType.PullSubscriptionReady => c.PullSubscriptionReady
  | ConditionType.TopicReady => c.TopicReady
  | ConditionType.NotificationReady => c.NotificationReady

/-- Modelled from the spec: write of exactly one named condition of the
condition set behind `schedulerCondSet` (not under `src/`). -/
def Conditions.SetCondition (c : Conditions) (t : ConditionType) (v : Condition) : Conditions :=
  match t with
  | ConditionType.PullSubscriptionReady => { c with PullSubscriptionReady := some v }
  | ConditionType.TopicReady => { c with TopicReady := some v }
  | ConditionType.NotificationReady => { c with NotificationReady := some v }

/-- Modelled from the spec: `InitializeConditions` of the condition set behind
`schedulerCondSet` (not under `src/`) sets any condition not yet observed to
Unknown and never regresses one already True or False. -/
def Conditions.InitializeConditions (c : Conditions) : Conditions :=
  let unknown : Condition :=
    { Status := ConditionStatus.ConditionUnknown, Reason := "", Message := "" }
  { PullSubscriptionReady := some (c.PullSubscriptionReady.getD unknown)
    TopicReady := some (c.TopicReady.getD unknown)
    NotificationReady := some (c.NotificationReady.getD unknown) }

/-- Modelled from the spec: `MarkTrue` of the condition set behind
`schedulerCondSet` (not under `src/`) sets one named condition to True. -/
def Conditions.MarkTrue (c : Conditions) (t : ConditionType) : Conditions :=
  c.SetCondition t { Status := ConditionStatus.ConditionTrue, Reason := "", Message := "" }

/-- Modelled from the spec: `MarkFalse` of the condition set behind
`schedulerCondSet` (not under `src/`) sets one named condition to False with a
reason and the formatted message. -/
def Conditions.MarkFalse (c : Conditions) (t : ConditionType) (reason message : String) :
    Conditions :=
  c.SetCondition t { Status := ConditionStatus.ConditionFalse, Reason := reason, Message := message }

/-- Modelled from the spec: `IsHappy` of the condition set behind
`schedulerCondSet` (not under `src/`) is the conjunction of the named
conditions, computed when queried. -/
def Conditions.IsHappy (c : Conditions) : Bool :=
  let isTrue : Option Condition → Bool := fun o =>
    match o with
    | some v => decide (v.Status = ConditionStatus.ConditionTrue)
    | none => false
  isTrue c.PullSubscriptionReady && isTrue c.TopicReady && isTrue c.NotificationReady

/-- `SchedulerStatus.GetCondition`. -/
def SchedulerStatus.GetCondition (s : SchedulerStatus) (t : ConditionType) : Option Condition :=
  s.Conditions.GetCondition t

/-- `SchedulerStatus.IsReady`. -/
def SchedulerStatus.IsReady (s : SchedulerStatus) : Bool :=
  s.Conditions.IsHappy

/-- `SchedulerStatus.InitializeConditions`. -/
def SchedulerStatus.InitializeConditions (s : SchedulerStatus) : SchedulerStatus :=
  { s with Conditions := s.Conditions.InitializeConditions }

/-- `SchedulerStatus.MarkPullSubscriptionNotReady`; the message arrives
formatted. -/
def SchedulerStatus.MarkPullSubscriptionNotReady (s : SchedulerStatus)
    (reason message : String) : SchedulerStatus :=
  { s with Conditions := s.Conditions.MarkFalse ConditionType.PullSubscriptionReady reason message }

/-- `SchedulerStatus.MarkPullSubscriptionReady`. -/
def SchedulerStatus.MarkPullSubscriptionReady (s : SchedulerStatus) : SchedulerStatus :=
  { s with Conditions := s.Conditions.MarkTrue ConditionType.PullSubscriptionReady }

/-- `SchedulerStatus.MarkTopicNotReady`; the message arrives formatted. -/
def SchedulerStatus.MarkTopicNotReady (s : SchedulerStatus)
    (reason message : String) : SchedulerStatus :=
  { s with Conditions := s.Conditions.MarkFalse ConditionType.TopicReady reason message }

/-- `SchedulerStatus.MarkTopicReady`. -/
def SchedulerStatus.MarkTopicReady (s : SchedulerStatus) : SchedulerStatus :=
  { s with Conditions := s.Conditions.MarkTrue ConditionType.TopicReady }

/-- The marker `scheduler.go` calls as `MarkGCSNotReady`
(`MarkSchedulerJobNotReady` in `scheduler_lifecycle.go`); the message arrives
formatted. -/
def SchedulerStatus.MarkGCSNotReady (s : SchedulerStatus)
    (reason message : String) : SchedulerStatus :=
  { s with Conditions := s.Conditions.MarkFalse ConditionType.NotificationReady reason message }

/-- The marker `scheduler.go` calls as `MarkGCSReady` (`MarkSchedulerJobReady`
in `scheduler_lifecycle.go`). -/
def SchedulerStatus.MarkGCSReady (s : SchedulerStatus) : SchedulerStatus :=
  { s with Conditions := s.Conditions.MarkTrue ConditionType.NotificationReady }

/-! ## Packages outside `src/` used by the reconciler -/

/-- Modelled from the spec: the action constant `ops.ActionCreate` of
`pkg/operations` (not under `src/`); the tests compare it with "create". -/
def ActionCreate : String := "create"

/-- Modelled from the spec: the action constant `ops.ActionDelete` of
`pkg/operations` (not under `src/`), the action of the teardown job. -/
def ActionDelete : String := "delete"

/-- Modelled from the spec: `ops.GetFirstTerminationMessage` of
`pkg/operations` (not under `src/`) reads the termination message from the
first container's terminated state; it is empty when there is none. -/
def GetFirstTerminationMessage (pod : Pod) : String :=
  match pod.ContainerStatuses with
  | [] => ""
  | cs :: _ => cs.Terminated.getD ""

/-- Modelled from the spec: `ops.IsJobComplete` of `pkg/operations` (not under
`src/`): a job is finished when it carries the completion condition with
status True, as the finished jobs of the tests do. -/
def IsJobComplete (job : Job) : Bool :=
  job.Status.Conditions.any fun c =>
    decide (c.CondType = JobConditionType.JobComplete) &&
      decide (c.Status = ConditionStatus.ConditionTrue)

/-- Modelled from the spec: `ops.IsJobFailed` of `pkg/operations` (not under
`src/`): the success/failure condition of the job reports failure. -/
def IsJobFailed (job : Job) : Bool :=
  job.Status.Conditions.any fun c =>
    decide (c.CondType = JobConditionType.JobFailed) &&
      decide (c.Status = ConditionStatus.ConditionTrue)

/-- Modelled from the spec: `ops.IsJobSucceeded` of `pkg/operations` (not under
`src/`): the success/failure condition of the job does not report failure. -/
def IsJobSucceeded (job : Job) : Bool :=
  !IsJobFailed job

/-- Modelled from the spec: `operations.NewNotificationOps` of
`pkg/operations/scheduler` (not under `src/`) builds the job of an owner and
an action: named deterministically, in the owner's namespace, carrying the
arguments, with nothing observed yet. -/
def NewNotificationOps (w : World) (args : NotificationArgs) : Job :=
  { Namespace := args.Owner.Namespace
    Name := w.NotificationJobName args.Owner args.Action
    Args := args
    Status := { Conditions := [] } }

/-- Modelled from the spec: the owner reference every created sub-resource
carries (`kmeta.NewControllerRef` of the Scheduler), as the tests expect it. -/
def ownerRef (source : Scheduler) : OwnerReference :=
  { APIVersion := "events.cloud.run/v1alpha1"
    Kind := "Scheduler"
    Name := source.ObjectMeta.Name
    UID := source.ObjectMeta.UID
    Controller := some true
    BlockOwnerDeletion := some true }

/-- Modelled from the spec: metadata of a created sub-resource, of the
`resources` package (only its tests are under `src/`): the owner's namespace
and name, the discovery label and the owner reference. -/
def subResourceMeta (source : Scheduler) : ObjectMeta :=
  { Namespace := source.ObjectMeta.Namespace
    Name := source.ObjectMeta.Name
    UID := ""
    ResourceVersion := ""
    Finalizers := []
    DeletionTimestamp := none
    Labels := [("receive-adapter", "scheduler.events.cloud.run")]
    OwnerReferences := [ownerRef source] }

/-- Modelled from the spec: `resources.MakeTopic` (only its test is under
`src/`): the desired Topic of an owner, with the create-and-delete policy. -/
def MakeTopic (source : Scheduler) (topic : String) : Topic :=
  { ObjectMeta := subResourceMeta source
    Spec := { Secret := some source.Spec.GCSSecret
              Project := source.Spec.Project
              Topic := topic
              PropagationPolicy := "CreateDelete" }
    Status := { IsReady := false, ProjectID := "", TopicID := "" } }

/-- Modelled from the spec: `resources.MakePullSubscription` (only its test is
under `src/`): the desired PullSubscription of an owner. -/
def MakePullSubscription (source : Scheduler) (topic : String) : PullSubscription :=
  { ObjectMeta := subResourceMeta source
    Spec := { Secret := some source.Spec.GCSSecret
              Project := source.Spec.Project
              Topic := topic
              Sink := source.Spec.Sink
              CloudEventOverrides := source.Spec.CloudEventOverrides }
    Status := { IsReady := false, SinkURI := "" } }

/-- Pieces of a key between slashes (`strings.Split(key, "/")`). -/
def splitOnSlash : List Char → List (List Char)
  | [] => [[]]
  | c :: cs =>
    match splitOnSlash cs with
    | [] => [[c]]
    | p :: ps => if c = '/' then [] :: p :: ps else (c :: p) :: ps

/-- The function `cache.SplitMetaNamespaceKey`: one piece is a name in the
empty namespace, two pieces are a namespace and a name, anything else is an
error. -/
def SplitMetaNamespaceKey (key : String) : Option (String × String) :=
  match splitOnSlash key.data with
  | [name] => some ("", String.mk name)
  | [ns, name] => some (String.mk ns, String.mk name)
  | _ => none

/-! ## The reconciler (`scheduler.go`) -/

/-- Results of a function that returns an error and may change the object it
is given: the Go results, and the external calls issued, in order. -/
structure Result (α : Type) where
  value : α
  err : Option GoError
  calls : List Call

/-- `Reconciler.ensureNotificationJob`. -/
def ensureNotificationJob (w : World) (args : NotificationArgs) : Result OpsJobStatus :=
  let jobName := w.NotificationJobName args.Owner args.Action
  let get := Call.JobListerGet args.Owner.Namespace jobName
  match w.JobListerGet args.Owner.Namespace jobName with
  | Except.error err =>
    if err.IsNotFound then
      let args1 := { args with Image := w.NotificationOpsImage }
      let job := NewNotificationOps w args1
      let created := w.JobsCreate job
      if created.2.isSome || created.1.isNone then
        { value := OpsJobStatus.OpsJobCreateFailed, err := none, calls := [get, Call.JobsCreate job] }
      else
        { value := OpsJobStatus.OpsJobCreated, err := none, calls := [get, Call.JobsCreate job] }
    else
      { value := OpsJobStatus.OpsJobGetFailed, err := some err, calls := [get] }
  | Except.ok job =>
    if IsJobComplete job then
      if IsJobSucceeded job then
        { value := OpsJobStatus.OpsJobCompleteSuccessful, err := none, calls := [get] }
      else if IsJobFailed job then
        { value := OpsJobStatus.OpsJobCompleteFailed
          err := some (errorsNew (w.JobFailedMessage job)), calls := [get] }
      else
        { value := OpsJobStatus.OpsJobOngoing, err := none, calls := [get] }
    else
      { value := OpsJobStatus.OpsJobOngoing, err := none, calls := [get] }

/-- `Reconciler.EnsureNotification`. -/
def EnsureNotification (w : World) (UID : String) (owner : ObjectMeta)
    (secret : SecretKeySelector) (project bucket topic : String) : Result OpsJobStatus :=
  ensureNotificationJob w
    { UID := UID, Image := w.NotificationOpsImage, Action := ActionCreate, ProjectID := project,
      Bucket := bucket, TopicID := topic, NotificationId := "", Secret := secret, Owner := owner }

/-- `Reconciler.EnsureNotificationDeleted`. -/
def EnsureNotificationDeleted (w : World) (UID : String) (owner : ObjectMeta)
    (secret : SecretKeySelector) (project bucket notificationId : String) :
    Result OpsJobStatus :=
  ensureNotificationJob w
    { UID := UID, Image := w.NotificationOpsImage, Action := ActionDelete, ProjectID := project,
      Bucket := bucket, TopicID := "", NotificationId := notificationId, Secret := secret,
      Owner := owner }

/-- `Reconciler.reconcileNotification`: the notification identifier and the
error. -/
def reconcileNotification (w : World) (scheduler : Scheduler) : Result String :=
  let st := EnsureNotification w scheduler.ObjectMeta.UID scheduler.ObjectMeta
    scheduler.Spec.GCSSecret scheduler.Status.ProjectID scheduler.Spec.Bucket
    scheduler.Status.TopicID
  if st.value = OpsJobStatus.OpsJobCreateFailed ∨ st.value = OpsJobStatus.OpsJobCompleteFailed then
    { value := ""
      err := some (errorsNew ("Job " ++ w.Quote scheduler.ObjectMeta.Name ++
        " failed to create or job failed"))
      calls := st.calls }
  else if st.value ≠ OpsJobStatus.OpsJobCompleteSuccessful then
    { value := ""
      err := some (errorsNew ("Job " ++ w.Quote scheduler.ObjectMeta.Name ++
        " has not completed yet"))
      calls := st.calls }
  else
    let look := Call.GetJobPod scheduler.ObjectMeta.Namespace scheduler.ObjectMeta.UID "create"
    match w.GetJobPod scheduler.ObjectMeta.Namespace scheduler.ObjectMeta.UID "create" with
    | Except.error err => { value := "", err := some err, calls := st.calls ++ [look] }
    | Except.ok pod =>
      let terminationMessage := GetFirstTerminationMessage pod
      if terminationMessage = "" then
        { value := ""
          err := some (errorsNew ("did not find termination message for pod " ++
            w.Quote pod.Name))
          calls := st.calls ++ [look] }
      else
        match w.Unmarshal terminationMessage with
        | Except.error e =>
          { value := ""
            err := some (errorsNew ("failed to unmarshal terminationmessage: " ++ w.Quote e))
            calls := st.calls ++ [look] }
        | Except.ok nar =>
          if nar.Result = false then
            { value := "", err := some (errorsNew nar.Error), calls := st.calls ++ [look] }
          else
            { value := nar.NotificationId, err := none, calls := st.calls ++ [look] }

/-- `Reconciler.reconcileTopic`. -/
def reconcileTopic (w : World) (csr : Scheduler) (topic : String) :
    Except GoError Topic × List Call :=
  let get := Call.TopicsGet csr.ObjectMeta.Namespace csr.ObjectMeta.Name
  match w.TopicsGet csr.ObjectMeta.Namespace csr.ObjectMeta.Name with
  | Except.ok existing => (Except.ok existing, [get])
  | Except.error err =>
    if err.IsNotFound then
      let t := MakeTopic csr topic
      (w.TopicsCreate t, [get, Call.TopicsCreate t])
    else (Except.error err, [get])

/-- `Reconciler.deleteTopic`. -/
def deleteTopic (w : World) (ns name : String) : Option GoError × List Call :=
  match w.TopicsDelete ns name with
  | none => (none, [Call.TopicsDelete ns name])
  | some err =>
    if err.IsNotFound then (none, [Call.TopicsDelete ns name])
    else (some err, [Call.TopicsDelete ns name])

/-- `Reconciler.reconcilePullSubscription`. -/
def reconcilePullSubscription (w : World) (csr : Scheduler) (topic : String) :
    Except GoError PullSubscription × List Call :=
  let get := Call.PullSubscriptionsGet csr.ObjectMeta.Namespace csr.ObjectMeta.Name
  match w.PullSubscriptionsGet csr.ObjectMeta.Namespace csr.ObjectMeta.Name with
  | Except.ok existing => (Except.ok existing, [get])
  | Except.error err =>
    if err.IsNotFound then
      let pubsub := MakePullSubscription csr topic
      (w.PullSubscriptionsCreate pubsub, [get, Call.PullSubscriptionsCreate pubsub])
    else (Except.error err, [get])

/-- `Reconciler.deletePullSubscription`. -/
def deletePullSubscription (w : World) (csr : Scheduler) : Option GoError × List Call :=
  let del := Call.PullSubscriptionsDelete csr.ObjectMeta.Namespace csr.ObjectMeta.Name
  match w.PullSubscriptionsDelete csr.ObjectMeta.Namespace csr.ObjectMeta.Name with
  | none => (none, [del])
  | some err => if err.IsNotFound then (none, [del]) else (some err, [del])

/-- `Reconciler.deleteNotification`: the Scheduler as the function leaves it,
and the error. -/
def deleteNotification (w : World) (scheduler : Scheduler) : Result Scheduler :=
  if scheduler.Status.NotificationID = "" then
    { value := scheduler, err := none, calls := [] }
  else
    let st := EnsureNotificationDeleted w scheduler.ObjectMeta.UID scheduler.ObjectMeta
      scheduler.Spec.GCSSecret scheduler.Spec.Project scheduler.Spec.Bucket
      scheduler.Status.NotificationID
    if st.value ≠ OpsJobStatus.OpsJobCompleteSuccessful then
      { value := scheduler
        err := some (errorsNew ("Job " ++ w.Quote scheduler.ObjectMeta.Name ++
          " has not completed yet"))
        calls := st.calls }
    else
      let look := Call.GetJobPod scheduler.ObjectMeta.Namespace scheduler.ObjectMeta.UID "delete"
      match w.GetJobPod scheduler.ObjectMeta.Namespace scheduler.ObjectMeta.UID "delete" with
      | Except.error err => { value := scheduler, err := some err, calls := st.calls ++ [look] }
      | Except.ok pod =>
        let terminationMessage := GetFirstTerminationMessage pod
        if terminationMessage = "" then
          { value := scheduler
            err := some (errorsNew ("did not find termination message for pod " ++
              w.Quote pod.Name))
            calls := st.calls ++ [look] }
        else
          match w.Unmarshal terminationMessage with
          | Except.error e =>
            { value := scheduler
              err := some (errorsNew ("failed to unmarshal terminationmessage: " ++ w.Quote e))
              calls := st.calls ++ [look] }
          | Except.ok nar =>
            if nar.Result = false then
              { value := scheduler, err := some (errorsNew nar.Error), calls := st.calls ++ [look] }
            else
              { value := { scheduler with Status := { scheduler.Status with NotificationID := "" } }
                err := none
                calls := st.calls ++ [look] }

/-- `Reconciler.ensureFinalizer`. Encoding the patch cannot fail: the body holds
strings only. -/
def ensureFinalizer (w : World) (csr : Scheduler) : Result Unit :=
  if finalizerName ∈ csr.ObjectMeta.Finalizers then
    { value := (), err := none, calls := [] }
  else
    let mergePatch : MergePatch :=
      { finalizers := csr.ObjectMeta.Finalizers ++ [finalizerName]
        resourceVersion := csr.ObjectMeta.ResourceVersion }
    let patch := marshalMergePatch mergePatch
    { value := ()
      err := w.SchedulersPatch csr.ObjectMeta.Namespace csr.ObjectMeta.Name patch
      calls := [Call.SchedulersPatch csr.ObjectMeta.Namespace csr.ObjectMeta.Name patch] }

/-- `Reconciler.removeFinalizer`. -/
def removeFinalizer (w : World) (csr : Scheduler) : Result Unit :=
  match csr.ObjectMeta.Finalizers with
  | [] => { value := (), err := none, calls := [] }
  | first :: rest =>
    if first ≠ finalizerName then
      { value := (), err := none, calls := [] }
    else
      let mergePatch : MergePatch :=
        { finalizers := rest, resourceVersion := csr.ObjectMeta.ResourceVersion }
      let patch := marshalMergePatch mergePatch
      { value := ()
        err := w.SchedulersPatch csr.ObjectMeta.Namespace csr.ObjectMeta.Name patch
        calls := [Call.SchedulersPatch csr.ObjectMeta.Namespace csr.ObjectMeta.Name patch] }

/-- `Reconciler.reconcile`: the Scheduler as the pass leaves it, and the
error. -/
def reconcile (w : World) (csr : Scheduler) : Result Scheduler :=
  let notificationID := csr.Status.NotificationID
  let topic0 := csr.Status.TopicID
  let csr1 : Scheduler :=
    { csr with Status := { csr.Status.InitializeConditions with NotificationID := notificationID } }
  let topic := if topic0 = "" then "scheduler-" ++ csr1.ObjectMeta.UID else topic0
  match csr1.ObjectMeta.DeletionTimestamp with
  | some _ =>
    let dn := deleteNotification w csr1
    match dn.err with
    | some err => { value := dn.value, err := some err, calls := dn.calls }
    | none =>
      let csr2 := dn.value
      let dt := deleteTopic w csr2.ObjectMeta.Namespace csr2.ObjectMeta.Name
      match dt.1 with
      | some err => { value := csr2, err := some err, calls := dn.calls ++ dt.2 }
      | none =>
        let csr3 : Scheduler := { csr2 with Status := { csr2.Status with TopicID := "" } }
        let dp := deletePullSubscription w csr3
        match dp.1 with
        | some err => { value := csr3, err := some err, calls := dn.calls ++ dt.2 ++ dp.2 }
        | none =>
          let rf := removeFinalizer w csr3
          { value := csr3, err := none, calls := dn.calls ++ dt.2 ++ dp.2 ++ rf.calls }
  | none =>
    let ef := ensureFinalizer w csr1
    match ef.err with
    | some err => { value := csr1, err := some err, calls := ef.calls }
    | none =>
      let rt := reconcileTopic w csr1 topic
      match rt.1 with
      | Except.error err =>
        { value := { csr1 with Status := (csr1.Status.MarkTopicNotReady "TopicNotReady"
                      ("Failed to reconcile Topic: " ++ err.Error)) }
          err := some err
          calls := ef.calls ++ rt.2 }
      | Except.ok t =>
        if t.Status.IsReady = false then
          { value := { csr1 with Status := (csr1.Status.MarkTopicNotReady "TopicNotReady"
                        ("Topic " ++ t.ObjectMeta.Namespace ++ "/" ++ t.ObjectMeta.Name ++
                          " not ready")) }
            err := some (errorsNew "topic not ready")
            calls := ef.calls ++ rt.2 }
        else if t.Status.ProjectID = "" then
          { value := { csr1 with Status := (csr1.Status.MarkTopicNotReady "TopicNotReady"
                        ("Topic " ++ t.ObjectMeta.Namespace ++ "/" ++ t.ObjectMeta.Name ++
                          " did not expose projectid")) }
            err := some (errorsNew "topic did not expose projectid")
            calls := ef.calls ++ rt.2 }
        else if t.Status.TopicID = "" then
          { value := { csr1 with Status := (csr1.Status.MarkTopicNotReady "TopicNotReady"
                        ("Topic " ++ t.ObjectMeta.Namespace ++ "/" ++ t.ObjectMeta.Name ++
                          " did not expose topicid")) }
            err := some (errorsNew "topic did not expose topicid")
            calls := ef.calls ++ rt.2 }
        else if t.Status.TopicID ≠ topic then
          { value := { csr1 with Status := (csr1.Status.MarkTopicNotReady "TopicNotReady"
                        ("Topic " ++ t.ObjectMeta.Namespace ++ "/" ++ t.ObjectMeta.Name ++
                          " topic mismatch expected " ++ w.Quote topic ++ " got " ++
                          w.Quote t.Status.TopicID)) }
            err := some (errorsNew ("topic did not match expected: " ++ w.Quote topic ++
              " got: " ++ w.Quote t.Status.TopicID))
            calls := ef.calls ++ rt.2 }
        else
          let csr2 : Scheduler :=
            { csr1 with Status := ({ csr1.Status with TopicID := t.Status.TopicID
                                                      ProjectID := t.Status.ProjectID }
                                    : SchedulerStatus).MarkTopicReady }
          let rp := reconcilePullSubscription w csr2 topic
          match rp.1 with
          | Except.error err =>
            { value := { csr2 with Status := (csr2.Status.MarkPullSubscriptionNotReady
                          "PullSubscriptionNotReady"
                          ("Failed to reconcile PullSubscription Source: " ++ err.Error)) }
              err := some err
              calls := ef.calls ++ rt.2 ++ rp.2 }
          | Except.ok ps =>
            if ps.Status.IsReady = false then
              { value := { csr2 with Status := (csr2.Status.MarkPullSubscriptionNotReady
                            "PullSubscriptionNotReady"
                            ("PullSubscription " ++ t.ObjectMeta.Namespace ++ "/" ++
                              t.ObjectMeta.Name ++ " not ready")) }
                err := some (errorsNew "PullSubscription not ready")
                calls := ef.calls ++ rt.2 ++ rp.2 }
            else
              let csr3 : Scheduler := { csr2 with Status := csr2.Status.MarkPullSubscriptionReady }
              match w.ParseURL ps.Status.SinkURI with
              | Except.error e =>
                { value := csr3
                  err := some (errorsNew ("failed to parse url " ++ w.Quote ps.Status.SinkURI ++
                    " : " ++ w.Quote e))
                  calls := ef.calls ++ rt.2 ++ rp.2 }
              | Except.ok uri =>
                let csr4 : Scheduler := { csr3 with Status := { csr3.Status with SinkURI := uri } }
                let rn := reconcileNotification w csr4
                match rn.err with
                | some err =>
                  { value := { csr4 with Status := (csr4.Status.MarkGCSNotReady "GCSNotReady"
                                ("Failed to create Scheduler notification: " ++ err.Error)) }
                    err := some err
                    calls := ef.calls ++ rt.2 ++ rp.2 ++ rn.calls }
                | none =>
                  { value := { csr4 with Status :=
                                { csr4.Status.MarkGCSReady with NotificationID := rn.value } }
                    err := none
                    calls := ef.calls ++ rt.2 ++ rp.2 ++ rn.calls }

/-- `Reconciler.updateStatus`; reporting of the became-ready transition is not
represented. -/
def updateStatus (w : World) (desired : Scheduler) : Except GoError Scheduler × List Call :=
  let get := Call.SchedulerListerGet desired.ObjectMeta.Namespace desired.ObjectMeta.Name
  match w.SchedulerListerGetAgain desired.ObjectMeta.Namespace desired.ObjectMeta.Name with
  | Except.error err => (Except.error err, [get])
  | Except.ok source =>
    if source.Status = desired.Status then (Except.ok source, [get])
    else
      let existing : Scheduler := { source with Status := desired.Status }
      (w.SchedulersUpdateStatus existing, [get, Call.SchedulersUpdateStatus existing])

/-- `Reconciler.Reconcile`: the error returned to the dispatcher and the
external calls of the pass. Semantic deep equality of status and metadata is
equality of the embedded values. -/
def Reconcile (w : World) (key : String) : Option GoError × List Call :=
  match SplitMetaNamespaceKey key with
  | none => (none, [])
  | some (ns, name) =>
    let get := Call.SchedulerListerGet ns name
    match w.SchedulerListerGet ns name with
    | Except.error err => if err.IsNotFound then (none, [get]) else (some err, [get])
    | Except.ok original =>
      let r := reconcile w original
      let csr := r.value
      if original.Status = csr.Status ∧ original.ObjectMeta = csr.ObjectMeta then
        (r.err, get :: r.calls)
      else
        let us := updateStatus w csr
        match us.1 with
        | Except.error err => (some err, get :: (r.calls ++ us.2))
        | Except.ok _ => (r.err, get :: (r.calls ++ us.2))

/-! ## Fixtures, after `scheduler_test.go` -/

/-- Quoting of a printable text without quotes or backslashes. -/
def quoteText (s : String) : String := "\"" ++ s ++ "\""

/-- A not-found API status. -/
def notFound : GoError := { IsNotFound := true, Error := "not found" }

/-- Decoder used by the fixtures: it knows the success result of the tests and
rejects every other message. -/
def unmarshalFixture (s : String) : Except String NotificationActionResult :=
  if s = "\x7b\"result\":true,\"notificationId\":\"135\",\"projectId\":\"test-project-id\"\x7d" then
    Except.ok { Result := true, Error := "", NotificationId := "135", ProjectId := "test-project-id" }
  else Except.error "invalid character"

/-- A cluster holding nothing, where every write succeeds. -/
def quietWorld : World :=
  { NotificationOpsImage := "notification-ops-image"
    Quote := quoteText
    Unmarshal := unmarshalFixture
    ParseURL := fun s => if s = "" then Except.ok none else Except.ok (some { Raw := s })
    NotificationJobName := fun owner action => "scheduler-" ++ owner.UID ++ "-" ++ action
    JobFailedMessage := fun _ => "job failed"
    SchedulerListerGet := fun _ _ => Except.error notFound
    SchedulerListerGetAgain := fun _ _ => Except.error notFound
    TopicsGet := fun _ _ => Except.error notFound
    TopicsCreate := fun t => Except.ok t
    TopicsDelete := fun _ _ => none
    PullSubscriptionsGet := fun _ _ => Except.error notFound
    PullSubscriptionsCreate := fun ps => Except.ok ps
    PullSubscriptionsDelete := fun _ _ => none
    JobListerGet := fun _ _ => Except.error notFound
    JobsCreate := fun job => (some job, none)
    GetJobPod := fun _ _ _ => Except.error (errorsNew "Pod not found")
    SchedulersPatch := fun _ _ _ => none
    SchedulersUpdateStatus := fun s => Except.ok s }

/-- Metadata of the Scheduler of the tests, with the given finalizers. -/
def testMeta (finalizers : List String) (deletion : Option Nat) : ObjectMeta :=
  { Namespace := "testnamespace"
    Name := "my-test-scheduler"
    UID := "test-scheduler-uid"
    ResourceVersion := ""
    Finalizers := finalizers
    DeletionTimestamp := deletion
    Labels := []
    OwnerReferences := [] }

/-- Status with nothing observed. -/
def emptyStatus : SchedulerStatus :=
  { Conditions := { PullSubscriptionReady := none, TopicReady := none, NotificationReady := none }
    SinkURI := none
    NotificationID := ""
    ProjectID := ""
    TopicID := "" }

/-- The Scheduler of the tests, with the given finalizers, deletion timestamp
and status. -/
def testScheduler (finalizers : List String) (deletion : Option Nat)
    (status : SchedulerStatus) : Scheduler :=
  { ObjectMeta := testMeta finalizers deletion
    Spec := { Secret := some { Name := "google-cloud-key", Key := "key.json" }
              GCSSecret := { Name := "google-cloud-key", Key := "key.json" }
              Project := ""
              Bucket := "my-test-bucket"
              Sink := { ObjectReference := some { APIVersion := "testing.cloud.run/v1alpha1"
                                                  Kind := "Sink"
                                                  Namespace := ""
                                                  Name := "sink" }
                        URI := none }
              CloudEventOverrides := none }
    Status := status }

/-- A call of the business logic: to the Topics, the PullSubscriptions, the
job executor or the patch endpoint, never a lister read or a status write. -/
def Call.isBusiness (c : Call) : Bool :=
  decide (c.target = CallTarget.Topics) || decide (c.target = CallTarget.PullSubscriptions) ||
  decide (c.target = CallTarget.Jobs) || decide (c.target = CallTarget.SchedulersPatch)


/-- Status of the tests after a pass that found the Topic not ready. -/
def topicNotReadyStatus : SchedulerStatus :=
  { Conditions :=
      { PullSubscriptionReady := some { Status := ConditionStatus.ConditionUnknown, Reason := "", Message := "" }
        TopicReady := some { Status := ConditionStatus.ConditionFalse, Reason := "TopicNotReady"
                             Message := "Topic testnamespace/my-test-scheduler not ready" }
        NotificationReady := some { Status := ConditionStatus.ConditionUnknown, Reason := "", Message := "" } }
    SinkURI := none
    NotificationID := ""
    ProjectID := ""
    TopicID := "" }

/-- The Topic of the tests with the given status. -/
def testTopic (status : TopicStatus) : Topic :=
  { ObjectMeta := subResourceMeta (testScheduler [] none emptyStatus)
    Spec := { Secret := none, Project := "", Topic := "scheduler-test-scheduler-uid"
              PropagationPolicy := "CreateDelete" }
    Status := status }

/-- A cluster whose informer cache holds the Scheduler of the tests, already
marked by an earlier pass, and whose Topic exists and is not ready. -/
def topicPendingWorld : World :=
  { quietWorld with
    SchedulerListerGet := fun _ _ =>
      Except.ok (testScheduler [finalizerName] none topicNotReadyStatus)
    TopicsGet := fun _ _ =>
      Except.ok (testTopic { IsReady := false, ProjectID := "", TopicID := "" }) }

/-- Encoded result of a successful job, as the tests build it. -/
def successMessage : String :=
  "\x7b\"result\":true,\"notificationId\":\"135\",\"projectId\":\"test-project-id\"\x7d"

/-- A finished job of the Scheduler of the tests, succeeded or failed. -/
def finishedJob (action : String) (success : Bool) : Job :=
  { Namespace := "testnamespace"
    Name := "scheduler-test-scheduler-uid-" ++ action
    Args := { UID := "test-scheduler-uid", Image := "notification-ops-image", Action := action
              ProjectID := "test-project-id", Bucket := "my-test-bucket"
              TopicID := "scheduler-test-scheduler-uid", NotificationId := ""
              Secret := { Name := "google-cloud-key", Key := "key.json" }
              Owner := testMeta [] none }
    Status :=
      { Conditions :=
          [{ CondType := JobConditionType.JobComplete, Status := ConditionStatus.ConditionTrue },
           { CondType := JobConditionType.JobFailed
             Status := if success then ConditionStatus.ConditionFalse
                       else ConditionStatus.ConditionTrue }] } }

/-- The pod of the tests, terminated with the given message. -/
def testPod (msg : String) : Pod :=
  { Namespace := "testnamespace", Name := "test-pod"
    ContainerStatuses := [{ Terminated := some msg }] }

/-- Status of a Scheduler whose notification was created. -/
def notifiedStatus : SchedulerStatus :=
  { emptyStatus with NotificationID := "135", TopicID := "scheduler-test-scheduler-uid"
                     ProjectID := "test-project-id" }

/-- A cluster in which the job deleting the notification has finished
successfully and left its result. -/
def teardownWorld : World :=
  { quietWorld with
    JobListerGet := fun _ _ => Except.ok (finishedJob ActionDelete true)
    GetJobPod := fun _ _ _ => Except.ok (testPod successMessage) }

/-- A cluster that rejects every patch of the Scheduler. -/
def patchFailingWorld : World :=
  { quietWorld with SchedulersPatch := fun _ _ _ => some (errorsNew "conflict") }

/-- A cluster whose Topic is ready under an unexpected topic identifier. -/
def topicMismatchWorld : World :=
  { quietWorld with
    TopicsGet := fun _ _ =>
      Except.ok (testTopic { IsReady := true, ProjectID := "test-project-id"
                             TopicID := "garbaaaaage" }) }

/-- A cluster whose Topic is ready under the requested topic identifier. -/
def topicReadyWorld : World :=
  { quietWorld with
    TopicsGet := fun _ _ =>
      Except.ok (testTopic { IsReady := true, ProjectID := "test-project-id"
                             TopicID := "scheduler-test-scheduler-uid" }) }

/-- The Scheduler after the first lines of `reconcile`: conditions
initialized, notification identifier restored. -/
def withInitializedConditions (csr : Scheduler) : Scheduler :=
  { csr with
    Status := { csr.Status.InitializeConditions with NotificationID := csr.Status.NotificationID } }

/-- The topic name a pass requests: the recorded one, else one derived from
the UID. -/
def requestedTopic (csr : Scheduler) : String :=
  if csr.Status.TopicID = "" then "scheduler-" ++ csr.ObjectMeta.UID else csr.Status.TopicID

/-- Whether a condition of a status is True. -/
def SchedulerStatus.isTrue (s : SchedulerStatus) (t : ConditionType) : Bool :=
  match s.GetCondition t with
  | some c => decide (c.Status = ConditionStatus.ConditionTrue)
  | none => false

/-- A call that touches an externally visible resource: a Topic, a
PullSubscription or a notification job. -/
def Call.touchesResource (c : Call) : Bool :=
  decide (c.target = CallTarget.Topics) || decide (c.target = CallTarget.PullSubscriptions) ||
  decide (c.target = CallTarget.Jobs)


/-! ## Job result payload -/

/-- Characters of the JSON encoding of a string. -/
def jsonStringChars (s : String) : List Char :=
  Char.ofNat 34 :: (s.data.flatMap jsonEscapeChar ++ [Char.ofNat 34])

/-- One member of a JSON object: the encoded key, a colon, the encoded value. -/
def jsonMember (key : String) (value : List Char) : List Char :=
  jsonStringChars key ++ ':' :: value

/-- Members of the encoding of a result, in the order of the fields of the
struct; the tags of the struct give the keys and omit every empty field. -/
def marshalResultMembers (r : NotificationActionResult) : List (List Char) :=
  (if r.Result = true then [jsonMember "result" ['t', 'r', 'u', 'e']] else []) ++
  (if r.Error = "" then [] else [jsonMember "error" (jsonStringChars r.Error)]) ++
  (if r.NotificationId = "" then [] else
    [jsonMember "notificationId" (jsonStringChars r.NotificationId)]) ++
  (if r.ProjectId = "" then [] else [jsonMember "projectId" (jsonStringChars r.ProjectId)])

/-- Members of an object separated by commas. -/
def joinComma : List (List Char) → List Char
  | [] => []
  | [m] => m
  | m :: ms => m ++ ',' :: joinComma ms

/-- Encoding of a result as the job writes it into its termination message
(`json.Marshal` of `operations.NotificationActionResult`). -/
def marshalResult (r : NotificationActionResult) : String :=
  String.mk (Char.ofNat 123 :: (joinComma (marshalResultMembers r) ++ [Char.ofNat 125]))

/-- Value of a hexadecimal digit. -/
def hexValue (c : Char) : Option Nat :=
  if 48 ≤ c.toNat ∧ c.toNat ≤ 57 then some (c.toNat - 48)
  else if 97 ≤ c.toNat ∧ c.toNat ≤ 102 then some (c.toNat - 87)
  else if 65 ≤ c.toNat ∧ c.toNat ≤ 70 then some (c.toNat - 55)
  else none

/-- Character of a `\uXXXX` escape; a surrogate half alone stands for the
replacement character. -/
def escapedChar (n : Nat) : Char :=
  if 55296 ≤ n ∧ n ≤ 57343 then Char.ofNat 65533 else Char.ofNat n

/-- Character of a one-letter escape. -/
def simpleEscape (e : Char) : Option Char :=
  if e.toNat = 34 then some (Char.ofNat 34)
  else if e.toNat = 92 then some (Char.ofNat 92)
  else if e = '/' then some '/'
  else if e = 'b' then some (Char.ofNat 8)
  else if e = 'f' then some (Char.ofNat 12)
  else if e = 'n' then some (Char.ofNat 10)
  else if e = 'r' then some (Char.ofNat 13)
  else if e = 't' then some (Char.ofNat 9)
  else none

/-- Decoding of a JSON string after its opening quote: the characters of the
string and the input after the closing quote. Control characters must be
escaped. -/
def parseStringBody : List Char → Option (List Char × List Char)
  | [] => none
  | c :: cs =>
    if c.toNat = 34 then some ([], cs)
    else if c.toNat = 92 then
      match cs with
      | [] => none
      | e :: rest =>
        if e = 'u' then
          match rest with
          | a :: b :: c2 :: d :: rest2 =>
            match hexValue a, hexValue b, hexValue c2, hexValue d with
            | some x, some y, some z, some v =>
              match parseStringBody rest2 with
              | some (s, out) => some (escapedChar (4096 * x + 256 * y + 16 * z + v) :: s, out)
              | none => none
            | _, _, _, _ => none
          | _ => none
        else
          match simpleEscape e with
          | some ch =>
            match parseStringBody rest with
            | some (s, out) => some (ch :: s, out)
            | none => none
          | none => none
    else if c.toNat < 32 then none
    else
      match parseStringBody cs with
      | some (s, out) => some (c :: s, out)
      | none => none

/-- Input without its leading JSON whitespace. -/
def skipSpace : List Char → List Char
  | [] => []
  | c :: cs =>
    if c.toNat = 32 ∨ c.toNat = 9 ∨ c.toNat = 10 ∨ c.toNat = 13 then skipSpace cs else c :: cs

/-- Scalar value of a member of the payload. -/
inductive JsonScalar where
  | str (s : List Char)
  | bool (b : Bool)
  | null
deriving DecidableEq, Repr

/-- Decoding of a scalar value: a string, `true`, `false` or `null`, and the
input after it. -/
def parseScalar : List Char → Option (JsonScalar × List Char)
  | [] => none
  | c :: cs =>
    if c.toNat = 34 then
      match parseStringBody cs with
      | some (s, out) => some (JsonScalar.str s, out)
      | none => none
    else
      match c :: cs with
      | 't' :: 'r' :: 'u' :: 'e' :: out => some (JsonScalar.bool true, out)
      | 'f' :: 'a' :: 'l' :: 's' :: 'e' :: out => some (JsonScalar.bool false, out)
      | 'n' :: 'u' :: 'l' :: 'l' :: out => some (JsonScalar.null, out)
      | _ => none

/-- Assignment of one decoded member to the result: a known key takes a
value of its type, `null` leaves the field as it is, a value of another type
is an error, an unknown key is ignored. -/
def setField (r : NotificationActionResult) (key : List Char) (v : JsonScalar) :
    Option NotificationActionResult :=
  if key = "result".data then
    match v with
    | JsonScalar.bool b => some { r with Result := b }
    | JsonScalar.null => some r
    | JsonScalar.str _ => none
  else if key = "error".data then
    match v with
    | JsonScalar.str s => some { r with Error := String.mk s }
    | JsonScalar.null => some r
    | JsonScalar.bool _ => none
  else if key = "notificationId".data then
    match v with
    | JsonScalar.str s => some { r with NotificationId := String.mk s }
    | JsonScalar.null => some r
    | JsonScalar.bool _ => none
  else if key = "projectId".data then
    match v with
    | JsonScalar.str s => some { r with ProjectId := String.mk s }
    | JsonScalar.null => some r
    | JsonScalar.bool _ => none
  else some r

/-- Decoding of the members of an object, up to its closing brace, which
nothing but whitespace may follow; `fuel` bounds the number of members. -/
def parseMembers : Nat → NotificationActionResult → List Char → Option NotificationActionResult
  | 0, _, _ => none
  | fuel + 1, r, cs =>
    match skipSpace cs with
    | [] => none
    | q :: cs1 =>
      if q.toNat = 34 then
        match parseStringBody cs1 with
        | none => none
        | some (key, cs2) =>
          match skipSpace cs2 with
          | [] => none
          | colon :: cs3 =>
            if colon = ':' then
              match parseScalar (skipSpace cs3) with
              | none => none
              | some (v, cs4) =>
                match setField r key v with
                | none => none
                | some r1 =>
                  match skipSpace cs4 with
                  | [] => none
                  | sep :: cs5 =>
                    if sep = ',' then parseMembers fuel r1 cs5
                    else if sep.toNat = 125 then
                      (if skipSpace cs5 = [] then some r1 else none)
                    else none
            else none
      else none

/-- Decoder of the fixtures for termination messages. On the encoding of a
result whose `result` is true it gives the result back, as `json.Unmarshal`
does. It is not `json.Unmarshal` on other input: it accepts a JSON object
whose members are strings, booleans or `null`, or a bare `null`, matches keys
exactly, rejects a member with a number, an array or an object, and answers
the one text "invalid JSON" where the library names the offending
character. -/
def unmarshalResult (s : String) : Except String NotificationActionResult :=
  let zero : NotificationActionResult :=
    { Result := false, Error := "", NotificationId := "", ProjectId := "" }
  match skipSpace s.data with
  | [] => Except.error "unexpected end of JSON input"
  | c :: cs =>
    if c.toNat = 123 then
      match skipSpace cs with
      | [] => Except.error "unexpected end of JSON input"
      | d :: ds =>
        if d.toNat = 125 then
          (if skipSpace ds = [] then Except.ok zero else Except.error "invalid JSON")
        else
          match parseMembers cs.length zero cs with
          | some r => Except.ok r
          | none => Except.error "invalid JSON"
    else
      match c :: cs with
      | 'n' :: 'u' :: 'l' :: 'l' :: out =>
        if skipSpace out = [] then Except.ok zero else Except.error "invalid JSON"
      | _ => Except.error "invalid JSON"

deriving instance DecidableEq for Except

/-- Encoding of a scalar value. -/
def encodeScalar : JsonScalar → List Char
  | JsonScalar.str s => Char.ofNat 34 :: (s.flatMap jsonEscapeChar ++ [Char.ofNat 34])
  | JsonScalar.bool true => ['t', 'r', 'u', 'e']
  | JsonScalar.bool false => ['f', 'a', 'l', 's', 'e']
  | JsonScalar.null => ['n', 'u', 'l', 'l']

/-- The members a result is encoded with: key and value of every field that
is not empty. -/
def resultFields (r : NotificationActionResult) : List (String × JsonScalar) :=
  (if r.Result = true then [("result", JsonScalar.bool true)] else []) ++
  (if r.Error = "" then [] else [("error", JsonScalar.str r.Error.data)]) ++
  (if r.NotificationId = "" then [] else
    [("notificationId", JsonScalar.str r.NotificationId.data)]) ++
  (if r.ProjectId = "" then [] else [("projectId", JsonScalar.str r.ProjectId.data)])

/-- The Scheduler when `reconcile` calls `reconcileNotification`: conditions
initialized, identifiers of the Topic recorded, TopicReady and
PullSubscriptionReady marked True, sink URI recorded. -/
def atNotification (csr : Scheduler) (t : Topic) (uri : Option URL) : Scheduler :=
  { csr with
    Status :=
      { (({ (withInitializedConditions csr).Status with
              TopicID := t.Status.TopicID
              ProjectID := t.Status.ProjectID } : SchedulerStatus).MarkTopicReady
            ).MarkPullSubscriptionReady with
        SinkURI := uri } }

/-- A converge pass reaches the notification step: no deletion timestamp, the
finalizer ensured, the Topic `t` obtained, ready and valid, the
PullSubscription `ps` obtained and ready, and its sink URI parsed to `uri`. -/
def ReachesNotification (w : World) (csr : Scheduler) (t : Topic) (ps : PullSubscription)
    (uri : Option URL) : Prop :=
  csr.ObjectMeta.DeletionTimestamp = none ∧
  (ensureFinalizer w csr).err = none ∧
  (reconcileTopic w csr (requestedTopic csr)).1 = Except.ok t ∧
  t.Status.IsReady = true ∧
  t.Status.ProjectID ≠ "" ∧
  t.Status.TopicID ≠ "" ∧
  t.Status.TopicID = requestedTopic csr ∧
  (reconcilePullSubscription w csr (requestedTopic csr)).1 = Except.ok ps ∧
  ps.Status.IsReady = true ∧
  w.ParseURL ps.Status.SinkURI = Except.ok uri

/-- The call of `EnsureNotification` by `reconcileNotification` in a pass that
validated the Topic `t`. -/
def createJob (w : World) (csr : Scheduler) (t : Topic) : Result OpsJobStatus :=
  EnsureNotification w csr.ObjectMeta.UID csr.ObjectMeta csr.Spec.GCSSecret t.Status.ProjectID
    csr.Spec.Bucket t.Status.TopicID

/-- Whether a call is the lookup of the pod of a job. -/
def Call.isPodLookup : Call → Bool
  | Call.GetJobPod _ _ _ => true
  | _ => false


/-! ## Fixtures of the notification step -/

/-- The Topic of the tests, ready under the requested topic identifier. -/
def readyTopic : Topic :=
  testTopic { IsReady := true, ProjectID := "test-project-id"
              TopicID := "scheduler-test-scheduler-uid" }

/-- The PullSubscription of the tests, ready, with its sink URI. -/
def readyPullSubscription : PullSubscription :=
  { MakePullSubscription (testScheduler [] none emptyStatus) "scheduler-test-scheduler-uid" with
    Status := { IsReady := true, SinkURI := "http://sink.mynamespace.svc.cluster.local/" } }

/-- A cluster with the Topic and the PullSubscription ready, with the given
create job (if any) and the given termination message on its pod (if any);
termination messages are decoded by `unmarshalResult`. -/
def notificationWorld (job : Option Job) (msg : Option String) : World :=
  { quietWorld with
    Unmarshal := unmarshalResult
    TopicsGet := fun _ _ => Except.ok readyTopic
    PullSubscriptionsGet := fun _ _ => Except.ok readyPullSubscription
    JobListerGet := fun _ _ =>
      match job with
      | some j => Except.ok j
      | none => Except.error notFound
    GetJobPod := fun _ _ _ =>
      match msg with
      | some m => Except.ok (testPod m)
      | none => Except.error (errorsNew "Pod not found") }

/-- Encoded result of a failed job, as the tests build it. -/
def failureMessage : String :=
  "\x7b\"error\":\"test induced failure\",\"projectId\":\"test-project-id\"\x7d"

/-- A ready PullSubscription whose status carries an address that starts with
a colon. -/
def unparsableSinkPullSubscription : PullSubscription :=
  { readyPullSubscription with Status := { IsReady := true, SinkURI := ":sink" } }

/-- A cluster with the Topic ready and a ready PullSubscription whose sink URI
is ":sink". The URL parser rejects an address that starts with a colon, as
`url.Parse` does (missing protocol scheme), and treats every other address as
the parser of `quietWorld` does. -/
def sinkUnparsableWorld : World :=
  { notificationWorld none none with
    PullSubscriptionsGet := fun _ _ => Except.ok unparsableSinkPullSubscription
    ParseURL := fun s =>
      if s.data.head? = some ':' then
        Except.error ("parse " ++ s ++ ": missing protocol scheme")
      else quietWorld.ParseURL s }

/-- Status that recorded the sink URI of an earlier pass and nothing else. -/
def staleSinkStatus : SchedulerStatus :=
  { emptyStatus with SinkURI := some { Raw := "http://stale.example/" } }

/-- Whether a condition of a status is False with a reason and a message. -/
def SchedulerStatus.reportsNotReady (s : SchedulerStatus) (t : ConditionType) : Bool :=
  match s.GetCondition t with
  | some c =>
    decide (c.Status = ConditionStatus.ConditionFalse) && decide (c.Reason ≠ "") &&
      decide (c.Message ≠ "")
  | none => false

/-- Number of slashes of a key. -/
def slashCount (l : List Char) : Nat :=
  l.count '/'


/-! ## Defaults (`scheduler_defaults.go`) -/

/-- `equality.Semantic.DeepEqual(a1, a2)` for a non-nil pointer to a selector
and a selector value: the function answers false whenever the types of its
operands differ, whatever they hold. -/
def semanticDeepEqualPointerValue (_pointee : SecretKeySelector) (_value : SecretKeySelector) :
    Bool :=
  false

/-- `SchedulerSpec.SetDefaults`; the selector returned by
`DefaultGoogleCloudSecretSelector` (declared outside `src/`) is a parameter. -/
def SchedulerSpec.SetDefaults (defaultSecret : SecretKeySelector) (s : SchedulerSpec) :
    SchedulerSpec :=
  match s.Secret with
  | none => { s with Secret := some defaultSecret }
  | some p =>
    if semanticDeepEqualPointerValue p { Name := "", Key := "" } = true then
      { s with Secret := some defaultSecret }
    else s

/-- `Scheduler.SetDefaults`. -/
def Scheduler.SetDefaults (defaultSecret : SecretKeySelector) (s : Scheduler) : Scheduler :=
  { s with Spec := s.Spec.SetDefaults defaultSecret }

/-! ## Finalizer lists and sequences of passes -/

/-- Finalizers of the stored Scheduler once the patch of `ensureFinalizer`, if
it issues one, is applied: a merge patch replaces the whole list. -/
def finalizersAfterEnsure (l : List String) : List String :=
  if finalizerName ∈ l then l else l ++ [finalizerName]

/-- Finalizers of the stored Scheduler once the patch of `removeFinalizer`, if
it issues one, is applied. -/
def finalizersAfterRemove : List String → List String
  | [] => []
  | first :: rest => if first ≠ finalizerName then first :: rest else rest

/-- The Scheduler with another finalizer list. -/
def withFinalizers (csr : Scheduler) (l : List String) : Scheduler :=
  { csr with ObjectMeta := { csr.ObjectMeta with Finalizers := l } }

/-- Every external dependency of a converge pass is ready: the Topic is
obtained, ready and valid for the requested topic, the PullSubscription is
obtained and ready with a sink URI that parses, and the create job has
completed successfully with a termination message that decodes to a result
whose `result` is true. -/
def DependenciesReady (w : World) (csr : Scheduler) : Prop :=
  csr.ObjectMeta.DeletionTimestamp = none ∧
  ∃ (t : Topic) (ps : PullSubscription) (uri : Option URL) (pod : Pod)
    (nar : NotificationActionResult),
    (reconcileTopic w csr (requestedTopic csr)).1 = Except.ok t ∧
    t.Status.IsReady = true ∧
    t.Status.ProjectID ≠ "" ∧
    t.Status.TopicID ≠ "" ∧
    t.Status.TopicID = requestedTopic csr ∧
    (reconcilePullSubscription w csr (requestedTopic csr)).1 = Except.ok ps ∧
    ps.Status.IsReady = true ∧
    w.ParseURL ps.Status.SinkURI = Except.ok uri ∧
    (createJob w csr t).value = OpsJobStatus.OpsJobCompleteSuccessful ∧
    w.GetJobPod csr.ObjectMeta.Namespace csr.ObjectMeta.UID "create" = Except.ok pod ∧
    GetFirstTerminationMessage pod ≠ "" ∧
    w.Unmarshal (GetFirstTerminationMessage pod) = Except.ok nar ∧
    nar.Result = true

/-- All three sub-conditions of a status are True. -/
def SchedulerStatus.allTrue (s : SchedulerStatus) : Bool :=
  s.isTrue ConditionType.TopicReady && s.isTrue ConditionType.PullSubscriptionReady &&
    s.isTrue ConditionType.NotificationReady

/-- Status of the Scheduler after pass `n` of a sequence of passes: pass `n`
runs in the cluster `ws n` over the Scheduler `loaded n`. -/
def statusAfter (ws : Nat → World) (loaded : Nat → Scheduler) (n : Nat) : SchedulerStatus :=
  (reconcile (ws n) (loaded n)).value.Status

/-! ## Fixtures of the status write -/

/-- A cluster whose Topic is not ready and whose status writes fail. -/
def statusWriteFailingWorld : World :=
  { quietWorld with
    SchedulerListerGet := fun _ _ => Except.ok (testScheduler [finalizerName] none emptyStatus)
    SchedulerListerGetAgain := fun _ _ =>
      Except.ok (testScheduler [finalizerName] none emptyStatus)
    TopicsGet := fun _ _ =>
      Except.ok (testTopic { IsReady := false, ProjectID := "", TopicID := "" })
    SchedulersUpdateStatus := fun _ => Except.error (errorsNew "update failed") }

/-- A cluster in teardown: the Scheduler of the tests is being deleted with
the given status, and the job deleting its notification has finished
successfully. -/
def teardownOf (status : SchedulerStatus) : World :=
  { teardownWorld with
    SchedulerListerGet := fun _ _ => Except.ok (testScheduler [finalizerName] (some 1) status)
    SchedulerListerGetAgain := fun _ _ =>
      Except.ok (testScheduler [finalizerName] (some 1) status) }

/-- Status with the three conditions initialized and nothing recorded. -/
def initializedStatus : SchedulerStatus :=
  emptyStatus.InitializeConditions

/-- A cluster with everything ready whose job lister fails; the status of the
Scheduler is written successfully. -/
def jobLookupFailingWorld : World :=
  { notificationWorld none none with
    SchedulerListerGet := fun _ _ => Except.ok (testScheduler [finalizerName] none emptyStatus)
    SchedulerListerGetAgain := fun _ _ =>
      Except.ok (testScheduler [finalizerName] none emptyStatus)
    JobListerGet := fun _ _ => Except.error (errorsNew "etcd timeout") }

/-- A cluster with everything ready and no job, whose job creation fails; the
status of the Scheduler is written successfully. -/
def jobCreateFailingWorld : World :=
  { notificationWorld none none with
    SchedulerListerGet := fun _ _ => Except.ok (testScheduler [finalizerName] none emptyStatus)
    SchedulerListerGetAgain := fun _ _ =>
      Except.ok (testScheduler [finalizerName] none emptyStatus)
    JobsCreate := fun _ => (none, some (errorsNew "quota exceeded")) }

/-- The owner of the test of `MakePullSubscription`. -/
def pullSubscriptionTestSource : Scheduler :=
  { ObjectMeta := { Namespace := "bucket-namespace", Name := "bucket-name", UID := "bucket-uid"
                    ResourceVersion := "", Finalizers := [], DeletionTimestamp := none
                    Labels := [], OwnerReferences := [] }
    Spec := { Secret := none
              GCSSecret := { Name := "eventing-secret-name", Key := "eventing-secret-key" }
              Project := "project-123"
              Bucket := "this-bucket"
              Sink := { ObjectReference := some { APIVersion := "v1", Kind := "Kitchen"
                                                  Namespace := "", Name := "sink" }
                        URI := none }
              CloudEventOverrides := some [("foo", "bar")] }
    Status := emptyStatus }

/-! ## Fixtures of a sequence of passes -/

/-- A cluster with everything ready: Topic, PullSubscription, and the create
job finished with the success result of the tests. -/
def readyWorld : World :=
  notificationWorld (some (finishedJob ActionCreate true)) (some successMessage)

/-- Clusters of three and more passes: the create job is missing in the first
pass and has finished successfully from the second pass on. -/
def convergingWorlds : Nat → World
  | 0 => notificationWorld none none
  | _ + 1 => readyWorld

/-- Status after a pass that found the create job missing. -/
def jobPendingStatus : SchedulerStatus :=
  (reconcile (notificationWorld none none)
    (testScheduler [finalizerName] none emptyStatus)).value.Status

/-- Status after a pass that found everything ready. -/
def convergedStatus : SchedulerStatus :=
  (reconcile readyWorld (testScheduler [finalizerName] none jobPendingStatus)).value.Status

/-- The Scheduler each pass of the sequence loads. -/
def convergingSchedulers : Nat → Scheduler
  | 0 => testScheduler [finalizerName] none emptyStatus
  | 1 => testScheduler [finalizerName] none jobPendingStatus
  | _ + 2 => testScheduler [finalizerName] none convergedStatus


/-! # Theorems -/

/-! ## Calls issued by each function -/

/-- Every call of `ensureNotificationJob` goes to the job executor. -/
theorem ensureNotificationJob_targets (w : World) (args : NotificationArgs) :
    ∀ c ∈ (ensureNotificationJob w args).calls, c.target = CallTarget.Jobs := by
  intro c hc
  simp only [ensureNotificationJob] at hc
  repeat' split at hc
  all_goals simp at hc
  all_goals first
    | (subst hc; rfl)
    | (rcases hc with rfl | rfl <;> rfl)

/-- Every call of `deleteNotification` goes to the job executor. -/
theorem deleteNotification_targets (w : World) (scheduler : Scheduler) :
    ∀ c ∈ (deleteNotification w scheduler).calls, c.target = CallTarget.Jobs := by
  intro c hc
  have hj := ensureNotificationJob_targets w
  unfold deleteNotification at hc
  simp only [EnsureNotificationDeleted] at hc
  repeat' split at hc
  all_goals simp at hc
  all_goals first
    | exact hj _ c hc
    | (rcases hc with hc | rfl
       · exact hj _ c hc
       · rfl)

/-- Every call of `reconcileNotification` goes to the job executor. -/
theorem reconcileNotification_targets (w : World) (scheduler : Scheduler) :
    ∀ c ∈ (reconcileNotification w scheduler).calls, c.target = CallTarget.Jobs := by
  intro c hc
  have hj := ensureNotificationJob_targets w
  unfold reconcileNotification at hc
  simp only [EnsureNotification] at hc
  repeat' split at hc
  all_goals simp at hc
  all_goals first
    | exact hj _ c hc
    | (rcases hc with hc | rfl
       · exact hj _ c hc
       · rfl)

/-- Every call of `reconcileTopic` goes to the Topics client. -/
theorem reconcileTopic_targets (w : World) (csr : Scheduler) (topic : String) :
    ∀ c ∈ (reconcileTopic w csr topic).2, c.target = CallTarget.Topics := by
  intro c hc
  unfold reconcileTopic at hc
  repeat' split at hc
  all_goals simp at hc
  all_goals first
    | (subst hc; rfl)
    | (rcases hc with rfl | rfl <;> rfl)

/-- Every call of `reconcilePullSubscription` goes to the PullSubscriptions client. -/
theorem reconcilePullSubscription_targets (w : World) (csr : Scheduler) (topic : String) :
    ∀ c ∈ (reconcilePullSubscription w csr topic).2, c.target = CallTarget.PullSubscriptions := by
  intro c hc
  unfold reconcilePullSubscription at hc
  repeat' split at hc
  all_goals simp at hc
  all_goals first
    | (subst hc; rfl)
    | (rcases hc with rfl | rfl <;> rfl)

/-- The function `deleteTopic` issues exactly one delete call. -/
theorem deleteTopic_calls (w : World) (ns name : String) :
    (deleteTopic w ns name).2 = [Call.TopicsDelete ns name] := by
  unfold deleteTopic
  repeat' split
  all_goals rfl

/-- The function `deletePullSubscription` issues exactly one delete call. -/
theorem deletePullSubscription_calls (w : World) (csr : Scheduler) :
    (deletePullSubscription w csr).2 =
      [Call.PullSubscriptionsDelete csr.ObjectMeta.Namespace csr.ObjectMeta.Name] := by
  unfold deletePullSubscription
  repeat' split
  all_goals rfl

/-- Every call of `ensureFinalizer` is a patch. -/
theorem ensureFinalizer_targets (w : World) (csr : Scheduler) :
    ∀ c ∈ (ensureFinalizer w csr).calls, c.target = CallTarget.SchedulersPatch := by
  intro c hc
  unfold ensureFinalizer at hc
  split at hc <;> simp at hc
  subst hc; rfl

/-- Every call of `removeFinalizer` is a patch. -/
theorem removeFinalizer_targets (w : World) (csr : Scheduler) :
    ∀ c ∈ (removeFinalizer w csr).calls, c.target = CallTarget.SchedulersPatch := by
  intro c hc
  unfold removeFinalizer at hc
  repeat' split at hc
  all_goals simp at hc
  subst hc; rfl


/-- A property of all calls of two traces in sequence. -/
theorem all_append_iff (p : Call → Prop) (l1 l2 : List Call) :
    (∀ c ∈ l1 ++ l2, p c) ↔ (∀ c ∈ l1, p c) ∧ (∀ c ∈ l2, p c) := by
  simp [List.mem_append, or_imp, forall_and]

/-- The business logic never reads the Scheduler lister and never writes the
status. -/
theorem reconcile_business (w : World) (csr : Scheduler) :
    ∀ c ∈ (reconcile w csr).calls, c.isBusiness = true := by
  have h1 : ∀ s, ∀ c ∈ (deleteNotification w s).calls, c.isBusiness = true := fun s c hc => by
    simp [Call.isBusiness, deleteNotification_targets w s c hc]
  have h2 : ∀ s, ∀ c ∈ (reconcileNotification w s).calls, c.isBusiness = true := fun s c hc => by
    simp [Call.isBusiness, reconcileNotification_targets w s c hc]
  have h3 : ∀ s t, ∀ c ∈ (reconcileTopic w s t).2, c.isBusiness = true := fun s t c hc => by
    simp [Call.isBusiness, reconcileTopic_targets w s t c hc]
  have h4 : ∀ s t, ∀ c ∈ (reconcilePullSubscription w s t).2, c.isBusiness = true :=
    fun s t c hc => by simp [Call.isBusiness, reconcilePullSubscription_targets w s t c hc]
  have h5 : ∀ s, ∀ c ∈ (ensureFinalizer w s).calls, c.isBusiness = true := fun s c hc => by
    simp [Call.isBusiness, ensureFinalizer_targets w s c hc]
  have h6 : ∀ s, ∀ c ∈ (removeFinalizer w s).calls, c.isBusiness = true := fun s c hc => by
    simp [Call.isBusiness, removeFinalizer_targets w s c hc]
  have h7 : ∀ a b, ∀ c ∈ (deleteTopic w a b).2, c.isBusiness = true := fun a b c hc => by
    rw [deleteTopic_calls] at hc; simp at hc; subst hc; rfl
  have h8 : ∀ s, ∀ c ∈ (deletePullSubscription w s).2, c.isBusiness = true := fun s c hc => by
    rw [deletePullSubscription_calls] at hc; simp at hc; subst hc; rfl
  simp only [reconcile]
  repeat' split
  all_goals simp only [all_append_iff]
  all_goals repeat' apply And.intro
  all_goals first
    | exact h1 _ | exact h2 _ | exact h3 _ _ | exact h4 _ _ | exact h5 _ | exact h6 _
    | exact h7 _ _ | exact h8 _


/-! ## Frame lemmas -/

/-- The function `deleteNotification` changes neither metadata nor spec. -/
theorem deleteNotification_frame (w : World) (s : Scheduler) :
    (deleteNotification w s).value.ObjectMeta = s.ObjectMeta ∧
    (deleteNotification w s).value.Spec = s.Spec := by
  simp only [deleteNotification]
  repeat' split
  all_goals exact ⟨rfl, rfl⟩

/-- The function `deletePullSubscription` reads the metadata only. -/
theorem deletePullSubscription_meta (w : World) (a b : Scheduler)
    (h : a.ObjectMeta = b.ObjectMeta) :
    deletePullSubscription w a = deletePullSubscription w b := by
  simp only [deletePullSubscription, h]

/-- The function `removeFinalizer` reads the metadata only. -/
theorem removeFinalizer_meta (w : World) (a b : Scheduler)
    (h : a.ObjectMeta = b.ObjectMeta) :
    removeFinalizer w a = removeFinalizer w b := by
  simp only [removeFinalizer, h]


/-! ## Status write of `Reconcile` -/

/-- C1: when the pass leaves status and metadata of the copy equal to those of
the loaded Scheduler, `Reconcile` returns exactly the error of `reconcile`,
issues the calls of `reconcile` after the load and nothing else: no
update-status call, and no second read of the lister (the first step of
`updateStatus`). -/
theorem Reconcile_no_redundant_status_write (w : World) (key ns name : String)
    (original : Scheduler)
    (hkey : SplitMetaNamespaceKey key = some (ns, name))
    (hget : w.SchedulerListerGet ns name = Except.ok original)
    (hstatus : (reconcile w original).value.Status = original.Status)
    (hmeta : (reconcile w original).value.ObjectMeta = original.ObjectMeta) :
    Reconcile w key =
      ((reconcile w original).err,
        Call.SchedulerListerGet ns name :: (reconcile w original).calls) ∧
    (∀ c ∈ (Reconcile w key).2, c.target ≠ CallTarget.SchedulersUpdateStatus) ∧
    (Reconcile w key).2.filter (fun c => decide (c.target = CallTarget.SchedulerLister)) =
      [Call.SchedulerListerGet ns name] := by
  have hR : Reconcile w key =
      ((reconcile w original).err,
        Call.SchedulerListerGet ns name :: (reconcile w original).calls) := by
    simp [Reconcile, hkey, hget, hstatus, hmeta]
  have hb := reconcile_business w original
  refine ⟨hR, ?_, ?_⟩
  · intro c hc
    rw [hR] at hc
    simp only [List.mem_cons] at hc
    rcases hc with rfl | hc
    · simp [Call.target]
    · have := hb c hc
      intro ht
      simp [Call.isBusiness, ht] at this
  · rw [hR]
    rw [List.filter_cons_of_pos (by rfl)]
    congr 1
    rw [List.filter_eq_nil_iff]
    intro c hc
    have := hb c hc
    intro ht
    simp only [decide_eq_true_eq] at ht
    simp [Call.isBusiness, ht] at this

/-- Witness of C1: a pass that fails because the Topic is still not ready and
finds the status already saying so. -/
theorem Reconcile_no_redundant_status_write_witness :
    Reconcile topicPendingWorld "testnamespace/my-test-scheduler" =
      (some (errorsNew "topic not ready"),
        [Call.SchedulerListerGet "testnamespace" "my-test-scheduler",
         Call.TopicsGet "testnamespace" "my-test-scheduler"]) := by
  have h := (Reconcile_no_redundant_status_write topicPendingWorld
    "testnamespace/my-test-scheduler" "testnamespace" "my-test-scheduler"
    (testScheduler [finalizerName] none topicNotReadyStatus)
    (by decide) (by rfl) (by decide) (by decide)).1
  rw [h]
  decide


/-! ## Teardown -/

/-- C2: teardown of a Scheduler with a deletion timestamp runs
`deleteNotification`, the Topic delete, the PullSubscription delete and
`removeFinalizer` in this order and stops at the first of the first three
that returns an error: the calls of the pass are the job calls of
`deleteNotification`, then, only if it returned nil, the Topic delete, then,
only if that succeeded, the PullSubscription delete, then, only if that
succeeded, the patch of `removeFinalizer`. -/
theorem teardown_ordering (w : World) (csr : Scheduler) (ts : Nat)
    (hdel : csr.ObjectMeta.DeletionTimestamp = some ts) :
    (∀ c ∈ (deleteNotification w (withInitializedConditions csr)).calls,
      c.target = CallTarget.Jobs) ∧
    (∀ c ∈ (removeFinalizer w csr).calls, c.target = CallTarget.SchedulersPatch) ∧
    (∀ e, (deleteNotification w (withInitializedConditions csr)).err = some e →
      (reconcile w csr).err = some e ∧
      (reconcile w csr).calls = (deleteNotification w (withInitializedConditions csr)).calls) ∧
    ((deleteNotification w (withInitializedConditions csr)).err = none →
      ∀ e, (deleteTopic w csr.ObjectMeta.Namespace csr.ObjectMeta.Name).1 = some e →
      (reconcile w csr).err = some e ∧
      (reconcile w csr).calls = (deleteNotification w (withInitializedConditions csr)).calls ++
        [Call.TopicsDelete csr.ObjectMeta.Namespace csr.ObjectMeta.Name]) ∧
    ((deleteNotification w (withInitializedConditions csr)).err = none →
      (deleteTopic w csr.ObjectMeta.Namespace csr.ObjectMeta.Name).1 = none →
      ∀ e, (deletePullSubscription w csr).1 = some e →
      (reconcile w csr).err = some e ∧
      (reconcile w csr).calls = (deleteNotification w (withInitializedConditions csr)).calls ++
        [Call.TopicsDelete csr.ObjectMeta.Namespace csr.ObjectMeta.Name,
         Call.PullSubscriptionsDelete csr.ObjectMeta.Namespace csr.ObjectMeta.Name]) ∧
    ((deleteNotification w (withInitializedConditions csr)).err = none →
      (deleteTopic w csr.ObjectMeta.Namespace csr.ObjectMeta.Name).1 = none →
      (deletePullSubscription w csr).1 = none →
      (reconcile w csr).err = none ∧
      (reconcile w csr).calls = (deleteNotification w (withInitializedConditions csr)).calls ++
        [Call.TopicsDelete csr.ObjectMeta.Namespace csr.ObjectMeta.Name,
         Call.PullSubscriptionsDelete csr.ObjectMeta.Namespace csr.ObjectMeta.Name] ++
        (removeFinalizer w csr).calls) ∧
    ((∃ c ∈ (reconcile w csr).calls, c.target = CallTarget.Topics) →
      (deleteNotification w (withInitializedConditions csr)).err = none) ∧
    ((∃ c ∈ (reconcile w csr).calls, c.target = CallTarget.PullSubscriptions) →
      (deleteNotification w (withInitializedConditions csr)).err = none ∧
      (deleteTopic w csr.ObjectMeta.Namespace csr.ObjectMeta.Name).1 = none) ∧
    ((∃ c ∈ (reconcile w csr).calls, c.target = CallTarget.SchedulersPatch) →
      (deleteNotification w (withInitializedConditions csr)).err = none ∧
      (deleteTopic w csr.ObjectMeta.Namespace csr.ObjectMeta.Name).1 = none ∧
      (deletePullSubscription w csr).1 = none) := by
  have hm := (deleteNotification_frame w (withInitializedConditions csr)).1
  have hj := deleteNotification_targets w (withInitializedConditions csr)
  simp only [withInitializedConditions] at hm hj ⊢
  simp only [reconcile, hdel]
  generalize deleteNotification w _ = dn at hm hj ⊢
  have hp : ∀ sp st, deletePullSubscription w (Scheduler.mk dn.value.ObjectMeta sp st) =
      deletePullSubscription w csr := fun sp st => deletePullSubscription_meta w _ _ hm
  have hf : ∀ sp st, removeFinalizer w (Scheduler.mk dn.value.ObjectMeta sp st) =
      removeFinalizer w csr := fun sp st => removeFinalizer_meta w _ _ hm
  simp only [hp, hf]
  simp only [hm, deleteTopic_calls, deletePullSubscription_calls]
  refine ⟨hj, removeFinalizer_targets w csr, ?_, ?_, ?_, ?_, ?_, ?_, ?_⟩
  · intro e he
    simp [he]
  · intro h0 e he
    simp [h0, he]
  · intro h0 h1 e he
    simp [h0, h1, he]
  · intro h0 h1 h2
    simp [h0, h1, h2]
  · rintro ⟨c, hc, ht⟩
    cases h0 : dn.err with
    | none => rfl
    | some e =>
      simp only [h0] at hc
      rw [hj c hc] at ht
      cases ht
  · rintro ⟨c, hc, ht⟩
    cases h0 : dn.err with
    | some e =>
      simp only [h0] at hc
      rw [hj c hc] at ht
      cases ht
    | none =>
      cases h1 : (deleteTopic w csr.ObjectMeta.Namespace csr.ObjectMeta.Name).1 with
      | none => exact ⟨rfl, rfl⟩
      | some e =>
        simp only [h0, h1, List.mem_append, List.mem_singleton] at hc
        rcases hc with hc | rfl
        · rw [hj c hc] at ht
          cases ht
        · cases ht
  · rintro ⟨c, hc, ht⟩
    cases h0 : dn.err with
    | some e =>
      simp only [h0] at hc
      rw [hj c hc] at ht
      cases ht
    | none =>
      cases h1 : (deleteTopic w csr.ObjectMeta.Namespace csr.ObjectMeta.Name).1 with
      | some e =>
        simp only [h0, h1, List.mem_append, List.mem_singleton] at hc
        rcases hc with hc | rfl
        · rw [hj c hc] at ht
          cases ht
        · cases ht
      | none =>
        cases h2 : (deletePullSubscription w csr).1 with
        | none => exact ⟨rfl, rfl, rfl⟩
        | some e =>
          simp only [h0, h1, h2, List.mem_append, List.mem_cons, List.mem_singleton,
            List.not_mem_nil, or_false] at hc
          rcases hc with (hc | rfl) | rfl
          · rw [hj c hc] at ht
            cases ht
          · cases ht
          · cases ht


/-- Witness of C2: a Scheduler with a recorded notification identifier, whose
delete job has succeeded. -/
theorem teardown_ordering_witness :
    (reconcile teardownWorld (testScheduler [finalizerName] (some 1) notifiedStatus)).err = none ∧
    (reconcile teardownWorld (testScheduler [finalizerName] (some 1) notifiedStatus)).calls =
      [Call.JobListerGet "testnamespace" "scheduler-test-scheduler-uid-delete",
       Call.GetJobPod "testnamespace" "test-scheduler-uid" "delete",
       Call.TopicsDelete "testnamespace" "my-test-scheduler",
       Call.PullSubscriptionsDelete "testnamespace" "my-test-scheduler",
       Call.SchedulersPatch "testnamespace" "my-test-scheduler"
         "\x7b\"metadata\":\x7b\"finalizers\":[],\"resourceVersion\":\"\"\x7d\x7d"] := by
  have h := (teardown_ordering teardownWorld
    (testScheduler [finalizerName] (some 1) notifiedStatus) 1 rfl).2.2.2.2.2.1
    (by decide) (by decide) (by decide)
  refine ⟨h.1, ?_⟩
  rw [h.2]
  decide

/-- C3: with an empty notification identifier `deleteNotification` returns nil
without any call. Otherwise it returns nil if and only if the delete job is
in phase CompleteSuccessful, its pod is found, the termination message is
non-empty and decodes to a result with `result` true; it then clears the
identifier, and in every other case it returns an error and leaves the
Scheduler as it was. -/
theorem deleteNotification_clears_only_on_success (w : World) (scheduler : Scheduler) :
    (scheduler.Status.NotificationID = "" →
      (deleteNotification w scheduler).err = none ∧
      (deleteNotification w scheduler).calls = [] ∧
      (deleteNotification w scheduler).value = scheduler) ∧
    (scheduler.Status.NotificationID ≠ "" →
      ((deleteNotification w scheduler).err = none ↔
        ((EnsureNotificationDeleted w scheduler.ObjectMeta.UID scheduler.ObjectMeta
            scheduler.Spec.GCSSecret scheduler.Spec.Project scheduler.Spec.Bucket
            scheduler.Status.NotificationID).value = OpsJobStatus.OpsJobCompleteSuccessful ∧
          ∃ pod, w.GetJobPod scheduler.ObjectMeta.Namespace scheduler.ObjectMeta.UID "delete" =
              Except.ok pod ∧
            GetFirstTerminationMessage pod ≠ "" ∧
            ∃ nar, w.Unmarshal (GetFirstTerminationMessage pod) = Except.ok nar ∧
              nar.Result = true)) ∧
      ((deleteNotification w scheduler).err = none →
        (deleteNotification w scheduler).value =
          { scheduler with Status := { scheduler.Status with NotificationID := "" } }) ∧
      ((deleteNotification w scheduler).err ≠ none →
        (deleteNotification w scheduler).value = scheduler)) := by
  constructor
  · intro h
    simp [deleteNotification, h]
  · intro h
    simp only [deleteNotification, h, if_false]
    by_cases hst : (EnsureNotificationDeleted w scheduler.ObjectMeta.UID scheduler.ObjectMeta
            scheduler.Spec.GCSSecret scheduler.Spec.Project scheduler.Spec.Bucket
            scheduler.Status.NotificationID).value = OpsJobStatus.OpsJobCompleteSuccessful
    · simp only [hst, ne_eq, not_true_eq_false, if_false, true_and]
      cases hpod : w.GetJobPod scheduler.ObjectMeta.Namespace scheduler.ObjectMeta.UID "delete" with
      | error e => simp
      | ok pod =>
        by_cases hmsg : GetFirstTerminationMessage pod = ""
        · simp [hmsg]
        · simp only [hmsg, if_false]
          cases hun : w.Unmarshal (GetFirstTerminationMessage pod) with
          | error e => simp [hmsg, hun]
          | ok nar =>
            cases hres : nar.Result <;> simp [hmsg, hres, hun]
    · simp [hst]


/-- Witness of C3: a recorded identifier with a successful delete job, with no
job yet, and no recorded identifier. -/
theorem deleteNotification_clears_only_on_success_witness :
    (deleteNotification teardownWorld
      (testScheduler [finalizerName] (some 1) notifiedStatus)).value.Status.NotificationID = "" ∧
    (deleteNotification quietWorld
      (testScheduler [finalizerName] (some 1) notifiedStatus)).value.Status.NotificationID = "135" ∧
    (deleteNotification quietWorld
      (testScheduler [finalizerName] (some 1) emptyStatus)).calls = [] := by
  have h1 := (deleteNotification_clears_only_on_success teardownWorld
    (testScheduler [finalizerName] (some 1) notifiedStatus)).2 (by decide)
  have h2 := (deleteNotification_clears_only_on_success quietWorld
    (testScheduler [finalizerName] (some 1) notifiedStatus)).2 (by decide)
  have h3 := (deleteNotification_clears_only_on_success quietWorld
    (testScheduler [finalizerName] (some 1) emptyStatus)).1 (by decide)
  refine ⟨?_, ?_, h3.2.1⟩
  · rw [h1.2.1 (by decide)]
  · rw [h2.2.2 (by decide)]
    decide

/-- C4, the code at the failing input: the patch removing the finalizer fails,
`removeFinalizer` returns that error, and `reconcile` still returns nil. -/
theorem teardown_drops_finalizer_error :
    (removeFinalizer patchFailingWorld
      (testScheduler [finalizerName] (some 1) emptyStatus)).err = some (errorsNew "conflict") ∧
    (reconcile patchFailingWorld (testScheduler [finalizerName] (some 1) emptyStatus)).err = none ∧
    (reconcile patchFailingWorld (testScheduler [finalizerName] (some 1) emptyStatus)).calls =
      [Call.TopicsDelete "testnamespace" "my-test-scheduler",
       Call.PullSubscriptionsDelete "testnamespace" "my-test-scheduler",
       Call.SchedulersPatch "testnamespace" "my-test-scheduler"
         "\x7b\"metadata\":\x7b\"finalizers\":[],\"resourceVersion\":\"\"\x7d\x7d"] := by
  decide

/-! ## Finalizer manager -/

/-- C5, as the specification states it, fails: with a foreign finalizer already
present, the list carried by the patch of `ensureFinalizer` starts with the
foreign finalizer, not with the marker. -/
theorem ensureFinalizer_marker_not_first :
    (ensureFinalizer quietWorld (testScheduler ["foreign"] none emptyStatus)).calls =
        [Call.SchedulersPatch "testnamespace" "my-test-scheduler"
          (marshalMergePatch { finalizers := ["foreign", finalizerName], resourceVersion := "" })] ∧
    marshalMergePatch { finalizers := ["foreign", finalizerName], resourceVersion := "" } =
      "\x7b\"metadata\":\x7b\"finalizers\":[\"foreign\",\"cloud-run-events-scheduler-source-controller\"],\"resourceVersion\":\"\"\x7d\x7d" ∧
    ¬ (["foreign", finalizerName].head? = some finalizerName) := by
  decide

/-- C5, amended: whenever `ensureFinalizer` adds the marker, the marker is the
last entry of the list carried by the patch, after the finalizers already
present, which keep their order; it is the first entry exactly when the
initial list is empty. -/
theorem ensureFinalizer_marker_last (w : World) (csr : Scheduler)
    (h : finalizerName ∉ csr.ObjectMeta.Finalizers) :
    ∃ p : MergePatch,
      (ensureFinalizer w csr).calls =
        [Call.SchedulersPatch csr.ObjectMeta.Namespace csr.ObjectMeta.Name (marshalMergePatch p)] ∧
      p.finalizers.getLast? = some finalizerName ∧
      p.finalizers.take csr.ObjectMeta.Finalizers.length = csr.ObjectMeta.Finalizers ∧
      p.finalizers.length = csr.ObjectMeta.Finalizers.length + 1 ∧
      (p.finalizers.head? = some finalizerName ↔ csr.ObjectMeta.Finalizers = []) := by
  refine ⟨{ finalizers := csr.ObjectMeta.Finalizers ++ [finalizerName]
            resourceVersion := csr.ObjectMeta.ResourceVersion }, ?_, ?_, ?_, ?_, ?_⟩
  · simp [ensureFinalizer, h]
  · simp
  · simp
  · simp
  · cases hf : csr.ObjectMeta.Finalizers with
    | nil => simp
    | cons first rest =>
      simp
      intro hfirst
      apply h
      rw [hf, hfirst]
      simp

/-- Witness of C5 amended: a Scheduler holding one foreign finalizer. -/
theorem ensureFinalizer_marker_last_witness :
    ∃ p : MergePatch,
      (ensureFinalizer quietWorld (testScheduler ["foreign"] none emptyStatus)).calls =
        [Call.SchedulersPatch "testnamespace" "my-test-scheduler" (marshalMergePatch p)] ∧
      p.finalizers.getLast? = some finalizerName ∧
      p.finalizers.take 1 = ["foreign"] ∧
      p.finalizers.length = 2 ∧
      (p.finalizers.head? = some finalizerName ↔ ["foreign"] = []) :=
  ensureFinalizer_marker_last quietWorld (testScheduler ["foreign"] none emptyStatus) (by decide)

/-- C6: `removeFinalizer` issues no patch and returns nil unless the first
finalizer is the marker; otherwise it issues exactly one merge patch, whose
finalizers are the original list without its first element and whose resource
version is the current one, and returns what the patch call returns. -/
theorem removeFinalizer_patch (w : World) (csr : Scheduler) :
    (csr.ObjectMeta.Finalizers.head? ≠ some finalizerName →
      (removeFinalizer w csr).err = none ∧ (removeFinalizer w csr).calls = []) ∧
    (csr.ObjectMeta.Finalizers.head? = some finalizerName →
      (removeFinalizer w csr).calls =
        [Call.SchedulersPatch csr.ObjectMeta.Namespace csr.ObjectMeta.Name
          (marshalMergePatch { finalizers := csr.ObjectMeta.Finalizers.drop 1
                               resourceVersion := csr.ObjectMeta.ResourceVersion })] ∧
      (removeFinalizer w csr).err =
        w.SchedulersPatch csr.ObjectMeta.Namespace csr.ObjectMeta.Name
          (marshalMergePatch { finalizers := csr.ObjectMeta.Finalizers.drop 1
                               resourceVersion := csr.ObjectMeta.ResourceVersion }) ∧
      finalizerName :: csr.ObjectMeta.Finalizers.drop 1 = csr.ObjectMeta.Finalizers) := by
  cases hf : csr.ObjectMeta.Finalizers with
  | nil => simp [removeFinalizer, hf]
  | cons first rest =>
    by_cases h : first = finalizerName
    · simp [removeFinalizer, hf, h]
    · simp [removeFinalizer, hf, h]

/-- Witness of C6: the marker first, followed by a foreign finalizer; and a
foreign finalizer first. -/
theorem removeFinalizer_patch_witness :
    (removeFinalizer quietWorld (testScheduler [finalizerName, "foreign"] (some 1) emptyStatus)).calls =
        [Call.SchedulersPatch "testnamespace" "my-test-scheduler"
          "\x7b\"metadata\":\x7b\"finalizers\":[\"foreign\"],\"resourceVersion\":\"\"\x7d\x7d"] ∧
    (removeFinalizer quietWorld (testScheduler ["foreign", finalizerName] (some 1) emptyStatus)).calls
      = [] := by
  have h1 := (removeFinalizer_patch quietWorld
    (testScheduler [finalizerName, "foreign"] (some 1) emptyStatus)).2 (by decide)
  have h2 := (removeFinalizer_patch quietWorld
    (testScheduler ["foreign", finalizerName] (some 1) emptyStatus)).1 (by decide)
  refine ⟨?_, h2.2⟩
  rw [h1.1]
  decide

/-- C7: `ensureFinalizer` issues no patch and returns nil when the marker
occurs anywhere among the finalizers; otherwise it issues exactly one merge
patch, whose finalizers are the original list, unchanged and in order,
extended with the marker, and whose resource version is the current one, and
returns what the patch call returns. For no finalizers and an empty resource
version the body is the one the tests expect. -/
theorem ensureFinalizer_patch (w : World) (csr : Scheduler) :
    (finalizerName ∈ csr.ObjectMeta.Finalizers →
      (ensureFinalizer w csr).err = none ∧ (ensureFinalizer w csr).calls = []) ∧
    (finalizerName ∉ csr.ObjectMeta.Finalizers →
      (ensureFinalizer w csr).calls =
        [Call.SchedulersPatch csr.ObjectMeta.Namespace csr.ObjectMeta.Name
          (marshalMergePatch { finalizers := csr.ObjectMeta.Finalizers ++ [finalizerName]
                               resourceVersion := csr.ObjectMeta.ResourceVersion })] ∧
      (ensureFinalizer w csr).err =
        w.SchedulersPatch csr.ObjectMeta.Namespace csr.ObjectMeta.Name
          (marshalMergePatch { finalizers := csr.ObjectMeta.Finalizers ++ [finalizerName]
                               resourceVersion := csr.ObjectMeta.ResourceVersion }) ∧
      (csr.ObjectMeta.Finalizers ++ [finalizerName]).take csr.ObjectMeta.Finalizers.length =
        csr.ObjectMeta.Finalizers) ∧
    marshalMergePatch { finalizers := [] ++ [finalizerName], resourceVersion := "" } =
      "\x7b\"metadata\":\x7b\"finalizers\":[\"cloud-run-events-scheduler-source-controller\"],\"resourceVersion\":\"\"\x7d\x7d" := by
  refine ⟨?_, ?_, ?_⟩
  · intro h
    simp [ensureFinalizer, h]
  · intro h
    simp [ensureFinalizer, h]
  · decide

/-- Witness of C7: a Scheduler without finalizers, and one that holds the
marker behind a foreign finalizer. -/
theorem ensureFinalizer_patch_witness :
    (ensureFinalizer quietWorld (testScheduler [] none emptyStatus)).calls =
        [Call.SchedulersPatch "testnamespace" "my-test-scheduler"
          "\x7b\"metadata\":\x7b\"finalizers\":[\"cloud-run-events-scheduler-source-controller\"],\"resourceVersion\":\"\"\x7d\x7d"] ∧
    (ensureFinalizer quietWorld (testScheduler ["foreign", finalizerName] none emptyStatus)).calls = [] := by
  have h1 := (ensureFinalizer_patch quietWorld (testScheduler [] none emptyStatus)).2.1 (by decide)
  have h2 := (ensureFinalizer_patch quietWorld
    (testScheduler ["foreign", finalizerName] none emptyStatus)).1 (by decide)
  refine ⟨?_, h2.2⟩
  rw [h1.1]
  decide

/-! ## Converge path -/

/-- Calls of a converge pass: those of `ensureFinalizer`, followed by calls to
Topics, PullSubscriptions and the job executor, which occur only when
`ensureFinalizer` returned nil. -/
theorem converge_calls_after_finalizer (w : World) (csr : Scheduler)
    (hdel : csr.ObjectMeta.DeletionTimestamp = none) :
    ∃ rest, (reconcile w csr).calls = (ensureFinalizer w csr).calls ++ rest ∧
      (∀ c ∈ rest, c.touchesResource = true) ∧
      (rest ≠ [] → (ensureFinalizer w csr).err = none) := by
  have h2 : ∀ s, ∀ c ∈ (reconcileNotification w s).calls, c.touchesResource = true :=
    fun s c hc => by simp [Call.touchesResource, reconcileNotification_targets w s c hc]
  have h3 : ∀ s t, ∀ c ∈ (reconcileTopic w s t).2, c.touchesResource = true := fun s t c hc => by
    simp [Call.touchesResource, reconcileTopic_targets w s t c hc]
  have h4 : ∀ s t, ∀ c ∈ (reconcilePullSubscription w s t).2, c.touchesResource = true :=
    fun s t c hc => by simp [Call.touchesResource, reconcilePullSubscription_targets w s t c hc]
  have hefc : ∀ sp st, ensureFinalizer w (Scheduler.mk csr.ObjectMeta sp st) =
      ensureFinalizer w csr := fun _ _ => rfl
  simp only [reconcile, hdel, hefc]
  cases hef : (ensureFinalizer w csr).err with
  | some e => exact ⟨[], by simp, by simp, by simp⟩
  | none =>
    simp only
    repeat' split
    all_goals try simp only [List.append_assoc]
    all_goals refine ⟨_, rfl, ?_, fun _ => trivial⟩
    all_goals try simp only [all_append_iff]
    all_goals repeat' apply And.intro
    all_goals first
      | exact h2 _ | exact h3 _ _ | exact h4 _ _

/-- C8: in a converge pass every call to a Topic, a PullSubscription or the job
executor comes after the calls of `ensureFinalizer` and is issued only if
`ensureFinalizer` returned nil; if the finalizer patch fails the pass returns
that error, having issued no such call. -/
theorem finalizer_before_resources (w : World) (csr : Scheduler)
    (hdel : csr.ObjectMeta.DeletionTimestamp = none) :
    (∀ c ∈ (ensureFinalizer w csr).calls, c.target = CallTarget.SchedulersPatch) ∧
    (∃ rest, (reconcile w csr).calls = (ensureFinalizer w csr).calls ++ rest ∧
      (∀ c ∈ rest, c.touchesResource = true) ∧
      (rest ≠ [] → (ensureFinalizer w csr).err = none)) ∧
    ((∃ c ∈ (reconcile w csr).calls, c.touchesResource = true) →
      (ensureFinalizer w csr).err = none) ∧
    (∀ e, (ensureFinalizer w csr).err = some e →
      (reconcile w csr).err = some e ∧
      (reconcile w csr).calls = (ensureFinalizer w csr).calls ∧
      (∀ c ∈ (reconcile w csr).calls, c.touchesResource = false) ∧
      (reconcile w csr).value = withInitializedConditions csr) := by
  have htg := ensureFinalizer_targets w csr
  obtain ⟨rest, hcalls, hrest, hne⟩ := converge_calls_after_finalizer w csr hdel
  have hnot : ∀ c ∈ (ensureFinalizer w csr).calls, c.touchesResource = false := fun c hc => by
    simp [Call.touchesResource, htg c hc]
  refine ⟨htg, ⟨rest, hcalls, hrest, hne⟩, ?_, ?_⟩
  · rintro ⟨c, hc, ht⟩
    rw [hcalls] at hc
    rcases List.mem_append.mp hc with h | h
    · rw [hnot c h] at ht
      cases ht
    · exact hne (List.ne_nil_of_mem h)
  · intro e he
    have hefc : ∀ sp st, ensureFinalizer w (Scheduler.mk csr.ObjectMeta sp st) =
        ensureFinalizer w csr := fun _ _ => rfl
    have hr : reconcile w csr =
        { value := withInitializedConditions csr, err := some e,
          calls := (ensureFinalizer w csr).calls } := by
      simp only [reconcile, hdel, hefc, he]
      rfl
    rw [hr]
    exact ⟨rfl, rfl, hnot, rfl⟩


/-- Witness of C8: the finalizer patch fails on a Scheduler without
finalizers. -/
theorem finalizer_before_resources_witness :
    (reconcile patchFailingWorld (testScheduler [] none emptyStatus)).err =
      some (errorsNew "conflict") ∧
    (reconcile patchFailingWorld (testScheduler [] none emptyStatus)).calls =
      [Call.SchedulersPatch "testnamespace" "my-test-scheduler"
        "\x7b\"metadata\":\x7b\"finalizers\":[\"cloud-run-events-scheduler-source-controller\"],\"resourceVersion\":\"\"\x7d\x7d"] := by
  have h := (finalizer_before_resources patchFailingWorld
    (testScheduler [] none emptyStatus) rfl).2.2.2 (errorsNew "conflict") (by decide)
  refine ⟨h.1, ?_⟩
  rw [h.2.1]
  decide

/-- C9: when the pass obtained a Topic reported ready whose project identifier
is empty, or whose topic identifier is empty, or whose topic identifier is
not the requested topic name, it returns an error, TopicReady is False with
reason "TopicNotReady" and the message of the first failing check, the
recorded topic and project identifiers are not overwritten, and the calls of
the pass are those of `ensureFinalizer` and `reconcileTopic` only. -/
theorem topic_validation_rejects (w : World) (csr : Scheduler) (t : Topic)
    (hdel : csr.ObjectMeta.DeletionTimestamp = none)
    (hef : (ensureFinalizer w csr).err = none)
    (ht : (reconcileTopic w (withInitializedConditions csr) (requestedTopic csr)).1 = Except.ok t)
    (hready : t.Status.IsReady = true)
    (hbad : t.Status.ProjectID = "" ∨ t.Status.TopicID = "" ∨
      t.Status.TopicID ≠ requestedTopic csr) :
    (reconcile w csr).err =
      some (errorsNew
        (if t.Status.ProjectID = "" then "topic did not expose projectid"
         else if t.Status.TopicID = "" then "topic did not expose topicid"
         else "topic did not match expected: " ++ w.Quote (requestedTopic csr) ++ " got: " ++
           w.Quote t.Status.TopicID)) ∧
    (reconcile w csr).value.Status.GetCondition ConditionType.TopicReady =
      some { Status := ConditionStatus.ConditionFalse
             Reason := "TopicNotReady"
             Message := "Topic " ++ t.ObjectMeta.Namespace ++ "/" ++ t.ObjectMeta.Name ++
               (if t.Status.ProjectID = "" then " did not expose projectid"
                else if t.Status.TopicID = "" then " did not expose topicid"
                else " topic mismatch expected " ++ w.Quote (requestedTopic csr) ++ " got " ++
                  w.Quote t.Status.TopicID) } ∧
    (reconcile w csr).value.Status.TopicID = csr.Status.TopicID ∧
    (reconcile w csr).value.Status.ProjectID = csr.Status.ProjectID ∧
    (reconcile w csr).calls = (ensureFinalizer w csr).calls ++
      (reconcileTopic w (withInitializedConditions csr) (requestedTopic csr)).2 ∧
    (∀ c ∈ (reconcile w csr).calls,
      c.target = CallTarget.SchedulersPatch ∨ c.target = CallTarget.Topics) := by
  have hef1 : (ensureFinalizer w (withInitializedConditions csr)).err = none := hef
  have htg1 := ensureFinalizer_targets w csr
  have htg2 := reconcileTopic_targets w (withInitializedConditions csr) (requestedTopic csr)
  have hr : reconcile w csr =
      { value := { withInitializedConditions csr with
                   Status := ((withInitializedConditions csr).Status.MarkTopicNotReady
                     "TopicNotReady"
                     ("Topic " ++ t.ObjectMeta.Namespace ++ "/" ++ t.ObjectMeta.Name ++
                       (if t.Status.ProjectID = "" then " did not expose projectid"
                        else if t.Status.TopicID = "" then " did not expose topicid"
                        else " topic mismatch expected " ++ w.Quote (requestedTopic csr) ++
                          " got " ++ w.Quote t.Status.TopicID))) }
        err := some (errorsNew
          (if t.Status.ProjectID = "" then "topic did not expose projectid"
           else if t.Status.TopicID = "" then "topic did not expose topicid"
           else "topic did not match expected: " ++ w.Quote (requestedTopic csr) ++ " got: " ++
             w.Quote t.Status.TopicID))
        calls := (ensureFinalizer w csr).calls ++
          (reconcileTopic w (withInitializedConditions csr) (requestedTopic csr)).2 } := by
    simp only [withInitializedConditions, requestedTopic] at ht hef1 hbad ⊢
    simp only [reconcile, hdel, hef1, ht, hready]
    by_cases hp : t.Status.ProjectID = ""
    · simp only [hp, if_true, Bool.true_eq_false, if_false]
      rfl
    · by_cases hti : t.Status.TopicID = ""
      · simp only [hp, hti, if_true, Bool.true_eq_false, if_false]
        rfl
      · have hne : t.Status.TopicID ≠
            (if csr.Status.TopicID = "" then "scheduler-" ++ csr.ObjectMeta.UID
              else csr.Status.TopicID) := by
          rcases hbad with h | h | h
          · exact absurd h hp
          · exact absurd h hti
          · exact h
        simp only [hp, hti, hne, ne_eq, not_false_eq_true, if_true, Bool.true_eq_false, if_false,
          String.append_assoc]
        rfl
  rw [hr]
  refine ⟨rfl, ?_, rfl, rfl, rfl, ?_⟩
  · simp [SchedulerStatus.MarkTopicNotReady, Conditions.MarkFalse, Conditions.SetCondition,
      SchedulerStatus.GetCondition, Conditions.GetCondition]
  · intro c hc
    rcases List.mem_append.mp hc with h | h
    · exact Or.inl (htg1 c h)
    · exact Or.inr (htg2 c h)


/-- Witness of C9: the Topic of the tests, ready under the topic identifier
"garbaaaaage". -/
theorem topic_validation_rejects_witness :
    (reconcile topicMismatchWorld
      (testScheduler [finalizerName] none emptyStatus)).value.Status.GetCondition
        ConditionType.TopicReady =
      some { Status := ConditionStatus.ConditionFalse
             Reason := "TopicNotReady"
             Message := "Topic testnamespace/my-test-scheduler topic mismatch expected \"scheduler-test-scheduler-uid\" got \"garbaaaaage\"" } := by
  have h := (topic_validation_rejects topicMismatchWorld
    (testScheduler [finalizerName] none emptyStatus)
    (testTopic { IsReady := true, ProjectID := "test-project-id", TopicID := "garbaaaaage" })
    rfl (by decide) (by rfl) rfl (by decide)).2.1
  rw [h]
  decide

/-- C10: when a converge pass gets past the finalizer and leaves TopicReady
True, the Topic it obtained was ready, and the status it leaves has the topic
identifier equal to the requested topic name and to the identifier the Topic
exposes, and the project identifier equal to the non-empty one the Topic
exposes. A pass whose finalizer patch fails marks no condition. -/
theorem topic_ready_records_identifiers (w : World) (csr : Scheduler)
    (hdel : csr.ObjectMeta.DeletionTimestamp = none)
    (hef : (ensureFinalizer w csr).err = none)
    (hmark : (reconcile w csr).value.Status.isTrue ConditionType.TopicReady = true) :
    ∃ t, (reconcileTopic w (withInitializedConditions csr) (requestedTopic csr)).1 = Except.ok t ∧
      t.Status.IsReady = true ∧
      (reconcile w csr).value.Status.TopicID = requestedTopic csr ∧
      (reconcile w csr).value.Status.TopicID = t.Status.TopicID ∧
      (reconcile w csr).value.Status.ProjectID = t.Status.ProjectID ∧
      t.Status.ProjectID ≠ "" := by
  have hef1 : (ensureFinalizer w (withInitializedConditions csr)).err = none := hef
  simp only [withInitializedConditions, requestedTopic] at hef1 ⊢
  cases hrt : (reconcileTopic w
      { ObjectMeta := csr.ObjectMeta, Spec := csr.Spec,
        Status := { csr.Status.InitializeConditions with
                    NotificationID := csr.Status.NotificationID } }
      (if csr.Status.TopicID = "" then "scheduler-" ++ csr.ObjectMeta.UID
        else csr.Status.TopicID)).1 with
  | error e =>
    exfalso
    simp only [reconcile, hdel, hef1, hrt] at hmark
    simp [SchedulerStatus.isTrue, SchedulerStatus.MarkTopicNotReady, Conditions.MarkFalse,
      Conditions.SetCondition, SchedulerStatus.GetCondition, Conditions.GetCondition] at hmark
  | ok t =>
    refine ⟨t, rfl, ?_⟩
    simp only [reconcile, hdel, hef1, hrt] at hmark ⊢
    cases hready : t.Status.IsReady with
    | false =>
      exfalso
      simp only [hready, if_true] at hmark
      simp [SchedulerStatus.isTrue, SchedulerStatus.MarkTopicNotReady, Conditions.MarkFalse,
        Conditions.SetCondition, SchedulerStatus.GetCondition, Conditions.GetCondition] at hmark
    | true =>
      simp only [hready, Bool.true_eq_false, if_false] at hmark ⊢
      by_cases hp : t.Status.ProjectID = ""
      · exfalso
        simp only [hp, if_true] at hmark
        simp [SchedulerStatus.isTrue, SchedulerStatus.MarkTopicNotReady, Conditions.MarkFalse,
          Conditions.SetCondition, SchedulerStatus.GetCondition, Conditions.GetCondition] at hmark
      · by_cases hti : t.Status.TopicID = ""
        · exfalso
          simp only [hp, hti, if_true, if_false] at hmark
          simp [SchedulerStatus.isTrue, SchedulerStatus.MarkTopicNotReady, Conditions.MarkFalse,
            Conditions.SetCondition, SchedulerStatus.GetCondition, Conditions.GetCondition] at hmark
        · by_cases hne : (if csr.Status.TopicID = "" then "scheduler-" ++ csr.ObjectMeta.UID
                else csr.Status.TopicID) = t.Status.TopicID
          · simp only [hp, hti, ne_eq, hne, not_true_eq_false, if_false]
            repeat' split
            all_goals exact ⟨trivial, rfl, rfl, rfl, not_false⟩
          · exfalso
            have hne2 : ¬ t.Status.TopicID = (if csr.Status.TopicID = "" then
                "scheduler-" ++ csr.ObjectMeta.UID else csr.Status.TopicID) :=
              fun h => hne h.symm
            simp only [hp, hti, ne_eq, hne2, not_false_eq_true, if_true, if_false] at hmark
            simp [SchedulerStatus.isTrue, SchedulerStatus.MarkTopicNotReady, Conditions.MarkFalse,
              Conditions.SetCondition, SchedulerStatus.GetCondition, Conditions.GetCondition]
              at hmark


/-- Witness of C10: the Topic of the tests, ready under the requested topic
identifier. -/
theorem topic_ready_records_identifiers_witness :
    ∃ t, (reconcileTopic topicReadyWorld
        (withInitializedConditions (testScheduler [finalizerName] none emptyStatus))
        (requestedTopic (testScheduler [finalizerName] none emptyStatus))).1 = Except.ok t ∧
      t.Status.IsReady = true ∧
      (reconcile topicReadyWorld (testScheduler [finalizerName] none emptyStatus)).value.Status.TopicID
        = requestedTopic (testScheduler [finalizerName] none emptyStatus) ∧
      (reconcile topicReadyWorld (testScheduler [finalizerName] none emptyStatus)).value.Status.TopicID
        = t.Status.TopicID ∧
      (reconcile topicReadyWorld
        (testScheduler [finalizerName] none emptyStatus)).value.Status.ProjectID =
        t.Status.ProjectID ∧
      t.Status.ProjectID ≠ "" :=
  topic_ready_records_identifiers topicReadyWorld
    (testScheduler [finalizerName] none emptyStatus) rfl (by decide) (by decide)

/-! ## Codec of the job result -/

/-- A hexadecimal digit decodes to the value it was written for. -/
theorem hexValue_hexDigit : ∀ d, d < 16 → hexValue (hexDigit d) = some d := by
  decide

/-- A character is determined by its code point. -/
theorem char_of_toNat (c : Char) (n : Nat) (h : c.toNat = n) : Char.ofNat n = c := by
  subst h
  exact Char.ofNat_toNat c

/-- Decoding of a character that needs no escape. -/
theorem parseStringBody_plain (c : Char) (tail : List Char) (h1 : c.toNat ≠ 34)
    (h2 : c.toNat ≠ 92) (h3 : ¬ c.toNat < 32) :
    parseStringBody (c :: tail) =
      match parseStringBody tail with
      | some (s, out) => some (c :: s, out)
      | none => none := by
  rw [parseStringBody.eq_def]
  simp only [h1, h2, h3, if_false]

/-- Decoding of a one-letter escape. -/
theorem parseStringBody_simple (e ch : Char) (tail : List Char)
    (h : simpleEscape e = some ch) (hu : e ≠ 'u') :
    parseStringBody (Char.ofNat 92 :: e :: tail) =
      match parseStringBody tail with
      | some (s, out) => some (ch :: s, out)
      | none => none := by
  rw [parseStringBody.eq_def]
  simp only [Char.reduceToNat, Nat.reduceEqDiff, if_false, if_true, hu, h]

/-- Decoding of an escape of four hexadecimal digits. -/
theorem parseStringBody_unicode (a b c d : Char) (x y z v : Nat) (tail : List Char)
    (ha : hexValue a = some x) (hb : hexValue b = some y) (hc : hexValue c = some z)
    (hd : hexValue d = some v) :
    parseStringBody (Char.ofNat 92 :: 'u' :: a :: b :: c :: d :: tail) =
      match parseStringBody tail with
      | some (s, out) => some (escapedChar (4096 * x + 256 * y + 16 * z + v) :: s, out)
      | none => none := by
  rw [parseStringBody.eq_def]
  simp only [Char.reduceToNat, Nat.reduceEqDiff, if_false, if_true, ha, hb, hc, hd]


/-- The two-digit escape of a character below the surrogates decodes to it. -/
theorem escapedChar_small (c : Char) (h : c.toNat < 55296) :
    escapedChar (4096 * 0 + 256 * 0 + 16 * (c.toNat / 16) + c.toNat % 16) = c := by
  have h1 : 4096 * 0 + 256 * 0 + 16 * (c.toNat / 16) + c.toNat % 16 = c.toNat := by omega
  rw [h1, escapedChar, if_neg (by omega)]
  exact Char.ofNat_toNat c

/-- Decoding undoes the encoding of one character. -/
theorem parseStringBody_escape (c : Char) (tail : List Char) :
    parseStringBody (jsonEscapeChar c ++ tail) =
      match parseStringBody tail with
      | some (s, out) => some (c :: s, out)
      | none => none := by
  unfold jsonEscapeChar
  split
  · rename_i h
    rw [List.cons_append, List.cons_append, List.nil_append,
      parseStringBody_simple (Char.ofNat 34) (Char.ofNat 34) tail (by decide) (by decide),
      char_of_toNat c 34 h]
  · split
    · rename_i h
      rw [List.cons_append, List.cons_append, List.nil_append,
        parseStringBody_simple (Char.ofNat 92) (Char.ofNat 92) tail (by decide) (by decide),
        char_of_toNat c 92 h]
    · split
      · rename_i h
        rw [List.cons_append, List.cons_append, List.nil_append,
          parseStringBody_simple 'n' (Char.ofNat 10) tail (by decide) (by decide),
          char_of_toNat c 10 h]
      · split
        · rename_i h
          rw [List.cons_append, List.cons_append, List.nil_append,
            parseStringBody_simple 'r' (Char.ofNat 13) tail (by decide) (by decide),
            char_of_toNat c 13 h]
        · split
          · rename_i h
            rw [List.cons_append, List.cons_append, List.nil_append,
              parseStringBody_simple 't' (Char.ofNat 9) tail (by decide) (by decide),
              char_of_toNat c 9 h]
          · split
            · rename_i h
              have hlt : c.toNat < 256 := by omega
              simp only [List.cons_append, List.nil_append]
              rw [parseStringBody_unicode '0' '0' _ _ 0 0 (c.toNat / 16) (c.toNat % 16) tail
                (by decide) (by decide)
                (hexValue_hexDigit _ (by omega)) (hexValue_hexDigit _ (by omega)),
                escapedChar_small c (by omega)]
            · split
              · rename_i h
                simp only [List.cons_append, List.nil_append]
                rw [parseStringBody_unicode '2' '0' '2' '8' 2 0 2 8 tail
                  (by decide) (by decide) (by decide) (by decide)]
                have : escapedChar (4096 * 2 + 256 * 0 + 16 * 2 + 8) = c := by
                  rw [← char_of_toNat c 8232 h]
                  decide
                rw [this]
              · split
                · rename_i h
                  simp only [List.cons_append, List.nil_append]
                  rw [parseStringBody_unicode '2' '0' '2' '9' 2 0 2 9 tail
                    (by decide) (by decide) (by decide) (by decide)]
                  have : escapedChar (4096 * 2 + 256 * 0 + 16 * 2 + 9) = c := by
                    rw [← char_of_toNat c 8233 h]
                    decide
                  rw [this]
                · rename_i h1 h2 h3 h4 h5 h6 h7 h8
                  rw [List.cons_append, List.nil_append,
                    parseStringBody_plain c tail h1 h2 (by omega)]

/-- Decoding undoes the encoding of a string, up to its closing quote. -/
theorem parseStringBody_escaped (s rest : List Char) :
    parseStringBody (s.flatMap jsonEscapeChar ++ Char.ofNat 34 :: rest) = some (s, rest) := by
  induction s with
  | nil =>
    rw [List.flatMap_nil, List.nil_append, parseStringBody.eq_def]
    simp only [Char.reduceToNat, if_true]
  | cons c s ih =>
    rw [List.flatMap_cons, List.append_assoc, parseStringBody_escape, ih]


/-- A character that is not whitespace is not skipped. -/
theorem skipSpace_visible (c : Char) (tail : List Char)
    (h : ¬ (c.toNat = 32 ∨ c.toNat = 9 ∨ c.toNat = 10 ∨ c.toNat = 13)) :
    skipSpace (c :: tail) = c :: tail := by
  rw [skipSpace, if_neg h]

/-- Decoding undoes the encoding of a scalar. -/
theorem parseScalar_encode (v : JsonScalar) (rest : List Char) :
    parseScalar (encodeScalar v ++ rest) = some (v, rest) := by
  cases v with
  | str s =>
    rw [encodeScalar, List.cons_append, List.append_assoc, List.singleton_append, parseScalar]
    simp only [Char.reduceToNat, if_true, parseStringBody_escaped]
  | bool b => cases b <;> rfl
  | null => rfl

/-- The encoding of a scalar does not start with whitespace. -/
theorem skipSpace_encode (v : JsonScalar) (rest : List Char) :
    skipSpace (encodeScalar v ++ rest) = encodeScalar v ++ rest := by
  cases v with
  | str s => exact skipSpace_visible _ _ (by decide)
  | bool b => cases b <;> exact skipSpace_visible _ _ (by decide)
  | null => exact skipSpace_visible _ _ (by decide)

/-- Decoding of one encoded member followed by a separator. -/
theorem parseMembers_member (fuel : Nat) (r : NotificationActionResult) (key : String)
    (v : JsonScalar) (sep : Char) (tail : List Char)
    (hsep : skipSpace (sep :: tail) = sep :: tail) :
    parseMembers (fuel + 1) r (jsonMember key (encodeScalar v) ++ sep :: tail) =
      match setField r key.data v with
      | none => none
      | some r1 =>
        if sep = ',' then parseMembers fuel r1 tail
        else if sep.toNat = 125 then (if skipSpace tail = [] then some r1 else none)
        else none := by
  have hshape : jsonMember key (encodeScalar v) ++ sep :: tail =
      Char.ofNat 34 :: (key.data.flatMap jsonEscapeChar ++
        Char.ofNat 34 :: (':' :: (encodeScalar v ++ sep :: tail))) := by
    simp [jsonMember, jsonStringChars]
  rw [hshape, parseMembers, skipSpace_visible _ _ (by decide)]
  simp only [Char.reduceToNat, if_true, parseStringBody_escaped]
  rw [skipSpace_visible ':' _ (by decide)]
  simp only [if_true, skipSpace_encode, parseScalar_encode, hsep]

/-- Decoding of an encoded list of members assigns them in order. -/
theorem parseMembers_list (ms : List (String × JsonScalar)) :
    ∀ (fuel : Nat) (r : NotificationActionResult) (m : String × JsonScalar),
      parseMembers (fuel + ms.length + 1) r
        (joinComma ((m :: ms).map fun kv => jsonMember kv.1 (encodeScalar kv.2)) ++
          [Char.ofNat 125]) =
      (m :: ms).foldlM (fun acc kv => setField acc kv.1.data kv.2) r := by
  induction ms with
  | nil =>
    intro fuel r m
    simp only [List.map_cons, List.map_nil, joinComma, List.length_nil, Nat.add_zero]
    rw [parseMembers_member fuel r m.1 m.2 _ [] (skipSpace_visible _ _ (by decide))]
    cases hset : setField r m.1.data m.2 <;> simp [skipSpace, hset]
  | cons m2 ms ih =>
    intro fuel r m
    have hjoin : joinComma ((m :: m2 :: ms).map fun kv => jsonMember kv.1 (encodeScalar kv.2)) ++
        [Char.ofNat 125] =
        jsonMember m.1 (encodeScalar m.2) ++
          ',' :: (joinComma ((m2 :: ms).map fun kv => jsonMember kv.1 (encodeScalar kv.2)) ++
            [Char.ofNat 125]) := by
      simp [joinComma]
    rw [hjoin, List.length_cons, ← Nat.add_assoc,
      parseMembers_member (fuel + ms.length + 1) r m.1 m.2 ',' _
        (skipSpace_visible _ _ (by decide))]
    rw [List.foldlM_cons]
    cases hset : setField r m.1.data m.2 with
    | none => rfl
    | some r1 =>
      simp only [if_true]
      rw [ih fuel r1 m2]
      rfl


/-- The members of an encoded result are the encodings of its fields. -/
theorem marshalResultMembers_fields (r : NotificationActionResult) :
    marshalResultMembers r =
      (resultFields r).map fun kv => jsonMember kv.1 (encodeScalar kv.2) := by
  unfold marshalResultMembers resultFields
  repeat' split
  all_goals rfl

/-- Assigning the fields of a result to the zero value gives the result back. -/
theorem resultFields_decode (r : NotificationActionResult) (h : r.Result = true) :
    (resultFields r).foldlM (fun acc kv => setField acc kv.1.data kv.2)
      { Result := false, Error := "", NotificationId := "", ProjectId := "" } = some r := by
  rcases r with ⟨res, e, n, p⟩
  simp only at h
  subst h
  unfold resultFields
  by_cases he : e = "" <;> by_cases hn : n = "" <;> by_cases hp : p = "" <;>
    simp only [he, hn, hp, if_true, if_false] <;> rfl

/-- An encoded object is at least as long as it has members. -/
theorem joinComma_members_length (ms : List (String × JsonScalar)) :
    ms.length ≤ (joinComma (ms.map fun kv => jsonMember kv.1 (encodeScalar kv.2))).length := by
  induction ms with
  | nil => exact Nat.le_refl 0
  | cons m ms ih =>
    cases ms with
    | nil => simp [joinComma, jsonMember, jsonStringChars]
    | cons m2 ms =>
      simp only [List.map_cons, joinComma, List.length_append, List.length_cons] at ih ⊢
      omega

/-- An encoded non-empty list of members starts with a quote. -/
theorem joinComma_members_head (m : String × JsonScalar) (ms : List (String × JsonScalar)) :
    ∃ tl, joinComma ((m :: ms).map fun kv => jsonMember kv.1 (encodeScalar kv.2)) =
      Char.ofNat 34 :: tl := by
  cases ms with
  | nil => exact ⟨_, rfl⟩
  | cons m2 ms => exact ⟨_, rfl⟩

/-- Decoding the encoding of a result whose `result` is true gives it back. -/
theorem marshal_unmarshal_result (r : NotificationActionResult) (h : r.Result = true) :
    unmarshalResult (marshalResult r) = Except.ok r := by
  have hdec := resultFields_decode r h
  obtain ⟨ms, hms⟩ : ∃ ms, resultFields r = ("result", JsonScalar.bool true) :: ms := by
    unfold resultFields
    rw [if_pos h]
    exact ⟨_, rfl⟩
  have hlen := joinComma_members_length (resultFields r)
  obtain ⟨tl, htl⟩ := joinComma_members_head ("result", JsonScalar.bool true) ms
  rw [hms] at hdec hlen
  obtain ⟨fuel, hfuel⟩ : ∃ fuel,
      (joinComma ((("result", JsonScalar.bool true) :: ms).map
        fun kv => jsonMember kv.1 (encodeScalar kv.2)) ++ [Char.ofNat 125]).length =
      fuel + ms.length + 1 := by
    refine ⟨(joinComma ((("result", JsonScalar.bool true) :: ms).map
        fun kv => jsonMember kv.1 (encodeScalar kv.2))).length - ms.length, ?_⟩
    simp only [List.length_append, List.length_cons, List.length_nil] at hlen ⊢
    omega
  unfold unmarshalResult marshalResult
  rw [marshalResultMembers_fields, hms]
  simp only [skipSpace_visible (Char.ofNat 123) _ (by decide), Char.reduceToNat, if_true]
  rw [hfuel, parseMembers_list ms fuel _ _, hdec]
  rw [htl, List.cons_append, skipSpace_visible (Char.ofNat 34) _ (by decide)]
  simp only [Char.reduceToNat, Nat.reduceEqDiff, if_false]


/-! ## Notification step -/

/-- A pass that reaches the notification step returns what `reconcileNotification`
decides: its error with NotificationReady marked False, or its identifier
with NotificationReady marked True. -/
theorem reconcile_at_notification (w : World) (csr : Scheduler) (t : Topic)
    (ps : PullSubscription) (uri : Option URL) (h : ReachesNotification w csr t ps uri) :
    reconcile w csr =
      match (reconcileNotification w (atNotification csr t uri)).err with
      | some err =>
        { value := { atNotification csr t uri with
                     Status := ((atNotification csr t uri).Status.MarkGCSNotReady "GCSNotReady"
                       ("Failed to create Scheduler notification: " ++ err.Error)) }
          err := some err
          calls := (ensureFinalizer w csr).calls ++
            (reconcileTopic w csr (requestedTopic csr)).2 ++
            (reconcilePullSubscription w csr (requestedTopic csr)).2 ++
            (reconcileNotification w (atNotification csr t uri)).calls }
      | none =>
        { value := { atNotification csr t uri with
                     Status := { (atNotification csr t uri).Status.MarkGCSReady with
                                 NotificationID :=
                                   (reconcileNotification w (atNotification csr t uri)).value } }
          err := none
          calls := (ensureFinalizer w csr).calls ++
            (reconcileTopic w csr (requestedTopic csr)).2 ++
            (reconcilePullSubscription w csr (requestedTopic csr)).2 ++
            (reconcileNotification w (atNotification csr t uri)).calls } := by
  obtain ⟨hdel, hef, ht, hready, hp, hti, hne, hps, hpsr, huri⟩ := h
  have hef1 : ∀ sp st, ensureFinalizer w (Scheduler.mk csr.ObjectMeta sp st) =
      ensureFinalizer w csr := fun _ _ => rfl
  have ht1 : ∀ st tp, reconcileTopic w (Scheduler.mk csr.ObjectMeta csr.Spec st) tp =
      reconcileTopic w csr tp := fun _ _ => rfl
  have hps1 : ∀ st tp, reconcilePullSubscription w (Scheduler.mk csr.ObjectMeta csr.Spec st) tp =
      reconcilePullSubscription w csr tp := fun _ _ => rfl
  simp only [requestedTopic] at ht hne hps ⊢
  rw [← hne] at ht hps ⊢
  simp only [reconcile, hdel, hef1, ht1, hps1, hef, ht, hready, hp, hti, hps, hpsr, huri,
    ← hne, ne_eq, not_true_eq_false, if_false, Bool.true_eq_false]
  rfl


/-- The function `ensureNotificationJob` never looks up a pod. -/
theorem ensureNotificationJob_no_pod_lookup (w : World) (args : NotificationArgs) :
    ∀ c ∈ (ensureNotificationJob w args).calls, c.isPodLookup = false := by
  intro c hc
  simp only [ensureNotificationJob] at hc
  repeat' split at hc
  all_goals simp at hc
  all_goals first
    | (subst hc; rfl)
    | (rcases hc with rfl | rfl <;> rfl)

/-- A pod lookup is a call to the job executor. -/
theorem no_pod_lookup_of_target (c : Call) (h : c.target ≠ CallTarget.Jobs) :
    c.isPodLookup = false := by
  cases c <;> first | rfl | exact absurd rfl h

/-- Outcome of `reconcileNotification` once the create job has completed
successfully and its pod is found. -/
theorem reconcileNotification_completed (w : World) (csr : Scheduler) (t : Topic)
    (uri : Option URL) (pod : Pod)
    (hphase : (createJob w csr t).value = OpsJobStatus.OpsJobCompleteSuccessful)
    (hpod : w.GetJobPod csr.ObjectMeta.Namespace csr.ObjectMeta.UID "create" = Except.ok pod) :
    reconcileNotification w (atNotification csr t uri) =
      if GetFirstTerminationMessage pod = "" then
        { value := ""
          err := some (errorsNew ("did not find termination message for pod " ++
            w.Quote pod.Name))
          calls := (createJob w csr t).calls ++
            [Call.GetJobPod csr.ObjectMeta.Namespace csr.ObjectMeta.UID "create"] }
      else
        match w.Unmarshal (GetFirstTerminationMessage pod) with
        | Except.error e =>
          { value := ""
            err := some (errorsNew ("failed to unmarshal terminationmessage: " ++ w.Quote e))
            calls := (createJob w csr t).calls ++
              [Call.GetJobPod csr.ObjectMeta.Namespace csr.ObjectMeta.UID "create"] }
        | Except.ok nar =>
          if nar.Result = false then
            { value := "", err := some (errorsNew nar.Error)
              calls := (createJob w csr t).calls ++
                [Call.GetJobPod csr.ObjectMeta.Namespace csr.ObjectMeta.UID "create"] }
          else
            { value := nar.NotificationId, err := none
              calls := (createJob w csr t).calls ++
                [Call.GetJobPod csr.ObjectMeta.Namespace csr.ObjectMeta.UID "create"] } := by
  have hst : EnsureNotification w (atNotification csr t uri).ObjectMeta.UID
      (atNotification csr t uri).ObjectMeta (atNotification csr t uri).Spec.GCSSecret
      (atNotification csr t uri).Status.ProjectID (atNotification csr t uri).Spec.Bucket
      (atNotification csr t uri).Status.TopicID = createJob w csr t := rfl
  have hmeta : (atNotification csr t uri).ObjectMeta = csr.ObjectMeta := rfl
  simp only [reconcileNotification, hst]
  simp only [hmeta, hphase, hpod]
  simp only [reduceCtorEq, or_self, if_false, ne_eq, not_true_eq_false]

/-! ## Topic-not-ready scenario -/

/-- C11: topic-not-ready scenario. For every Scheduler with no deletion
timestamp, no finalizer and empty status, when the finalizer patch succeeds,
no Topic exists and the created Topic comes back not ready under the name of
the Scheduler: the pass issues exactly the finalizer patch adding the marker,
the Topic get and one Topic create, whose requested topic name is
"scheduler-<UID>" with propagation policy CreateDelete; it returns the error
"topic not ready", leaves TopicReady False with reason "TopicNotReady" and
message "Topic <ns>/<name> not ready", and issues no PullSubscription or job
call. `MakeTopic` is modelled from the spec. -/
theorem topic_created_not_ready (w : World) (csr : Scheduler) (e : GoError) (t : Topic)
    (hdel : csr.ObjectMeta.DeletionTimestamp = none)
    (hfin : csr.ObjectMeta.Finalizers = [])
    (hstatus : csr.Status = emptyStatus)
    (hpatch : w.SchedulersPatch csr.ObjectMeta.Namespace csr.ObjectMeta.Name
      (marshalMergePatch { finalizers := [finalizerName]
                           resourceVersion := csr.ObjectMeta.ResourceVersion }) = none)
    (hget : w.TopicsGet csr.ObjectMeta.Namespace csr.ObjectMeta.Name = Except.error e)
    (hnf : e.IsNotFound = true)
    (hcreate : w.TopicsCreate (MakeTopic csr ("scheduler-" ++ csr.ObjectMeta.UID)) = Except.ok t)
    (hmeta : t.ObjectMeta.Namespace = csr.ObjectMeta.Namespace ∧
      t.ObjectMeta.Name = csr.ObjectMeta.Name)
    (hnotready : t.Status.IsReady = false) :
    (reconcile w csr).calls =
      [Call.SchedulersPatch csr.ObjectMeta.Namespace csr.ObjectMeta.Name
         (marshalMergePatch { finalizers := [finalizerName]
                              resourceVersion := csr.ObjectMeta.ResourceVersion }),
       Call.TopicsGet csr.ObjectMeta.Namespace csr.ObjectMeta.Name,
       Call.TopicsCreate (MakeTopic csr ("scheduler-" ++ csr.ObjectMeta.UID))] ∧
    (MakeTopic csr ("scheduler-" ++ csr.ObjectMeta.UID)).Spec.Topic =
      "scheduler-" ++ csr.ObjectMeta.UID ∧
    (MakeTopic csr ("scheduler-" ++ csr.ObjectMeta.UID)).Spec.PropagationPolicy =
      "CreateDelete" ∧
    (reconcile w csr).err = some (errorsNew "topic not ready") ∧
    (reconcile w csr).value.Status.GetCondition ConditionType.TopicReady =
      some { Status := ConditionStatus.ConditionFalse
             Reason := "TopicNotReady"
             Message := "Topic " ++ csr.ObjectMeta.Namespace ++ "/" ++ csr.ObjectMeta.Name ++
               " not ready" } ∧
    (∀ c ∈ (reconcile w csr).calls, c.target ≠ CallTarget.PullSubscriptions ∧
      c.target ≠ CallTarget.Jobs) := by
  have hef : ∀ sp st, ensureFinalizer w (Scheduler.mk csr.ObjectMeta sp st) =
      { value := (), err := none
        calls := [Call.SchedulersPatch csr.ObjectMeta.Namespace csr.ObjectMeta.Name
          (marshalMergePatch { finalizers := [finalizerName]
                               resourceVersion := csr.ObjectMeta.ResourceVersion })] } := by
    intro sp st
    simp [ensureFinalizer, hfin, hpatch]
  have hrt : ∀ st, reconcileTopic w (Scheduler.mk csr.ObjectMeta csr.Spec st)
      ("scheduler-" ++ csr.ObjectMeta.UID) =
      (Except.ok t, [Call.TopicsGet csr.ObjectMeta.Namespace csr.ObjectMeta.Name,
        Call.TopicsCreate (MakeTopic csr ("scheduler-" ++ csr.ObjectMeta.UID))]) := by
    intro st
    simp only [reconcileTopic, hget, hnf, if_true]
    exact Prod.ext hcreate rfl
  have htid : csr.Status.TopicID = "" := by rw [hstatus]; rfl
  have hr : reconcile w csr =
      { value := { withInitializedConditions csr with
                   Status := ((withInitializedConditions csr).Status.MarkTopicNotReady
                     "TopicNotReady"
                     ("Topic " ++ csr.ObjectMeta.Namespace ++ "/" ++ csr.ObjectMeta.Name ++
                       " not ready")) }
        err := some (errorsNew "topic not ready")
        calls := [Call.SchedulersPatch csr.ObjectMeta.Namespace csr.ObjectMeta.Name
           (marshalMergePatch { finalizers := [finalizerName]
                                resourceVersion := csr.ObjectMeta.ResourceVersion }),
         Call.TopicsGet csr.ObjectMeta.Namespace csr.ObjectMeta.Name,
         Call.TopicsCreate (MakeTopic csr ("scheduler-" ++ csr.ObjectMeta.UID))] } := by
    simp only [reconcile, hdel, htid, if_true, hef, hrt, hnotready, hmeta.1, hmeta.2]
    rfl
  rw [hr]
  refine ⟨rfl, rfl, rfl, rfl, rfl, ?_⟩
  intro c hc
  simp only [List.mem_cons, List.mem_singleton, List.not_mem_nil, or_false] at hc
  rcases hc with rfl | rfl | rfl <;> exact ⟨by simp [Call.target], by simp [Call.target]⟩

/-- Witness of C11: the first pass over the Scheduler of the tests in an empty
cluster. -/
theorem topic_created_not_ready_witness :
    (reconcile quietWorld (testScheduler [] none emptyStatus)).value.Status.GetCondition
        ConditionType.TopicReady =
      some { Status := ConditionStatus.ConditionFalse
             Reason := "TopicNotReady"
             Message := "Topic testnamespace/my-test-scheduler not ready" } := by
  have h := (topic_created_not_ready quietWorld (testScheduler [] none emptyStatus) notFound
    (MakeTopic (testScheduler [] none emptyStatus) "scheduler-test-scheduler-uid")
    rfl rfl rfl (by decide) (by rfl) rfl (by rfl) ⟨rfl, rfl⟩ rfl).2.2.2.2.1
  rw [h]
  decide


/-! ## Sub-resource ensurers -/

/-- C12: `reconcileTopic` and `reconcilePullSubscription` are get-or-create and
never update. If the get succeeds the existing resource is returned and the
get is the only call; if the get returns not-found exactly one create follows
and its result is returned; for any other get error that error is returned
unmodified and the get is the only call. -/
theorem ensurers_get_or_create (w : World) (csr : Scheduler) (topic : String) :
    (∀ existing, w.TopicsGet csr.ObjectMeta.Namespace csr.ObjectMeta.Name = Except.ok existing →
      reconcileTopic w csr topic =
        (Except.ok existing, [Call.TopicsGet csr.ObjectMeta.Namespace csr.ObjectMeta.Name])) ∧
    (∀ err, w.TopicsGet csr.ObjectMeta.Namespace csr.ObjectMeta.Name = Except.error err →
      err.IsNotFound = true →
      reconcileTopic w csr topic =
        (w.TopicsCreate (MakeTopic csr topic),
          [Call.TopicsGet csr.ObjectMeta.Namespace csr.ObjectMeta.Name,
           Call.TopicsCreate (MakeTopic csr topic)])) ∧
    (∀ err, w.TopicsGet csr.ObjectMeta.Namespace csr.ObjectMeta.Name = Except.error err →
      err.IsNotFound = false →
      reconcileTopic w csr topic =
        (Except.error err, [Call.TopicsGet csr.ObjectMeta.Namespace csr.ObjectMeta.Name])) ∧
    (∀ existing,
      w.PullSubscriptionsGet csr.ObjectMeta.Namespace csr.ObjectMeta.Name = Except.ok existing →
      reconcilePullSubscription w csr topic =
        (Except.ok existing,
          [Call.PullSubscriptionsGet csr.ObjectMeta.Namespace csr.ObjectMeta.Name])) ∧
    (∀ err,
      w.PullSubscriptionsGet csr.ObjectMeta.Namespace csr.ObjectMeta.Name = Except.error err →
      err.IsNotFound = true →
      reconcilePullSubscription w csr topic =
        (w.PullSubscriptionsCreate (MakePullSubscription csr topic),
          [Call.PullSubscriptionsGet csr.ObjectMeta.Namespace csr.ObjectMeta.Name,
           Call.PullSubscriptionsCreate (MakePullSubscription csr topic)])) ∧
    (∀ err,
      w.PullSubscriptionsGet csr.ObjectMeta.Namespace csr.ObjectMeta.Name = Except.error err →
      err.IsNotFound = false →
      reconcilePullSubscription w csr topic =
        (Except.error err,
          [Call.PullSubscriptionsGet csr.ObjectMeta.Namespace csr.ObjectMeta.Name])) := by
  refine ⟨?_, ?_, ?_, ?_, ?_, ?_⟩
  · intro existing h; simp [reconcileTopic, h]
  · intro err h hn; simp [reconcileTopic, h, hn]
  · intro err h hn; simp [reconcileTopic, h, hn]
  · intro existing h; simp [reconcilePullSubscription, h]
  · intro err h hn; simp [reconcilePullSubscription, h, hn]
  · intro err h hn; simp [reconcilePullSubscription, h, hn]

/-- Witness of C12: an existing Topic is returned after the get alone, and a
missing PullSubscription is created once. -/
theorem ensurers_get_or_create_witness :
    reconcileTopic topicReadyWorld (testScheduler [finalizerName] none emptyStatus)
        "scheduler-test-scheduler-uid" =
      (Except.ok readyTopic, [Call.TopicsGet "testnamespace" "my-test-scheduler"]) ∧
    reconcilePullSubscription quietWorld (testScheduler [finalizerName] none emptyStatus)
        "scheduler-test-scheduler-uid" =
      (quietWorld.PullSubscriptionsCreate
          (MakePullSubscription (testScheduler [finalizerName] none emptyStatus)
            "scheduler-test-scheduler-uid"),
        [Call.PullSubscriptionsGet "testnamespace" "my-test-scheduler",
         Call.PullSubscriptionsCreate
          (MakePullSubscription (testScheduler [finalizerName] none emptyStatus)
            "scheduler-test-scheduler-uid")]) :=
  ⟨(ensurers_get_or_create topicReadyWorld (testScheduler [finalizerName] none emptyStatus)
      "scheduler-test-scheduler-uid").1 readyTopic rfl,
   (ensurers_get_or_create quietWorld (testScheduler [finalizerName] none emptyStatus)
      "scheduler-test-scheduler-uid").2.2.2.2.1 notFound rfl rfl⟩


/-! ## Notification job -/

/-- C13: phase derivation of `ensureNotificationJob`. Job absent: the lookup is
followed by one create, and the phase is CreateFailed exactly when the create
errors or returns no object, else Created. Job present: the lookup is the
only call (no create); not finished gives Ongoing; finished gives
CompleteSuccessful or CompleteFailed according to its failure condition. The
helpers `IsJobComplete`, `IsJobSucceeded` and `IsJobFailed` are modelled from
the spec. -/
theorem ensureNotificationJob_phase (w : World) (args : NotificationArgs) :
    (∀ err, w.JobListerGet args.Owner.Namespace (w.NotificationJobName args.Owner args.Action) =
        Except.error err → err.IsNotFound = true →
      (ensureNotificationJob w args).calls =
        [Call.JobListerGet args.Owner.Namespace (w.NotificationJobName args.Owner args.Action),
         Call.JobsCreate (NewNotificationOps w { args with Image := w.NotificationOpsImage })] ∧
      ((ensureNotificationJob w args).value = OpsJobStatus.OpsJobCreateFailed ∨
        (ensureNotificationJob w args).value = OpsJobStatus.OpsJobCreated) ∧
      ((ensureNotificationJob w args).value = OpsJobStatus.OpsJobCreateFailed ↔
        ((w.JobsCreate (NewNotificationOps w { args with Image := w.NotificationOpsImage })).2 ≠
            none ∨
          (w.JobsCreate (NewNotificationOps w { args with Image := w.NotificationOpsImage })).1 =
            none))) ∧
    (∀ job, w.JobListerGet args.Owner.Namespace (w.NotificationJobName args.Owner args.Action) =
        Except.ok job →
      (ensureNotificationJob w args).calls =
        [Call.JobListerGet args.Owner.Namespace (w.NotificationJobName args.Owner args.Action)] ∧
      (IsJobComplete job = false →
        (ensureNotificationJob w args).value = OpsJobStatus.OpsJobOngoing) ∧
      (IsJobComplete job = true →
        ((ensureNotificationJob w args).value = OpsJobStatus.OpsJobCompleteSuccessful ∨
          (ensureNotificationJob w args).value = OpsJobStatus.OpsJobCompleteFailed) ∧
        ((ensureNotificationJob w args).value = OpsJobStatus.OpsJobCompleteSuccessful ↔
          IsJobFailed job = false) ∧
        ((ensureNotificationJob w args).value = OpsJobStatus.OpsJobCompleteFailed ↔
          IsJobFailed job = true))) := by
  constructor
  · intro err h hn
    simp only [ensureNotificationJob, h, hn, if_true]
    cases h1 : (w.JobsCreate (NewNotificationOps w { args with Image := w.NotificationOpsImage })).2 <;>
    cases h2 : (w.JobsCreate (NewNotificationOps w { args with Image := w.NotificationOpsImage })).1 <;>
    simp [h1, h2]
  · intro job h
    simp only [ensureNotificationJob, h]
    refine ⟨?_, ?_, ?_⟩
    · repeat' split
      all_goals rfl
    · intro hc
      simp [hc]
    · intro hc
      cases hf : IsJobFailed job <;> simp [hc, hf, IsJobSucceeded]

/-- Witness of C13: a finished job with its failure condition set is looked up
once, not recreated, and gives CompleteFailed. -/
theorem ensureNotificationJob_phase_witness :
    (ensureNotificationJob
        (notificationWorld (some (finishedJob ActionCreate false)) none)
        (finishedJob ActionCreate false).Args).calls =
      [Call.JobListerGet "testnamespace" "scheduler-test-scheduler-uid-create"] ∧
    (ensureNotificationJob
        (notificationWorld (some (finishedJob ActionCreate false)) none)
        (finishedJob ActionCreate false).Args).value = OpsJobStatus.OpsJobCompleteFailed :=
  ⟨((ensureNotificationJob_phase
      (notificationWorld (some (finishedJob ActionCreate false)) none)
      (finishedJob ActionCreate false).Args).2 (finishedJob ActionCreate false) rfl).1,
   (((ensureNotificationJob_phase
      (notificationWorld (some (finishedJob ActionCreate false)) none)
      (finishedJob ActionCreate false).Args).2 (finishedJob ActionCreate false) rfl).2.2
        (by decide)).2.2.2 (by decide)⟩

/-- C14: for every pass that reached the notification step, when the phase of
the create job is not CompleteSuccessful the pass returns the error
`Job "<name>" failed to create or job failed` if the phase is CreateFailed or
CompleteFailed and `Job "<name>" has not completed yet` otherwise; in both
cases NotificationReady is False with reason "GCSNotReady" and message
"Failed to create Scheduler notification: <error>", TopicReady and
PullSubscriptionReady are True, and no pod lookup is among the calls. -/
theorem notification_job_not_done (w : World) (csr : Scheduler) (t : Topic)
    (ps : PullSubscription) (uri : Option URL) (h : ReachesNotification w csr t ps uri)
    (hphase : (createJob w csr t).value ≠ OpsJobStatus.OpsJobCompleteSuccessful) :
    (reconcile w csr).err =
      some (errorsNew ("Job " ++ w.Quote csr.ObjectMeta.Name ++
        (if (createJob w csr t).value = OpsJobStatus.OpsJobCreateFailed ∨
            (createJob w csr t).value = OpsJobStatus.OpsJobCompleteFailed
         then " failed to create or job failed" else " has not completed yet"))) ∧
    (reconcile w csr).value.Status.GetCondition ConditionType.NotificationReady =
      some { Status := ConditionStatus.ConditionFalse
             Reason := "GCSNotReady"
             Message := "Failed to create Scheduler notification: " ++
               ("Job " ++ w.Quote csr.ObjectMeta.Name ++
                (if (createJob w csr t).value = OpsJobStatus.OpsJobCreateFailed ∨
                    (createJob w csr t).value = OpsJobStatus.OpsJobCompleteFailed
                 then " failed to create or job failed" else " has not completed yet")) } ∧
    (reconcile w csr).value.Status.isTrue ConditionType.TopicReady = true ∧
    (reconcile w csr).value.Status.isTrue ConditionType.PullSubscriptionReady = true ∧
    (reconcile w csr).calls = (ensureFinalizer w csr).calls ++
      (reconcileTopic w csr (requestedTopic csr)).2 ++
      (reconcilePullSubscription w csr (requestedTopic csr)).2 ++ (createJob w csr t).calls ∧
    (∀ c ∈ (reconcile w csr).calls, c.isPodLookup = false) := by
  have hst : EnsureNotification w (atNotification csr t uri).ObjectMeta.UID
      (atNotification csr t uri).ObjectMeta (atNotification csr t uri).Spec.GCSSecret
      (atNotification csr t uri).Status.ProjectID (atNotification csr t uri).Spec.Bucket
      (atNotification csr t uri).Status.TopicID = createJob w csr t := rfl
  have hname : (atNotification csr t uri).ObjectMeta.Name = csr.ObjectMeta.Name := rfl
  have hrn : reconcileNotification w (atNotification csr t uri) =
      { value := ""
        err := some (errorsNew ("Job " ++ w.Quote csr.ObjectMeta.Name ++
          (if (createJob w csr t).value = OpsJobStatus.OpsJobCreateFailed ∨
              (createJob w csr t).value = OpsJobStatus.OpsJobCompleteFailed
           then " failed to create or job failed" else " has not completed yet")))
        calls := (createJob w csr t).calls } := by
    simp only [reconcileNotification, hst, hname]
    by_cases hf : (createJob w csr t).value = OpsJobStatus.OpsJobCreateFailed ∨
        (createJob w csr t).value = OpsJobStatus.OpsJobCompleteFailed
    · simp only [hf, if_true]
    · simp only [hf, if_false, hphase, ne_eq, not_false_eq_true, if_true]
  have hcalls : ∀ c ∈ (ensureFinalizer w csr).calls ++
      (reconcileTopic w csr (requestedTopic csr)).2 ++
      (reconcilePullSubscription w csr (requestedTopic csr)).2 ++ (createJob w csr t).calls,
      c.isPodLookup = false := by
    intro c hc
    simp only [List.mem_append] at hc
    rcases hc with ((hc | hc) | hc) | hc
    · exact no_pod_lookup_of_target c (by rw [ensureFinalizer_targets w csr c hc]; decide)
    · exact no_pod_lookup_of_target c (by rw [reconcileTopic_targets w csr _ c hc]; decide)
    · exact no_pod_lookup_of_target c
        (by rw [reconcilePullSubscription_targets w csr _ c hc]; decide)
    · exact ensureNotificationJob_no_pod_lookup w _ c hc
  rw [reconcile_at_notification w csr t ps uri h, hrn]
  exact ⟨rfl, rfl, rfl, rfl, rfl, hcalls⟩

/-- Witness of C14: no job yet (one is created), and a job that failed. -/
theorem notification_job_not_done_witness :
    (reconcile (notificationWorld none none)
      (testScheduler [finalizerName] none emptyStatus)).err =
        some (errorsNew "Job \"my-test-scheduler\" has not completed yet") ∧
    (reconcile (notificationWorld (some (finishedJob ActionCreate false)) none)
      (testScheduler [finalizerName] none emptyStatus)).err =
        some (errorsNew "Job \"my-test-scheduler\" failed to create or job failed") :=
  ⟨(notification_job_not_done (notificationWorld none none)
      (testScheduler [finalizerName] none emptyStatus) readyTopic readyPullSubscription
      (some { Raw := "http://sink.mynamespace.svc.cluster.local/" })
      (by unfold ReachesNotification; decide) (by decide)).1,
   (notification_job_not_done (notificationWorld (some (finishedJob ActionCreate false)) none)
      (testScheduler [finalizerName] none emptyStatus) readyTopic readyPullSubscription
      (some { Raw := "http://sink.mynamespace.svc.cluster.local/" })
      (by unfold ReachesNotification; decide) (by decide)).1⟩


/-! ## Result of the notification job -/

/-- C15: for every pass whose create job completed successfully and whose pod
is found, an empty termination message gives the error
`did not find termination message for pod "<pod>"` and a message the decoder
rejects gives `failed to unmarshal terminationmessage: <quoted error>`; in
both cases NotificationReady is False and status.NotificationID keeps its
loaded value. -/
theorem result_decoding_rejects (w : World) (csr : Scheduler) (t : Topic)
    (ps : PullSubscription) (uri : Option URL) (pod : Pod)
    (h : ReachesNotification w csr t ps uri)
    (hphase : (createJob w csr t).value = OpsJobStatus.OpsJobCompleteSuccessful)
    (hpod : w.GetJobPod csr.ObjectMeta.Namespace csr.ObjectMeta.UID "create" = Except.ok pod) :
    (GetFirstTerminationMessage pod = "" →
      (reconcile w csr).err =
        some (errorsNew ("did not find termination message for pod " ++ w.Quote pod.Name)) ∧
      (reconcile w csr).value.Status.GetCondition ConditionType.NotificationReady =
        some { Status := ConditionStatus.ConditionFalse
               Reason := "GCSNotReady"
               Message := "Failed to create Scheduler notification: " ++
                 ("did not find termination message for pod " ++ w.Quote pod.Name) } ∧
      (reconcile w csr).value.Status.NotificationID = csr.Status.NotificationID) ∧
    (GetFirstTerminationMessage pod ≠ "" →
      ∀ e, w.Unmarshal (GetFirstTerminationMessage pod) = Except.error e →
      (reconcile w csr).err =
        some (errorsNew ("failed to unmarshal terminationmessage: " ++ w.Quote e)) ∧
      (reconcile w csr).value.Status.GetCondition ConditionType.NotificationReady =
        some { Status := ConditionStatus.ConditionFalse
               Reason := "GCSNotReady"
               Message := "Failed to create Scheduler notification: " ++
                 ("failed to unmarshal terminationmessage: " ++ w.Quote e) } ∧
      (reconcile w csr).value.Status.NotificationID = csr.Status.NotificationID) := by
  have hr := reconcile_at_notification w csr t ps uri h
  rw [reconcileNotification_completed w csr t uri pod hphase hpod] at hr
  constructor
  · intro hmsg
    simp only [hmsg, if_true] at hr
    rw [hr]
    exact ⟨rfl, rfl, rfl⟩
  · intro hmsg e he
    simp only [hmsg, if_false, he] at hr
    rw [hr]
    exact ⟨rfl, rfl, rfl⟩

/-- Witness of C15: the pod of the tests with an empty message and with the
message "invalid msg". -/
theorem result_decoding_rejects_witness :
    (reconcile (notificationWorld (some (finishedJob ActionCreate true)) (some ""))
      (testScheduler [finalizerName] none emptyStatus)).err =
        some (errorsNew "did not find termination message for pod \"test-pod\"") ∧
    (reconcile (notificationWorld (some (finishedJob ActionCreate true)) (some "invalid msg"))
      (testScheduler [finalizerName] none emptyStatus)).err =
        some (errorsNew "failed to unmarshal terminationmessage: \"invalid JSON\"") :=
  ⟨((result_decoding_rejects
      (notificationWorld (some (finishedJob ActionCreate true)) (some ""))
      (testScheduler [finalizerName] none emptyStatus) readyTopic readyPullSubscription
      (some { Raw := "http://sink.mynamespace.svc.cluster.local/" }) (testPod "")
      (by unfold ReachesNotification; decide) (by decide) rfl).1 (by decide)).1,
   ((result_decoding_rejects
      (notificationWorld (some (finishedJob ActionCreate true)) (some "invalid msg"))
      (testScheduler [finalizerName] none emptyStatus) readyTopic readyPullSubscription
      (some { Raw := "http://sink.mynamespace.svc.cluster.local/" }) (testPod "invalid msg")
      (by unfold ReachesNotification; decide) (by decide) rfl).2 (by decide) "invalid JSON"
        (by decide)).1⟩

/-- C16, as the specification states it, fails: for the failure result of the
tests the returned error is exactly "test induced failure", but the message
of NotificationReady is that text behind the prefix
"Failed to create Scheduler notification: ". -/
theorem job_failure_message_prefixed :
    unmarshalResult failureMessage =
      Except.ok { Result := false, Error := "test induced failure", NotificationId := ""
                  ProjectId := "test-project-id" } ∧
    (reconcile (notificationWorld (some (finishedJob ActionCreate true)) (some failureMessage))
      (testScheduler [finalizerName] none emptyStatus)).err =
        some (errorsNew "test induced failure") ∧
    (reconcile (notificationWorld (some (finishedJob ActionCreate true)) (some failureMessage))
      (testScheduler [finalizerName] none emptyStatus)).value.Status.GetCondition
        ConditionType.NotificationReady =
      some { Status := ConditionStatus.ConditionFalse
             Reason := "GCSNotReady"
             Message := "Failed to create Scheduler notification: test induced failure" } ∧
    "Failed to create Scheduler notification: test induced failure" ≠ "test induced failure" := by
  decide

/-- C16, amended: for every decoded result with `result` false and error
message m, the error returned by the pass has text exactly m, and
NotificationReady is False with reason "GCSNotReady" and message
"Failed to create Scheduler notification: " followed by m. -/
theorem job_reported_failure (w : World) (csr : Scheduler) (t : Topic)
    (ps : PullSubscription) (uri : Option URL) (pod : Pod) (nar : NotificationActionResult)
    (h : ReachesNotification w csr t ps uri)
    (hphase : (createJob w csr t).value = OpsJobStatus.OpsJobCompleteSuccessful)
    (hpod : w.GetJobPod csr.ObjectMeta.Namespace csr.ObjectMeta.UID "create" = Except.ok pod)
    (hmsg : GetFirstTerminationMessage pod ≠ "")
    (hnar : w.Unmarshal (GetFirstTerminationMessage pod) = Except.ok nar)
    (hres : nar.Result = false) :
    (reconcile w csr).err = some (errorsNew nar.Error) ∧
    (errorsNew nar.Error).Error = nar.Error ∧
    (reconcile w csr).value.Status.GetCondition ConditionType.NotificationReady =
      some { Status := ConditionStatus.ConditionFalse
             Reason := "GCSNotReady"
             Message := "Failed to create Scheduler notification: " ++ nar.Error } := by
  have hr := reconcile_at_notification w csr t ps uri h
  rw [reconcileNotification_completed w csr t uri pod hphase hpod] at hr
  simp only [hmsg, if_false, hnar, hres, if_true] at hr
  rw [hr]
  exact ⟨rfl, rfl, rfl⟩

/-- Witness of C16 amended: the failure result of the tests. -/
theorem job_reported_failure_witness :
    (reconcile (notificationWorld (some (finishedJob ActionCreate true)) (some failureMessage))
      (testScheduler [finalizerName] none emptyStatus)).err =
        some (errorsNew "test induced failure") ∧
    (reconcile (notificationWorld (some (finishedJob ActionCreate true)) (some failureMessage))
      (testScheduler [finalizerName] none emptyStatus)).value.Status.GetCondition
        ConditionType.NotificationReady =
      some { Status := ConditionStatus.ConditionFalse
             Reason := "GCSNotReady"
             Message := "Failed to create Scheduler notification: " ++ "test induced failure" } :=
  have h := job_reported_failure
    (notificationWorld (some (finishedJob ActionCreate true)) (some failureMessage))
    (testScheduler [finalizerName] none emptyStatus) readyTopic readyPullSubscription
    (some { Raw := "http://sink.mynamespace.svc.cluster.local/" }) (testPod failureMessage)
    { Result := false, Error := "test induced failure", NotificationId := ""
      ProjectId := "test-project-id" }
    (by unfold ReachesNotification; decide) (by decide) rfl (by decide) (by decide) rfl
  ⟨h.1, h.2.2⟩

/-- The encoding of a result is never the empty message. -/
theorem marshalResult_ne_empty (r : NotificationActionResult) : marshalResult r ≠ "" := by
  intro h
  have hd := congrArg String.data h
  simp [marshalResult] at hd

/-- C17: for every result r with `result` true, decoding the encoding of r
with the decoder of the fixtures gives r back (so its notificationId and
projectId are unchanged); and for every decoder that gives r back on the
encoding of r, in every pass that reached the notification step with the
create job completed successfully and the termination message of its pod
encoding r, the pass returns no error, TopicReady, PullSubscriptionReady and
NotificationReady are True, the Scheduler is ready, and status.NotificationID
is r.notificationId. -/
theorem result_round_trip_full_success (r : NotificationActionResult)
    (hr : r.Result = true) :
    unmarshalResult (marshalResult r) = Except.ok r ∧
    ∀ (w : World) (csr : Scheduler) (t : Topic) (ps : PullSubscription) (uri : Option URL)
      (pod : Pod),
      ReachesNotification w csr t ps uri →
      (createJob w csr t).value = OpsJobStatus.OpsJobCompleteSuccessful →
      w.GetJobPod csr.ObjectMeta.Namespace csr.ObjectMeta.UID "create" = Except.ok pod →
      GetFirstTerminationMessage pod = marshalResult r →
      w.Unmarshal (marshalResult r) = Except.ok r →
      (reconcile w csr).err = none ∧
      (reconcile w csr).value.Status.isTrue ConditionType.TopicReady = true ∧
      (reconcile w csr).value.Status.isTrue ConditionType.PullSubscriptionReady = true ∧
      (reconcile w csr).value.Status.isTrue ConditionType.NotificationReady = true ∧
      (reconcile w csr).value.Status.IsReady = true ∧
      (reconcile w csr).value.Status.NotificationID = r.NotificationId := by
  refine ⟨marshal_unmarshal_result r hr, ?_⟩
  intro w csr t ps uri pod h hphase hpod hmsg hun
  have hres := reconcile_at_notification w csr t ps uri h
  rw [reconcileNotification_completed w csr t uri pod hphase hpod] at hres
  simp only [hmsg, marshalResult_ne_empty r, if_false, hun, hr, Bool.true_eq_false] at hres
  rw [hres]
  exact ⟨rfl, rfl, rfl, rfl, rfl, rfl⟩

/-- Witness of C17: the success result of the tests gives notification
identifier "135". -/
theorem result_round_trip_full_success_witness :
    (reconcile (notificationWorld (some (finishedJob ActionCreate true)) (some successMessage))
      (testScheduler [finalizerName] none emptyStatus)).err = none ∧
    (reconcile (notificationWorld (some (finishedJob ActionCreate true)) (some successMessage))
      (testScheduler [finalizerName] none emptyStatus)).value.Status.NotificationID = "135" := by
  have h := (result_round_trip_full_success
    { Result := true, Error := "", NotificationId := "135", ProjectId := "test-project-id" }
    rfl).2 (notificationWorld (some (finishedJob ActionCreate true)) (some successMessage))
    (testScheduler [finalizerName] none emptyStatus) readyTopic readyPullSubscription
    (some { Raw := "http://sink.mynamespace.svc.cluster.local/" }) (testPod successMessage)
    (by unfold ReachesNotification; decide) (by decide) rfl (by decide) (by decide)
  exact ⟨h.1, h.2.2.2.2.2⟩


/-! ## Entry of `Reconcile` -/

/-- A key has one more piece than it has slashes. -/
theorem splitOnSlash_length (l : List Char) :
    (splitOnSlash l).length = slashCount l + 1 := by
  induction l with
  | nil => rfl
  | cons c cs ih =>
    rw [splitOnSlash]
    cases hs : splitOnSlash cs with
    | nil => rw [hs] at ih; simp at ih
    | cons p ps =>
      rw [hs] at ih
      by_cases hc : c = '/'
      · subst hc
        simp only [if_true, List.length_cons, slashCount, List.count_cons_self] at ih ⊢
        omega
      · simp only [hc, if_false, List.length_cons, slashCount, List.count_cons, beq_iff_eq,
          Nat.add_zero] at ih ⊢
        omega

/-- C18: entry of `Reconcile`. A key does not split into namespace and name
exactly when it has two or more slashes (as "too/many/parts"); for such a key
`Reconcile` returns nil and issues no call at all; for a well-formed key whose
Scheduler is not found it returns nil, and for any other load error it
returns that error, the load being the only call in both cases. -/
theorem Reconcile_entry (w : World) (key : String) :
    (SplitMetaNamespaceKey key = none ↔ 2 ≤ slashCount key.data) ∧
    (SplitMetaNamespaceKey key = none → Reconcile w key = (none, [])) ∧
    (∀ ns name err, SplitMetaNamespaceKey key = some (ns, name) →
      w.SchedulerListerGet ns name = Except.error err →
      (err.IsNotFound = true →
        Reconcile w key = (none, [Call.SchedulerListerGet ns name])) ∧
      (err.IsNotFound = false →
        Reconcile w key = (some err, [Call.SchedulerListerGet ns name]))) ∧
    SplitMetaNamespaceKey "too/many/parts" = none := by
  refine ⟨?_, ?_, ?_, by decide⟩
  · have hlen := splitOnSlash_length key.data
    unfold SplitMetaNamespaceKey
    split
    · rename_i h; rw [h] at hlen; simp at hlen; simp; omega
    · rename_i h; rw [h] at hlen; simp at hlen; simp; omega
    · rename_i h1 h2
      simp only [true_iff]
      cases hs : splitOnSlash key.data with
      | nil => rw [hs] at hlen; simp at hlen
      | cons a rest =>
        cases rest with
        | nil => exact absurd hs (h1 a)
        | cons b rest2 =>
          cases rest2 with
          | nil => exact absurd hs (h2 a b)
          | cons c rest3 => rw [hs] at hlen; simp at hlen; omega
  · intro h
    simp [Reconcile, h]
  · intro ns name err hk hget
    constructor
    · intro hn; simp [Reconcile, hk, hget, hn]
    · intro hn; simp [Reconcile, hk, hget, hn]

/-- Witness of C18: the malformed key of the tests, and a key whose Scheduler
does not exist. -/
theorem Reconcile_entry_witness :
    Reconcile quietWorld "too/many/parts" = (none, []) ∧
    Reconcile quietWorld "foo/not-found" = (none, [Call.SchedulerListerGet "foo" "not-found"]) := by
  have h := Reconcile_entry quietWorld "too/many/parts"
  have h2 := Reconcile_entry quietWorld "foo/not-found"
  exact ⟨h.2.1 h.2.2.2, (h2.2.2.1 "foo" "not-found" notFound (by decide) (by rfl)).1 rfl⟩


/-! ## Recorded identifiers -/

/-- The function `reconcileNotification` returns nil only with the identifier
of a decoded result whose `result` is true, read from the pod of the create
job. -/
theorem reconcileNotification_success (w : World) (s : Scheduler)
    (h : (reconcileNotification w s).err = none) :
    ∃ pod nar, w.GetJobPod s.ObjectMeta.Namespace s.ObjectMeta.UID "create" = Except.ok pod ∧
      w.Unmarshal (GetFirstTerminationMessage pod) = Except.ok nar ∧
      nar.Result = true ∧
      (reconcileNotification w s).value = nar.NotificationId := by
  by_cases h1 : (EnsureNotification w s.ObjectMeta.UID s.ObjectMeta s.Spec.GCSSecret
      s.Status.ProjectID s.Spec.Bucket s.Status.TopicID).value = OpsJobStatus.OpsJobCreateFailed ∨
    (EnsureNotification w s.ObjectMeta.UID s.ObjectMeta s.Spec.GCSSecret
      s.Status.ProjectID s.Spec.Bucket s.Status.TopicID).value = OpsJobStatus.OpsJobCompleteFailed
  · simp [reconcileNotification, h1] at h
  by_cases h2 : (EnsureNotification w s.ObjectMeta.UID s.ObjectMeta s.Spec.GCSSecret
      s.Status.ProjectID s.Spec.Bucket s.Status.TopicID).value ≠
        OpsJobStatus.OpsJobCompleteSuccessful
  · simp [reconcileNotification, h1, h2] at h
  cases hpod : w.GetJobPod s.ObjectMeta.Namespace s.ObjectMeta.UID "create" with
  | error e => simp [reconcileNotification, h1, h2, hpod] at h
  | ok pod =>
    by_cases hmsg : GetFirstTerminationMessage pod = ""
    · simp [reconcileNotification, h1, h2, hpod, hmsg] at h
    cases hun : w.Unmarshal (GetFirstTerminationMessage pod) with
    | error e => simp [reconcileNotification, h1, h2, hpod, hmsg, hun] at h
    | ok nar =>
      cases hres : nar.Result with
      | false => simp [reconcileNotification, h1, h2, hpod, hmsg, hun, hres] at h
      | true =>
        refine ⟨pod, nar, rfl, hun, hres, ?_⟩
        simp [reconcileNotification, h1, h2, hpod, hmsg, hun, hres]

/-- C19: for every Scheduler without a deletion timestamp, the re-initialization
at the start of `reconcile` leaves status.NotificationID and status.TopicID
equal to their loaded values; every pass that returns an error leaves
status.NotificationID equal to its loaded value; and a pass that returns nil
sets it to the notificationId of the decoded result of the create job. -/
theorem recorded_identifiers_kept (w : World) (csr : Scheduler)
    (hdel : csr.ObjectMeta.DeletionTimestamp = none) :
    csr.Status.InitializeConditions.TopicID = csr.Status.TopicID ∧
    (withInitializedConditions csr).Status.NotificationID = csr.Status.NotificationID ∧
    (withInitializedConditions csr).Status.TopicID = csr.Status.TopicID ∧
    ((reconcile w csr).err ≠ none →
      (reconcile w csr).value.Status.NotificationID = csr.Status.NotificationID) ∧
    ((reconcile w csr).err = none →
      ∃ pod nar,
        w.GetJobPod csr.ObjectMeta.Namespace csr.ObjectMeta.UID "create" = Except.ok pod ∧
        w.Unmarshal (GetFirstTerminationMessage pod) = Except.ok nar ∧
        nar.Result = true ∧
        (reconcile w csr).value.Status.NotificationID = nar.NotificationId) := by
  refine ⟨rfl, rfl, rfl, ?_, ?_⟩
  · simp only [reconcile, hdel]
    repeat' split
    all_goals first
      | (intro _; rfl)
      | (intro h; exact absurd rfl h)
  · simp only [reconcile, hdel]
    repeat' split
    all_goals first
      | (intro h; exact absurd h (Option.some_ne_none _))
      | (intro _
         rename_i hrn _
         exact reconcileNotification_success w _ hrn)

/-- Witness of C19: a pass over a Scheduler that recorded notification "135"
fails at the Topic and keeps "135". -/
theorem recorded_identifiers_kept_witness :
    (reconcile quietWorld
      (testScheduler [finalizerName] none notifiedStatus)).value.Status.NotificationID = "135" := by
  have h := (recorded_identifiers_kept quietWorld
    (testScheduler [finalizerName] none notifiedStatus) rfl).2.2.2.1 (by decide)
  rw [h]
  rfl


/-! ## Failures and conditions -/

/-- A text that starts with a non-empty text is not empty. -/
theorem append_ne_empty (a b : String) (h : a ≠ "") : a ++ b ≠ "" := by
  intro hab
  apply h
  have hd := congrArg String.data hab
  rw [String.data_append] at hd
  exact String.ext (List.append_eq_nil.mp hd).1

/-- A condition marked False with a non-empty reason and message reports not
ready. -/
theorem reportsNotReady_of_marked (s : SchedulerStatus) (t : ConditionType)
    (reason message : String) (hr : reason ≠ "") (hm : message ≠ "") :
    ({ s with Conditions := s.Conditions.MarkFalse t reason message } :
      SchedulerStatus).reportsNotReady t = true := by
  cases t <;>
    simp [SchedulerStatus.reportsNotReady, SchedulerStatus.GetCondition, Conditions.MarkFalse,
      Conditions.SetCondition, Conditions.GetCondition, hr, hm]

/-- The first lines of `reconcile` make no condition report not ready. -/
theorem reportsNotReady_initialized (csr : Scheduler) (t : ConditionType) :
    (withInitializedConditions csr).Status.reportsNotReady t = csr.Status.reportsNotReady t := by
  obtain ⟨m, sp, ⟨⟨ps, tr, nr⟩, uri, nid, pid, tid⟩⟩ := csr
  cases t <;> cases ps <;> cases tr <;> cases nr <;>
    simp [SchedulerStatus.reportsNotReady, SchedulerStatus.GetCondition,
      Conditions.GetCondition, withInitializedConditions, SchedulerStatus.InitializeConditions,
      Conditions.InitializeConditions]

/-- C20, as the specification states it, fails: a failed finalizer patch, and
a ready PullSubscription whose sink URI ":sink" does not parse, both end the
pass with an error while no condition of the resulting status is False. -/
theorem failure_without_condition :
    ((reconcile patchFailingWorld (testScheduler [] none emptyStatus)).err =
        some (errorsNew "conflict") ∧
      ∀ t, (reconcile patchFailingWorld
        (testScheduler [] none emptyStatus)).value.Status.reportsNotReady t = false) ∧
    ((reconcile sinkUnparsableWorld (testScheduler [finalizerName] none emptyStatus)).err =
        some (errorsNew ("failed to parse url \":sink\"" ++
          " : \"parse :sink: missing protocol scheme\"")) ∧
      ∀ t, (reconcile sinkUnparsableWorld
        (testScheduler [finalizerName] none emptyStatus)).value.Status.reportsNotReady t =
          false) := by
  refine ⟨⟨by decide, ?_⟩, ⟨by decide, ?_⟩⟩ <;> intro t <;> cases t <;> decide

/-- C20, amended: for every Scheduler without a deletion timestamp: whenever
`reconcile` returns an error after the finalizer was ensured, and the sink
URI of its ready PullSubscription parses, at least one of TopicReady,
PullSubscriptionReady, NotificationReady is False with a non-empty reason and
message in the resulting status. When the finalizer patch fails, the error of
the patch is returned and the Scheduler is left as loaded with its conditions
initialized, so a condition reports not ready only if it did when loaded.
When the sink URI of the ready PullSubscription fails to parse, the parse
error is returned with TopicReady and PullSubscriptionReady True and
NotificationReady as loaded and initialized: the pass marks no condition
False. -/
theorem failure_surfaces_as_condition (w : World) (csr : Scheduler)
    (hdel : csr.ObjectMeta.DeletionTimestamp = none) :
    ((reconcile w csr).err ≠ none →
      (ensureFinalizer w csr).err = none →
      (∀ ps, (reconcilePullSubscription w csr (requestedTopic csr)).1 = Except.ok ps →
        ps.Status.IsReady = true → ∃ uri, w.ParseURL ps.Status.SinkURI = Except.ok uri) →
      (reconcile w csr).value.Status.reportsNotReady ConditionType.TopicReady = true ∨
      (reconcile w csr).value.Status.reportsNotReady ConditionType.PullSubscriptionReady = true ∨
      (reconcile w csr).value.Status.reportsNotReady ConditionType.NotificationReady = true) ∧
    (∀ e, (ensureFinalizer w csr).err = some e →
      (reconcile w csr).err = some e ∧
      (reconcile w csr).value = withInitializedConditions csr ∧
      ∀ c, (reconcile w csr).value.Status.reportsNotReady c = csr.Status.reportsNotReady c) ∧
    (∀ t ps e, (ensureFinalizer w csr).err = none →
      (reconcileTopic w csr (requestedTopic csr)).1 = Except.ok t →
      t.Status.IsReady = true → t.Status.ProjectID ≠ "" → t.Status.TopicID ≠ "" →
      t.Status.TopicID = requestedTopic csr →
      (reconcilePullSubscription w csr (requestedTopic csr)).1 = Except.ok ps →
      ps.Status.IsReady = true →
      w.ParseURL ps.Status.SinkURI = Except.error e →
      (reconcile w csr).err = some (errorsNew ("failed to parse url " ++
        w.Quote ps.Status.SinkURI ++ " : " ++ w.Quote e)) ∧
      (reconcile w csr).value.Status.isTrue ConditionType.TopicReady = true ∧
      (reconcile w csr).value.Status.isTrue ConditionType.PullSubscriptionReady = true ∧
      (reconcile w csr).value.Status.GetCondition ConditionType.NotificationReady =
        (withInitializedConditions csr).Status.GetCondition ConditionType.NotificationReady ∧
      (reconcile w csr).value.Status.reportsNotReady ConditionType.TopicReady = false ∧
      (reconcile w csr).value.Status.reportsNotReady ConditionType.PullSubscriptionReady =
        false ∧
      (reconcile w csr).value.Status.reportsNotReady ConditionType.NotificationReady =
        csr.Status.reportsNotReady ConditionType.NotificationReady) := by
  have hrt : (if csr.Status.TopicID = "" then "scheduler-" ++ csr.ObjectMeta.UID
      else csr.Status.TopicID) = requestedTopic csr := rfl
  have hef1 : ∀ sp st, ensureFinalizer w (Scheduler.mk csr.ObjectMeta sp st) =
      ensureFinalizer w csr := fun _ _ => rfl
  have ht1 : ∀ st tp, reconcileTopic w (Scheduler.mk csr.ObjectMeta csr.Spec st) tp =
      reconcileTopic w csr tp := fun _ _ => rfl
  have hps1 : ∀ st tp, reconcilePullSubscription w (Scheduler.mk csr.ObjectMeta csr.Spec st) tp =
      reconcilePullSubscription w csr tp := fun _ _ => rfl
  refine ⟨?_, ?_, ?_⟩
  · intro herr hfin huri
    revert herr
    simp only [reconcile, hdel, hrt, hef1, hps1, hfin]
    generalize requestedTopic csr = topic at huri ⊢
    repeat' split
    all_goals intro herr
    all_goals first
      | exact absurd rfl herr
      | exact Or.inl (reportsNotReady_of_marked _ _ _ _ (by decide)
          (by repeat' apply append_ne_empty
              decide))
      | exact Or.inr (Or.inl (reportsNotReady_of_marked _ _ _ _ (by decide)
          (by repeat' apply append_ne_empty
              decide)))
      | exact Or.inr (Or.inr (reportsNotReady_of_marked _ _ _ _ (by decide)
          (by repeat' apply append_ne_empty
              decide)))
      | (rename_i hps hready _ _ hparse
         obtain ⟨uri, hu⟩ := huri _ hps (by simpa using hready)
         rw [hu] at hparse
         cases hparse)
  · intro e he
    have hr : reconcile w csr =
        { value := withInitializedConditions csr, err := some e
          calls := (ensureFinalizer w csr).calls } := by
      simp only [reconcile, hdel, hef1, he]
      rfl
    rw [hr]
    exact ⟨rfl, rfl, fun c => reportsNotReady_initialized csr c⟩
  · intro t ps e hfin ht hready hp hti hne hps hpsr he
    have hnr := reportsNotReady_initialized csr ConditionType.NotificationReady
    have hrec : reconcile w csr =
        { value :=
            { csr with
              Status := (({ (withInitializedConditions csr).Status with
                  TopicID := t.Status.TopicID
                  ProjectID := t.Status.ProjectID } :
                SchedulerStatus).MarkTopicReady.MarkPullSubscriptionReady) }
          err := some (errorsNew ("failed to parse url " ++ w.Quote ps.Status.SinkURI ++
            " : " ++ w.Quote e))
          calls := (ensureFinalizer w csr).calls ++
            (reconcileTopic w csr (requestedTopic csr)).2 ++
            (reconcilePullSubscription w csr (requestedTopic csr)).2 } := by
      simp only [requestedTopic] at ht hne hps ⊢
      rw [← hne] at ht hps ⊢
      simp only [reconcile, hdel, hef1, ht1, hps1, hfin, ht, hready, hp, hti, hps, hpsr, he,
        ← hne, ne_eq, not_true_eq_false, if_false, if_true, Bool.true_eq_false]
      rfl
    rw [hrec]
    refine ⟨rfl, rfl, rfl, rfl, rfl, rfl, ?_⟩
    rw [← hnr]
    rfl

/-- Witness of C20 amended: a pass that stops because the create job has not
completed, a pass whose finalizer patch is rejected, and a pass whose sink
URI does not parse. -/
theorem failure_surfaces_as_condition_witness :
    (reconcile (notificationWorld none none)
      (testScheduler [finalizerName] none emptyStatus)).err =
        some (errorsNew "Job \"my-test-scheduler\" has not completed yet") ∧
    ((reconcile (notificationWorld none none)
      (testScheduler [finalizerName] none emptyStatus)).value.Status.reportsNotReady
        ConditionType.TopicReady = true ∨
    (reconcile (notificationWorld none none)
      (testScheduler [finalizerName] none emptyStatus)).value.Status.reportsNotReady
        ConditionType.PullSubscriptionReady = true ∨
    (reconcile (notificationWorld none none)
      (testScheduler [finalizerName] none emptyStatus)).value.Status.reportsNotReady
        ConditionType.NotificationReady = true) ∧
    (reconcile patchFailingWorld (testScheduler [] none emptyStatus)).value =
      withInitializedConditions (testScheduler [] none emptyStatus) ∧
    (reconcile sinkUnparsableWorld
      (testScheduler [finalizerName] none emptyStatus)).value.Status.reportsNotReady
        ConditionType.NotificationReady = false :=
  ⟨by decide,
   (failure_surfaces_as_condition (notificationWorld none none)
    (testScheduler [finalizerName] none emptyStatus) rfl).1 (by decide) (by decide)
    (fun ps _ _ => by
      simp only [notificationWorld, quietWorld]
      split <;> exact ⟨_, rfl⟩),
   ((failure_surfaces_as_condition patchFailingWorld
    (testScheduler [] none emptyStatus) rfl).2.1 (errorsNew "conflict") (by decide)).2.1,
   ((failure_surfaces_as_condition sinkUnparsableWorld
    (testScheduler [finalizerName] none emptyStatus) rfl).2.2 readyTopic
    unparsableSinkPullSubscription "parse :sink: missing protocol scheme"
    (by decide) (by decide) (by decide) (by decide) (by decide) (by decide) (by decide)
    (by decide) (by decide)).2.2.2.2.2.2⟩

/-! ## Store errors -/

/-- The function `reconcile` never changes the metadata of the Scheduler it is
given. -/
theorem reconcile_meta (w : World) (csr : Scheduler) :
    (reconcile w csr).value.ObjectMeta = csr.ObjectMeta := by
  simp only [reconcile]
  repeat' split
  all_goals first
    | rfl
    | exact (deleteNotification_frame w _).1

/-- C21, as the specification states it, fails: when the lookup of the
notification job fails with "etcd timeout" the pass returns
`Job "my-test-scheduler" has not completed yet`, and when the creation of the
job fails with "quota exceeded" the pass returns
`Job "my-test-scheduler" failed to create or job failed`; neither is the error
of the failing call. -/
theorem job_error_not_propagated :
    (createJob jobLookupFailingWorld (testScheduler [finalizerName] none emptyStatus)
      readyTopic).err = some (errorsNew "etcd timeout") ∧
    (createJob jobLookupFailingWorld (testScheduler [finalizerName] none emptyStatus)
      readyTopic).value = OpsJobStatus.OpsJobGetFailed ∧
    (reconcile jobLookupFailingWorld (testScheduler [finalizerName] none emptyStatus)).err =
      some (errorsNew "Job \"my-test-scheduler\" has not completed yet") ∧
    (Reconcile jobLookupFailingWorld "testnamespace/my-test-scheduler").1 =
      some (errorsNew "Job \"my-test-scheduler\" has not completed yet") ∧
    errorsNew "Job \"my-test-scheduler\" has not completed yet" ≠ errorsNew "etcd timeout" ∧
    (jobCreateFailingWorld.JobsCreate
      (NewNotificationOps jobCreateFailingWorld
        { UID := "test-scheduler-uid", Image := "notification-ops-image", Action := ActionCreate
          ProjectID := "test-project-id", Bucket := "my-test-bucket"
          TopicID := "scheduler-test-scheduler-uid", NotificationId := ""
          Secret := { Name := "google-cloud-key", Key := "key.json" }
          Owner := testMeta [finalizerName] none })).2 = some (errorsNew "quota exceeded") ∧
    (reconcile jobCreateFailingWorld (testScheduler [finalizerName] none emptyStatus)).err =
      some (errorsNew "Job \"my-test-scheduler\" failed to create or job failed") ∧
    (Reconcile jobCreateFailingWorld "testnamespace/my-test-scheduler").1 =
      some (errorsNew "Job \"my-test-scheduler\" failed to create or job failed") ∧
    errorsNew "Job \"my-test-scheduler\" failed to create or job failed" ≠
      errorsNew "quota exceeded" := by
  decide

/-- C21, amended: in a converge pass an error of the finalizer patch, an error
other than not-found of the Topic get or of the PullSubscription get, an error
of the Topic create or of the PullSubscription create, and an error of the pod
lookup is the error `reconcile` returns; `Reconcile` returns the error of
`reconcile` when the status write is skipped or succeeds, and the error of
the status write when it fails. When the lookup of the notification job fails
with an error e other than not-found (phase GetFailed) the pass returns
`Job "<name>" has not completed yet`, and when the creation of the job fails
with e (phase CreateFailed) it returns
`Job "<name>" failed to create or job failed`. -/
theorem store_errors_fail_the_pass (w : World) (csr : Scheduler)
    (hdel : csr.ObjectMeta.DeletionTimestamp = none) :
    (∀ e, (ensureFinalizer w csr).err = some e → (reconcile w csr).err = some e) ∧
    ((ensureFinalizer w csr).err = none →
      (∀ e, w.TopicsGet csr.ObjectMeta.Namespace csr.ObjectMeta.Name = Except.error e →
        e.IsNotFound = false → (reconcile w csr).err = some e) ∧
      (∀ nf e, w.TopicsGet csr.ObjectMeta.Namespace csr.ObjectMeta.Name = Except.error nf →
        nf.IsNotFound = true →
        w.TopicsCreate (MakeTopic csr (requestedTopic csr)) = Except.error e →
        (reconcile w csr).err = some e)) ∧
    (∀ t, (ensureFinalizer w csr).err = none →
      (reconcileTopic w csr (requestedTopic csr)).1 = Except.ok t →
      t.Status.IsReady = true → t.Status.ProjectID ≠ "" → t.Status.TopicID ≠ "" →
      t.Status.TopicID = requestedTopic csr →
      (∀ e, w.PullSubscriptionsGet csr.ObjectMeta.Namespace csr.ObjectMeta.Name =
          Except.error e → e.IsNotFound = false → (reconcile w csr).err = some e) ∧
      (∀ nf e, w.PullSubscriptionsGet csr.ObjectMeta.Namespace csr.ObjectMeta.Name =
          Except.error nf → nf.IsNotFound = true →
        w.PullSubscriptionsCreate (MakePullSubscription csr (requestedTopic csr)) =
          Except.error e →
        (reconcile w csr).err = some e)) ∧
    (∀ t ps uri, ReachesNotification w csr t ps uri →
      (∀ e, (createJob w csr t).value = OpsJobStatus.OpsJobCompleteSuccessful →
        w.GetJobPod csr.ObjectMeta.Namespace csr.ObjectMeta.UID "create" = Except.error e →
        (reconcile w csr).err = some e) ∧
      (∀ e, w.JobListerGet csr.ObjectMeta.Namespace
          (w.NotificationJobName csr.ObjectMeta ActionCreate) = Except.error e →
        e.IsNotFound = false →
        (createJob w csr t).value = OpsJobStatus.OpsJobGetFailed ∧
        (createJob w csr t).err = some e ∧
        (reconcile w csr).err = some (errorsNew ("Job " ++ w.Quote csr.ObjectMeta.Name ++
          " has not completed yet"))) ∧
      (∀ nf e, w.JobListerGet csr.ObjectMeta.Namespace
          (w.NotificationJobName csr.ObjectMeta ActionCreate) = Except.error nf →
        nf.IsNotFound = true →
        (w.JobsCreate (NewNotificationOps w
          { UID := csr.ObjectMeta.UID, Image := w.NotificationOpsImage, Action := ActionCreate
            ProjectID := t.Status.ProjectID, Bucket := csr.Spec.Bucket
            TopicID := t.Status.TopicID, NotificationId := "", Secret := csr.Spec.GCSSecret
            Owner := csr.ObjectMeta })).2 = some e →
        (createJob w csr t).value = OpsJobStatus.OpsJobCreateFailed ∧
        (createJob w csr t).err = none ∧
        (reconcile w csr).err = some (errorsNew ("Job " ++ w.Quote csr.ObjectMeta.Name ++
          " failed to create or job failed")))) ∧
    (∀ key ns name, SplitMetaNamespaceKey key = some (ns, name) →
      w.SchedulerListerGet ns name = Except.ok csr →
      ((reconcile w csr).value.Status = csr.Status ∨
          ∃ s, (updateStatus w (reconcile w csr).value).1 = Except.ok s) →
      (Reconcile w key).1 = (reconcile w csr).err) ∧
    (∀ key ns name e, SplitMetaNamespaceKey key = some (ns, name) →
      w.SchedulerListerGet ns name = Except.ok csr →
      (reconcile w csr).value.Status ≠ csr.Status →
      (updateStatus w (reconcile w csr).value).1 = Except.error e →
      (Reconcile w key).1 = some e) := by
  have hef1 : ∀ sp st, ensureFinalizer w (Scheduler.mk csr.ObjectMeta sp st) =
      ensureFinalizer w csr := fun _ _ => rfl
  have ht1 : ∀ st tp, reconcileTopic w (Scheduler.mk csr.ObjectMeta csr.Spec st) tp =
      reconcileTopic w csr tp := fun _ _ => rfl
  have hps1 : ∀ st tp, reconcilePullSubscription w (Scheduler.mk csr.ObjectMeta csr.Spec st) tp =
      reconcilePullSubscription w csr tp := fun _ _ => rfl
  have hrt : (if csr.Status.TopicID = "" then "scheduler-" ++ csr.ObjectMeta.UID
      else csr.Status.TopicID) = requestedTopic csr := rfl
  have htopic : (ensureFinalizer w csr).err = none →
      ∀ e, (reconcileTopic w csr (requestedTopic csr)).1 = Except.error e →
      (reconcile w csr).err = some e := by
    intro hfin e he
    simp only [reconcile, hdel, hrt, hef1, ht1, hfin, he]
  have hpull : ∀ t, (ensureFinalizer w csr).err = none →
      (reconcileTopic w csr (requestedTopic csr)).1 = Except.ok t →
      t.Status.IsReady = true → t.Status.ProjectID ≠ "" → t.Status.TopicID ≠ "" →
      t.Status.TopicID = requestedTopic csr →
      ∀ e, (reconcilePullSubscription w csr (requestedTopic csr)).1 = Except.error e →
      (reconcile w csr).err = some e := by
    intro t hfin ht hready hp hti hne e he
    have hti2 : requestedTopic csr ≠ "" := hne ▸ hti
    simp only [reconcile, hdel, hrt, hef1, ht1, hps1, hfin, ht, hready, hp, hti, hti2, hne, he,
      ne_eq, not_true_eq_false, if_false, Bool.true_eq_false]
  have hm := reconcile_meta w csr
  refine ⟨?_, ?_, ?_, ?_, ?_, ?_⟩
  · intro e he
    simp only [reconcile, hdel, hef1, he]
  · intro hfin
    constructor
    · intro e hg hn
      exact htopic hfin e (by simp [reconcileTopic, hg, hn])
    · intro nf e hg hn hc
      exact htopic hfin e (by simp [reconcileTopic, hg, hn, hc])
  · intro t hfin ht hready hp hti hne
    constructor
    · intro e hg hn
      exact hpull t hfin ht hready hp hti hne e (by simp [reconcilePullSubscription, hg, hn])
    · intro nf e hg hn hc
      exact hpull t hfin ht hready hp hti hne e
        (by simp [reconcilePullSubscription, hg, hn, hc])
  · intro t ps uri h
    have hst : EnsureNotification w (atNotification csr t uri).ObjectMeta.UID
        (atNotification csr t uri).ObjectMeta (atNotification csr t uri).Spec.GCSSecret
        (atNotification csr t uri).Status.ProjectID (atNotification csr t uri).Spec.Bucket
        (atNotification csr t uri).Status.TopicID = createJob w csr t := rfl
    have hmeta : (atNotification csr t uri).ObjectMeta = csr.ObjectMeta := rfl
    have hr := reconcile_at_notification w csr t ps uri h
    refine ⟨?_, ?_, ?_⟩
    · intro e hphase hpod
      have hrn : (reconcileNotification w (atNotification csr t uri)).err = some e := by
        simp only [reconcileNotification, hst]
        simp only [hmeta, hphase, hpod]
        simp
      rw [hr, hrn]
    · intro e hg hn
      have hcj : createJob w csr t =
          { value := OpsJobStatus.OpsJobGetFailed, err := some e
            calls := [Call.JobListerGet csr.ObjectMeta.Namespace
              (w.NotificationJobName csr.ObjectMeta ActionCreate)] } := by
        simp [createJob, EnsureNotification, ensureNotificationJob, hg, hn]
      have hrn : (reconcileNotification w (atNotification csr t uri)).err =
          some (errorsNew ("Job " ++ w.Quote csr.ObjectMeta.Name ++
            " has not completed yet")) := by
        simp only [reconcileNotification, hst]
        simp only [hmeta, hcj]
        simp
      rw [hr, hrn, hcj]
      exact ⟨rfl, rfl, rfl⟩
    · intro nf e hg hn hc
      have hcj : createJob w csr t =
          { value := OpsJobStatus.OpsJobCreateFailed, err := none
            calls := [Call.JobListerGet csr.ObjectMeta.Namespace
              (w.NotificationJobName csr.ObjectMeta ActionCreate),
              Call.JobsCreate (NewNotificationOps w
                { UID := csr.ObjectMeta.UID, Image := w.NotificationOpsImage
                  Action := ActionCreate
                  ProjectID := t.Status.ProjectID, Bucket := csr.Spec.Bucket
                  TopicID := t.Status.TopicID, NotificationId := ""
                  Secret := csr.Spec.GCSSecret
                  Owner := csr.ObjectMeta })] } := by
        simp [createJob, EnsureNotification, ensureNotificationJob, hg, hn, hc]
      have hrn : (reconcileNotification w (atNotification csr t uri)).err =
          some (errorsNew ("Job " ++ w.Quote csr.ObjectMeta.Name ++
            " failed to create or job failed")) := by
        simp only [reconcileNotification, hst]
        simp only [hmeta, hcj]
        simp
      rw [hr, hrn, hcj]
      exact ⟨rfl, rfl, rfl⟩
  · intro key ns name hkey hget hor
    by_cases hs : (reconcile w csr).value.Status = csr.Status
    · simp [Reconcile, hkey, hget, hs, hm]
    · have hs2 : ¬ (csr.Status = (reconcile w csr).value.Status) := fun h => hs h.symm
      rcases hor with h | ⟨s, hu⟩
      · exact absurd h hs
      · simp [Reconcile, hkey, hget, hs2, hu]
  · intro key ns name e hkey hget hs hu
    have hs2 : ¬ (csr.Status = (reconcile w csr).value.Status) := fun h => hs h.symm
    simp [Reconcile, hkey, hget, hs2, hu]

/-- Witness of C21 amended: a rejected finalizer patch is returned as it is,
and a failed job lookup gives the not-completed error. -/
theorem store_errors_fail_the_pass_witness :
    (reconcile patchFailingWorld (testScheduler [] none emptyStatus)).err =
      some (errorsNew "conflict") ∧
    (reconcile jobLookupFailingWorld (testScheduler [finalizerName] none emptyStatus)).err =
      some (errorsNew "Job \"my-test-scheduler\" has not completed yet") :=
  ⟨(store_errors_fail_the_pass patchFailingWorld (testScheduler [] none emptyStatus) rfl).1
      (errorsNew "conflict") (by decide),
   (((store_errors_fail_the_pass jobLookupFailingWorld
      (testScheduler [finalizerName] none emptyStatus) rfl).2.2.2.1 readyTopic
      readyPullSubscription (some { Raw := "http://sink.mynamespace.svc.cluster.local/" })
      (by unfold ReachesNotification; decide)).2.1 (errorsNew "etcd timeout") rfl rfl).2.2⟩


/-! ## Errors surfaced by `Reconcile` -/

/-- C22, as the specification states it, fails: `reconcile` returns
"topic not ready", the status write fails with "update failed", and
`Reconcile` returns "update failed". -/
theorem Reconcile_status_write_error :
    (reconcile statusWriteFailingWorld (testScheduler [finalizerName] none emptyStatus)).err =
      some (errorsNew "topic not ready") ∧
    Reconcile statusWriteFailingWorld "testnamespace/my-test-scheduler" =
      (some (errorsNew "update failed"),
        [Call.SchedulerListerGet "testnamespace" "my-test-scheduler",
         Call.TopicsGet "testnamespace" "my-test-scheduler",
         Call.SchedulerListerGet "testnamespace" "my-test-scheduler",
         Call.SchedulersUpdateStatus
          (testScheduler [finalizerName] none topicNotReadyStatus)]) ∧
    errorsNew "update failed" ≠ errorsNew "topic not ready" := by
  decide

/-- C22, amended: for every loaded Scheduler, if `reconcile` returns an error
e then `Reconcile` returns an error: e when the status write is skipped or
succeeds, and the error of the status write when it fails; `Reconcile`
returns nil only when `reconcile` returned nil and the status write, if
attempted, succeeded. -/
theorem Reconcile_surfaces_errors (w : World) (key ns name : String) (original : Scheduler)
    (hkey : SplitMetaNamespaceKey key = some (ns, name))
    (hget : w.SchedulerListerGet ns name = Except.ok original) :
    ((reconcile w original).value.Status = original.Status →
      (Reconcile w key).1 = (reconcile w original).err) ∧
    ((reconcile w original).value.Status ≠ original.Status →
      (∀ s, (updateStatus w (reconcile w original).value).1 = Except.ok s →
        (Reconcile w key).1 = (reconcile w original).err) ∧
      (∀ e, (updateStatus w (reconcile w original).value).1 = Except.error e →
        (Reconcile w key).1 = some e)) ∧
    ((reconcile w original).err ≠ none → (Reconcile w key).1 ≠ none) ∧
    ((Reconcile w key).1 = none →
      (reconcile w original).err = none ∧
      ((reconcile w original).value.Status = original.Status ∨
        ∃ s, (updateStatus w (reconcile w original).value).1 = Except.ok s)) := by
  have hm := reconcile_meta w original
  by_cases hs : (reconcile w original).value.Status = original.Status
  · have hR : (Reconcile w key).1 = (reconcile w original).err := by
      simp [Reconcile, hkey, hget, hs, hm]
    refine ⟨fun _ => hR, fun h => absurd hs h, ?_, ?_⟩
    · intro h; rw [hR]; exact h
    · intro h; rw [hR] at h; exact ⟨h, Or.inl hs⟩
  · have hs2 : ¬ (original.Status = (reconcile w original).value.Status) :=
      fun h => hs h.symm
    cases hu : (updateStatus w (reconcile w original).value).1 with
    | error e =>
      have hR : (Reconcile w key).1 = some e := by
        simp [Reconcile, hkey, hget, hs2, hu]
      refine ⟨fun h => absurd h hs, fun _ => ⟨?_, ?_⟩, ?_, ?_⟩
      · intro s h; cases h
      · intro e2 h; cases h; exact hR
      · intro _; rw [hR]; exact Option.some_ne_none e
      · intro h; rw [hR] at h; cases h
    | ok s =>
      have hR : (Reconcile w key).1 = (reconcile w original).err := by
        simp [Reconcile, hkey, hget, hs2, hu]
      refine ⟨fun h => absurd h hs, fun _ => ⟨?_, ?_⟩, ?_, ?_⟩
      · intro _ _; exact hR
      · intro e2 h; cases h
      · intro h; rw [hR]; exact h
      · intro h; rw [hR] at h; exact ⟨h, Or.inr ⟨s, rfl⟩⟩

/-- Witness of C22 amended: a pass whose status write is skipped, and a pass
whose status write fails. -/
theorem Reconcile_surfaces_errors_witness :
    (Reconcile topicPendingWorld "testnamespace/my-test-scheduler").1 =
      some (errorsNew "topic not ready") ∧
    (Reconcile statusWriteFailingWorld "testnamespace/my-test-scheduler").1 =
      some (errorsNew "update failed") := by
  have h1 := (Reconcile_surfaces_errors topicPendingWorld "testnamespace/my-test-scheduler"
    "testnamespace" "my-test-scheduler" (testScheduler [finalizerName] none topicNotReadyStatus)
    (by decide) rfl).1 (by decide)
  have h2 := ((Reconcile_surfaces_errors statusWriteFailingWorld
    "testnamespace/my-test-scheduler" "testnamespace" "my-test-scheduler"
    (testScheduler [finalizerName] none emptyStatus) (by decide) rfl).2.1 (by decide)).2
    (errorsNew "update failed") (by decide)
  exact ⟨h1.trans (by decide), h2⟩


/-! ## Status write after teardown -/

/-- When `deleteNotification` returns nil the status it leaves is the one it
was given with the notification identifier empty. -/
theorem deleteNotification_success_status (w : World) (s : Scheduler)
    (h : (deleteNotification w s).err = none) :
    (deleteNotification w s).value.Status = { s.Status with NotificationID := "" } := by
  revert h
  simp only [deleteNotification]
  repeat' split
  all_goals intro h
  all_goals first
    | exact absurd h (Option.some_ne_none _)
    | rfl
    | (rename_i hn; cases s; rename_i m sp st; cases st; simp at hn; simp [hn])

/-- Status after a teardown that returned nil: conditions initialized, no
notification identifier, no topic identifier. -/
theorem teardown_success_status (w : World) (csr : Scheduler) (ts : Nat)
    (hdel : csr.ObjectMeta.DeletionTimestamp = some ts)
    (hnil : (reconcile w csr).err = none) :
    (reconcile w csr).value.Status =
      { csr.Status.InitializeConditions with NotificationID := "", TopicID := "" } := by
  revert hnil
  simp only [reconcile, hdel]
  repeat' split
  all_goals intro hnil
  all_goals first
    | exact absurd hnil (Option.some_ne_none _)
    | (rename_i hdn _ _ _ _
       simp only [deleteNotification_success_status w _ hdn])

/-- C23, as the specification states it, fails: a teardown that returns nil
and cleared a recorded NotificationID and TopicID, and one that started from
a status without initialized conditions, each end with an update-status
call. -/
theorem teardown_status_written :
    (reconcile (teardownOf notifiedStatus)
      (testScheduler [finalizerName] (some 1) notifiedStatus)).err = none ∧
    Reconcile (teardownOf notifiedStatus) "testnamespace/my-test-scheduler" =
      (none,
        [Call.SchedulerListerGet "testnamespace" "my-test-scheduler",
         Call.JobListerGet "testnamespace" "scheduler-test-scheduler-uid-delete",
         Call.GetJobPod "testnamespace" "test-scheduler-uid" "delete",
         Call.TopicsDelete "testnamespace" "my-test-scheduler",
         Call.PullSubscriptionsDelete "testnamespace" "my-test-scheduler",
         Call.SchedulersPatch "testnamespace" "my-test-scheduler"
           "\x7b\"metadata\":\x7b\"finalizers\":[],\"resourceVersion\":\"\"\x7d\x7d",
         Call.SchedulerListerGet "testnamespace" "my-test-scheduler",
         Call.SchedulersUpdateStatus
           (testScheduler [finalizerName] (some 1)
             { initializedStatus with ProjectID := "test-project-id" })]) ∧
    (reconcile (teardownOf emptyStatus)
      (testScheduler [finalizerName] (some 1) emptyStatus)).err = none ∧
    Reconcile (teardownOf emptyStatus) "testnamespace/my-test-scheduler" =
      (none,
        [Call.SchedulerListerGet "testnamespace" "my-test-scheduler",
         Call.TopicsDelete "testnamespace" "my-test-scheduler",
         Call.PullSubscriptionsDelete "testnamespace" "my-test-scheduler",
         Call.SchedulersPatch "testnamespace" "my-test-scheduler"
           "\x7b\"metadata\":\x7b\"finalizers\":[],\"resourceVersion\":\"\"\x7d\x7d",
         Call.SchedulerListerGet "testnamespace" "my-test-scheduler",
         Call.SchedulersUpdateStatus
           (testScheduler [finalizerName] (some 1) initializedStatus)]) := by
  decide

/-- C23, amended: for every Scheduler with a deletion timestamp whose teardown
returns nil, the resulting status is the loaded one with conditions
initialized and NotificationID and TopicID empty; if that equals the loaded
status `Reconcile` issues no update-status call; otherwise `Reconcile` runs
`updateStatus`, which issues an update-status call whenever the status read
again from the lister differs from the resulting one. -/
theorem teardown_status_write (w : World) (key ns name : String) (original : Scheduler)
    (ts : Nat)
    (hkey : SplitMetaNamespaceKey key = some (ns, name))
    (hget : w.SchedulerListerGet ns name = Except.ok original)
    (hdel : original.ObjectMeta.DeletionTimestamp = some ts)
    (hnil : (reconcile w original).err = none) :
    (reconcile w original).value.Status =
      { original.Status.InitializeConditions with NotificationID := "", TopicID := "" } ∧
    ((reconcile w original).value.Status = original.Status →
      Reconcile w key = (none, Call.SchedulerListerGet ns name :: (reconcile w original).calls) ∧
      ∀ c ∈ (Reconcile w key).2, c.target ≠ CallTarget.SchedulersUpdateStatus) ∧
    ((reconcile w original).value.Status ≠ original.Status →
      (Reconcile w key).2 = Call.SchedulerListerGet ns name ::
        ((reconcile w original).calls ++ (updateStatus w (reconcile w original).value).2) ∧
      ∀ fresh,
        w.SchedulerListerGetAgain original.ObjectMeta.Namespace original.ObjectMeta.Name =
          Except.ok fresh →
        fresh.Status ≠ (reconcile w original).value.Status →
        Call.SchedulersUpdateStatus
          { fresh with Status := (reconcile w original).value.Status } ∈ (Reconcile w key).2) := by
  have hm := reconcile_meta w original
  refine ⟨teardown_success_status w original ts hdel hnil, ?_, ?_⟩
  · intro hs
    have hR : Reconcile w key =
        (none, Call.SchedulerListerGet ns name :: (reconcile w original).calls) := by
      simp [Reconcile, hkey, hget, hs, hm, hnil]
    refine ⟨hR, ?_⟩
    intro c hc
    rw [hR] at hc
    simp only [List.mem_cons] at hc
    rcases hc with rfl | hc
    · simp [Call.target]
    · have := reconcile_business w original c hc
      intro ht
      simp [Call.isBusiness, ht] at this
  · intro hs
    have hs2 : ¬ (original.Status = (reconcile w original).value.Status) :=
      fun h => hs h.symm
    have hcalls : (Reconcile w key).2 = Call.SchedulerListerGet ns name ::
        ((reconcile w original).calls ++ (updateStatus w (reconcile w original).value).2) := by
      simp only [Reconcile, hkey, hget, hs2, false_and, if_false]
      split <;> rfl
    refine ⟨hcalls, ?_⟩
    intro fresh hf hne
    rw [hcalls]
    apply List.mem_cons_of_mem
    apply List.mem_append_right
    simp only [updateStatus, hm, hf, hne, if_false]
    simp

/-- Witness of C23 amended: a teardown over a Scheduler whose conditions are
initialized and which recorded nothing writes no status. -/
theorem teardown_status_write_witness :
    Reconcile (teardownOf initializedStatus) "testnamespace/my-test-scheduler" =
      (none,
        [Call.SchedulerListerGet "testnamespace" "my-test-scheduler",
         Call.TopicsDelete "testnamespace" "my-test-scheduler",
         Call.PullSubscriptionsDelete "testnamespace" "my-test-scheduler",
         Call.SchedulersPatch "testnamespace" "my-test-scheduler"
           "\x7b\"metadata\":\x7b\"finalizers\":[],\"resourceVersion\":\"\"\x7d\x7d"]) := by
  have h := ((teardown_status_write (teardownOf initializedStatus)
    "testnamespace/my-test-scheduler" "testnamespace" "my-test-scheduler"
    (testScheduler [finalizerName] (some 1) initializedStatus) 1
    (by decide) rfl rfl (by decide)).2.1 (by decide)).1
  rw [h]
  decide


/-! ## Teardown deletes -/

/-- C24: `deleteTopic` and `deletePullSubscription` issue one delete call,
return nil when it succeeds and when it reports not-found, and return its
error unchanged for every other error. -/
theorem teardown_deletes_idempotent (w : World) (ns name : String) (csr : Scheduler) :
    (w.TopicsDelete ns name = none → (deleteTopic w ns name).1 = none) ∧
    (∀ e, w.TopicsDelete ns name = some e → e.IsNotFound = true →
      (deleteTopic w ns name).1 = none) ∧
    (∀ e, w.TopicsDelete ns name = some e → e.IsNotFound = false →
      (deleteTopic w ns name).1 = some e) ∧
    (deleteTopic w ns name).2 = [Call.TopicsDelete ns name] ∧
    (w.PullSubscriptionsDelete csr.ObjectMeta.Namespace csr.ObjectMeta.Name = none →
      (deletePullSubscription w csr).1 = none) ∧
    (∀ e, w.PullSubscriptionsDelete csr.ObjectMeta.Namespace csr.ObjectMeta.Name = some e →
      e.IsNotFound = true → (deletePullSubscription w csr).1 = none) ∧
    (∀ e, w.PullSubscriptionsDelete csr.ObjectMeta.Namespace csr.ObjectMeta.Name = some e →
      e.IsNotFound = false → (deletePullSubscription w csr).1 = some e) ∧
    (deletePullSubscription w csr).2 =
      [Call.PullSubscriptionsDelete csr.ObjectMeta.Namespace csr.ObjectMeta.Name] := by
  refine ⟨?_, ?_, ?_, ?_, ?_, ?_, ?_, ?_⟩
  · intro h; simp [deleteTopic, h]
  · intro e h hn; simp [deleteTopic, h, hn]
  · intro e h hn; simp [deleteTopic, h, hn]
  · simp only [deleteTopic]; repeat' split
    all_goals rfl
  · intro h; simp [deletePullSubscription, h]
  · intro e h hn; simp [deletePullSubscription, h, hn]
  · intro e h hn; simp [deletePullSubscription, h, hn]
  · simp only [deletePullSubscription]; repeat' split
    all_goals rfl

/-- Witness of C24: a delete that succeeds, a Topic already absent, and a
PullSubscription delete that fails with a conflict. -/
theorem teardown_deletes_idempotent_witness :
    (deleteTopic quietWorld "testnamespace" "my-test-scheduler").1 = none ∧
    (deleteTopic
      { quietWorld with TopicsDelete := fun _ _ => some notFound }
      "testnamespace" "my-test-scheduler").1 = none ∧
    (deletePullSubscription
      { quietWorld with PullSubscriptionsDelete := fun _ _ => some (errorsNew "conflict") }
      (testScheduler [finalizerName] (some 1) emptyStatus)).1 = some (errorsNew "conflict") :=
  ⟨(teardown_deletes_idempotent quietWorld "testnamespace" "my-test-scheduler"
      (testScheduler [finalizerName] (some 1) emptyStatus)).1 rfl,
   (teardown_deletes_idempotent { quietWorld with TopicsDelete := fun _ _ => some notFound }
      "testnamespace" "my-test-scheduler"
      (testScheduler [finalizerName] (some 1) emptyStatus)).2.1 notFound rfl rfl,
   (teardown_deletes_idempotent
      { quietWorld with PullSubscriptionsDelete := fun _ _ => some (errorsNew "conflict") }
      "testnamespace" "my-test-scheduler"
      (testScheduler [finalizerName] (some 1) emptyStatus)).2.2.2.2.2.2.1
        (errorsNew "conflict") rfl rfl⟩


/-! ## Convergence -/

/-- The first lines of `reconcile` keep three True conditions True. -/
theorem allTrue_initialized (s : SchedulerStatus) (h : s.allTrue = true) :
    (withInitializedConditions { ObjectMeta := m, Spec := sp, Status := s }).Status.allTrue =
      true := by
  obtain ⟨⟨ps, tr, nr⟩, uri, nid, pid, tid⟩ := s
  cases ps <;> cases tr <;> cases nr <;>
    simp_all [SchedulerStatus.allTrue, SchedulerStatus.isTrue, SchedulerStatus.GetCondition,
      Conditions.GetCondition, withInitializedConditions, SchedulerStatus.InitializeConditions,
      Conditions.InitializeConditions]

/-- A status is ready exactly when its three sub-conditions are True. -/
theorem allTrue_isReady (s : SchedulerStatus) : s.IsReady = s.allTrue := by
  obtain ⟨⟨ps, tr, nr⟩, uri, nid, pid, tid⟩ := s
  cases ps <;> cases tr <;> cases nr <;>
    simp [SchedulerStatus.allTrue, SchedulerStatus.isTrue, SchedulerStatus.GetCondition,
      Conditions.GetCondition, SchedulerStatus.IsReady, Conditions.IsHappy, Bool.and_comm]

/-- A pass with every dependency ready ends with the three sub-conditions True,
provided the finalizer is ensured or the three were True when the pass began. -/
theorem ready_pass (w : World) (csr : Scheduler) (h : DependenciesReady w csr) :
    ((ensureFinalizer w csr).err = none → (reconcile w csr).err = none ∧
      (reconcile w csr).value.Status.allTrue = true) ∧
    (csr.Status.allTrue = true → (reconcile w csr).value.Status.allTrue = true) := by
  obtain ⟨hdel, t, ps, uri, pod, nar, ht, hready, hp, hti, hne, hps, hpsr, huri, hphase, hpod,
    hmsg, hun, hres⟩ := h
  have hok : (ensureFinalizer w csr).err = none → (reconcile w csr).err = none ∧
      (reconcile w csr).value.Status.allTrue = true := by
    intro hfin
    have hr := reconcile_at_notification w csr t ps uri
      ⟨hdel, hfin, ht, hready, hp, hti, hne, hps, hpsr, huri⟩
    rw [reconcileNotification_completed w csr t uri pod hphase hpod] at hr
    simp only [hmsg, if_false, hun, hres, Bool.true_eq_false] at hr
    rw [hr]
    exact ⟨rfl, rfl⟩
  refine ⟨hok, ?_⟩
  intro hall
  cases hfin : (ensureFinalizer w csr).err with
  | none => exact (hok hfin).2
  | some e =>
    have hef1 : ∀ sp st, ensureFinalizer w (Scheduler.mk csr.ObjectMeta sp st) =
        ensureFinalizer w csr := fun _ _ => rfl
    have hr : (reconcile w csr).value = withInitializedConditions csr := by
      simp only [reconcile, hdel, hef1, hfin]
      rfl
    rw [hr]
    exact allTrue_initialized csr.Status hall

/-- C25: in a sequence of converge passes where each pass loads the status the
previous one left and, after pass k, every dependency is ready at every
pass: if the dependencies are ready at pass k and the finalizer is ensured,
pass k returns nil with the three sub-conditions True; and once the three
sub-conditions are True after pass k, they are True and the Scheduler is
ready after every later pass. -/
theorem monotonic_convergence (ws : Nat → World) (loaded : Nat → Scheduler)
    (hpersist : ∀ n, (loaded (n + 1)).Status = statusAfter ws loaded n)
    (k : Nat)
    (hlater : ∀ j, k < j → DependenciesReady (ws j) (loaded j)) :
    (DependenciesReady (ws k) (loaded k) →
      (ensureFinalizer (ws k) (loaded k)).err = none →
      (reconcile (ws k) (loaded k)).err = none ∧
      (statusAfter ws loaded k).allTrue = true) ∧
    ((statusAfter ws loaded k).allTrue = true →
      ∀ j, k ≤ j →
        (statusAfter ws loaded j).allTrue = true ∧ (statusAfter ws loaded j).IsReady = true) := by
  constructor
  · intro hk hfin
    exact (ready_pass (ws k) (loaded k) hk).1 hfin
  · intro hk j hj
    have hall : (statusAfter ws loaded j).allTrue = true := by
      induction j with
      | zero =>
        have : k = 0 := Nat.le_zero.mp hj
        subst this
        exact hk
      | succ n ih =>
        by_cases hkn : k = n + 1
        · subst hkn; exact hk
        · have hle : k ≤ n := by omega
          have hprev := ih hle
          have hdeps := hlater (n + 1) (by omega)
          have hload : (loaded (n + 1)).Status.allTrue = true := by
            rw [hpersist n]; exact hprev
          exact (ready_pass (ws (n + 1)) (loaded (n + 1)) hdeps).2 hload
    exact ⟨hall, by rw [allTrue_isReady]; exact hall⟩

/-- A further pass over the converged Scheduler of the tests leaves its status
as it is. -/
theorem converged_is_fixed :
    (reconcile readyWorld (testScheduler [finalizerName] none convergedStatus)).value.Status =
      convergedStatus := by
  decide

/-- Every dependency of the converged Scheduler of the tests is ready. -/
theorem converged_dependencies :
    DependenciesReady readyWorld (testScheduler [finalizerName] none convergedStatus) :=
  ⟨rfl, readyTopic, readyPullSubscription,
    some { Raw := "http://sink.mynamespace.svc.cluster.local/" }, testPod successMessage,
    { Result := true, Error := "", NotificationId := "135", ProjectId := "test-project-id" },
    by decide, by decide, by decide, by decide, by decide, by decide, by decide, by decide,
    by decide, by decide, by decide, by decide, rfl⟩

/-- Witness of C25: the create job is missing in the first pass and finished
from the second pass on; the Scheduler is not ready after the first pass and
ready after the second and the fourth. -/
theorem monotonic_convergence_witness :
    (statusAfter convergingWorlds convergingSchedulers 0).IsReady = false ∧
    (statusAfter convergingWorlds convergingSchedulers 1).allTrue = true ∧
    (statusAfter convergingWorlds convergingSchedulers 3).IsReady = true := by
  have h := monotonic_convergence convergingWorlds convergingSchedulers
    (fun n => match n with
      | 0 => rfl
      | 1 => rfl
      | _ + 2 => converged_is_fixed.symm)
    1
    (fun j hj => match j, hj with
      | _ + 2, _ => converged_dependencies)
  have h1 : (statusAfter convergingWorlds convergingSchedulers 1).allTrue = true := by decide
  exact ⟨by decide, h1, (h.2 h1 3 (by decide)).2⟩


/-! ## PullSubscription step -/

/-- C26, as the specification states it, fails: a Scheduler that recorded a
sink URI in an earlier pass and whose PullSubscription is not ready keeps
that URI in its status; the pass does not leave status.SinkURI unset. -/
theorem pullSubscription_not_ready_keeps_sink :
    (reconcile topicReadyWorld (testScheduler [finalizerName] none staleSinkStatus)).err =
      some (errorsNew "PullSubscription not ready") ∧
    (reconcile topicReadyWorld
      (testScheduler [finalizerName] none staleSinkStatus)).value.Status.GetCondition
        ConditionType.PullSubscriptionReady =
      some { Status := ConditionStatus.ConditionFalse
             Reason := "PullSubscriptionNotReady"
             Message := "PullSubscription testnamespace/my-test-scheduler not ready" } ∧
    (reconcile topicReadyWorld
      (testScheduler [finalizerName] none staleSinkStatus)).value.Status.SinkURI =
      some { Raw := "http://stale.example/" } ∧
    (reconcile topicReadyWorld
      (testScheduler [finalizerName] none staleSinkStatus)).value.Status.SinkURI ≠ none := by
  decide

/-- C26, amended: for every converge pass with a validated ready Topic that
obtained a PullSubscription: if it is not ready the pass returns
"PullSubscription not ready", marks PullSubscriptionReady False with reason
"PullSubscriptionNotReady" and message "PullSubscription <ns>/<name> not
ready" (namespace and name of the Topic), keeps TopicReady True with
status.TopicID and status.ProjectID those of the Topic, leaves status.SinkURI
as it was loaded and issues no job call; if it is ready PullSubscriptionReady
is True, and status.SinkURI is the parsed sink URI when the URI parses. -/
theorem pullSubscription_not_ready (w : World) (csr : Scheduler) (t : Topic)
    (ps : PullSubscription)
    (hdel : csr.ObjectMeta.DeletionTimestamp = none)
    (hfin : (ensureFinalizer w csr).err = none)
    (ht : (reconcileTopic w csr (requestedTopic csr)).1 = Except.ok t)
    (hready : t.Status.IsReady = true)
    (hp : t.Status.ProjectID ≠ "")
    (hti : t.Status.TopicID ≠ "")
    (hne : t.Status.TopicID = requestedTopic csr)
    (hps : (reconcilePullSubscription w csr (requestedTopic csr)).1 = Except.ok ps) :
    (ps.Status.IsReady = false →
      (reconcile w csr).err = some (errorsNew "PullSubscription not ready") ∧
      (reconcile w csr).value.Status.GetCondition ConditionType.PullSubscriptionReady =
        some { Status := ConditionStatus.ConditionFalse
               Reason := "PullSubscriptionNotReady"
               Message := "PullSubscription " ++ t.ObjectMeta.Namespace ++ "/" ++
                 t.ObjectMeta.Name ++ " not ready" } ∧
      (reconcile w csr).value.Status.isTrue ConditionType.TopicReady = true ∧
      (reconcile w csr).value.Status.TopicID = t.Status.TopicID ∧
      (reconcile w csr).value.Status.ProjectID = t.Status.ProjectID ∧
      (reconcile w csr).value.Status.SinkURI = csr.Status.SinkURI ∧
      (reconcile w csr).calls = (ensureFinalizer w csr).calls ++
        (reconcileTopic w csr (requestedTopic csr)).2 ++
        (reconcilePullSubscription w csr (requestedTopic csr)).2 ∧
      (∀ c ∈ (reconcile w csr).calls, c.target ≠ CallTarget.Jobs)) ∧
    (ps.Status.IsReady = true →
      (∀ uri, w.ParseURL ps.Status.SinkURI = Except.ok uri →
        (reconcile w csr).value.Status.isTrue ConditionType.PullSubscriptionReady = true ∧
        (reconcile w csr).value.Status.SinkURI = uri) ∧
      (∀ e, w.ParseURL ps.Status.SinkURI = Except.error e →
        (reconcile w csr).value.Status.isTrue ConditionType.PullSubscriptionReady = true ∧
        (reconcile w csr).value.Status.SinkURI = csr.Status.SinkURI ∧
        (reconcile w csr).err = some (errorsNew ("failed to parse url " ++
          w.Quote ps.Status.SinkURI ++ " : " ++ w.Quote e)))) := by
  have hef1 : ∀ sp st, ensureFinalizer w (Scheduler.mk csr.ObjectMeta sp st) =
      ensureFinalizer w csr := fun _ _ => rfl
  have ht1 : ∀ st tp, reconcileTopic w (Scheduler.mk csr.ObjectMeta csr.Spec st) tp =
      reconcileTopic w csr tp := fun _ _ => rfl
  have hps1 : ∀ st tp, reconcilePullSubscription w (Scheduler.mk csr.ObjectMeta csr.Spec st) tp =
      reconcilePullSubscription w csr tp := fun _ _ => rfl
  have hcalls : ∀ c ∈ (ensureFinalizer w csr).calls ++
      (reconcileTopic w csr (requestedTopic csr)).2 ++
      (reconcilePullSubscription w csr (requestedTopic csr)).2, c.target ≠ CallTarget.Jobs := by
    intro c hc
    simp only [List.mem_append] at hc
    rcases hc with (hc | hc) | hc
    · rw [ensureFinalizer_targets w csr c hc]; decide
    · rw [reconcileTopic_targets w csr _ c hc]; decide
    · rw [reconcilePullSubscription_targets w csr _ c hc]; decide
  constructor
  · intro hnr
    have hr : reconcile w csr =
        { value :=
            { csr with
              Status := (({ (withInitializedConditions csr).Status with
                  TopicID := t.Status.TopicID
                  ProjectID := t.Status.ProjectID } :
                SchedulerStatus).MarkTopicReady.MarkPullSubscriptionNotReady
                  "PullSubscriptionNotReady"
                  ("PullSubscription " ++ t.ObjectMeta.Namespace ++ "/" ++
                    t.ObjectMeta.Name ++ " not ready")) }
          err := some (errorsNew "PullSubscription not ready")
          calls := (ensureFinalizer w csr).calls ++
            (reconcileTopic w csr (requestedTopic csr)).2 ++
            (reconcilePullSubscription w csr (requestedTopic csr)).2 } := by
      simp only [requestedTopic] at ht hne hps ⊢
      rw [← hne] at ht hps ⊢
      simp only [reconcile, hdel, hef1, ht1, hps1, hfin, ht, hready, hp, hti, hps, hnr,
        ← hne, ne_eq, not_true_eq_false, if_false, if_true, Bool.true_eq_false]
      rfl
    rw [hr]
    exact ⟨rfl, rfl, rfl, rfl, rfl, rfl, rfl, hcalls⟩
  · intro hr
    constructor
    · intro uri hu
      have h := reconcile_at_notification w csr t ps uri
        ⟨hdel, hfin, ht, hready, hp, hti, hne, hps, hr, hu⟩
      rw [h]
      split <;> exact ⟨rfl, rfl⟩
    · intro e he
      have hrec : reconcile w csr =
          { value :=
              { csr with
                Status := (({ (withInitializedConditions csr).Status with
                    TopicID := t.Status.TopicID
                    ProjectID := t.Status.ProjectID } :
                  SchedulerStatus).MarkTopicReady.MarkPullSubscriptionReady) }
            err := some (errorsNew ("failed to parse url " ++ w.Quote ps.Status.SinkURI ++
              " : " ++ w.Quote e))
            calls := (ensureFinalizer w csr).calls ++
              (reconcileTopic w csr (requestedTopic csr)).2 ++
              (reconcilePullSubscription w csr (requestedTopic csr)).2 } := by
        simp only [requestedTopic] at ht hne hps ⊢
        rw [← hne] at ht hps ⊢
        simp only [reconcile, hdel, hef1, ht1, hps1, hfin, ht, hready, hp, hti, hps, hr, he,
          ← hne, ne_eq, not_true_eq_false, if_false, if_true, Bool.true_eq_false]
        rfl
      rw [hrec]
      exact ⟨rfl, rfl, rfl⟩

/-- Witness of C26 amended: the Topic is ready and the PullSubscription was just
created. -/
theorem pullSubscription_not_ready_witness :
    (reconcile topicReadyWorld (testScheduler [finalizerName] none emptyStatus)).err =
      some (errorsNew "PullSubscription not ready") ∧
    (reconcile topicReadyWorld
      (testScheduler [finalizerName] none emptyStatus)).value.Status.GetCondition
        ConditionType.PullSubscriptionReady =
      some { Status := ConditionStatus.ConditionFalse
             Reason := "PullSubscriptionNotReady"
             Message := "PullSubscription testnamespace/my-test-scheduler not ready" } := by
  have h := (pullSubscription_not_ready topicReadyWorld
    (testScheduler [finalizerName] none emptyStatus) readyTopic
    (MakePullSubscription (testScheduler [finalizerName] none emptyStatus)
      "scheduler-test-scheduler-uid")
    rfl (by decide) rfl rfl (by decide) (by decide) rfl rfl).1 rfl
  exact ⟨h.1, h.2.1.trans (by decide)⟩

/-- C27: `MakePullSubscription` (modelled from the spec) gives the namespace
and name of its owner, the one label "receive-adapter" =
"scheduler.events.cloud.run", one owner reference to the owner with
controller and blockOwnerDeletion true, and a spec with the given topic and
the secret, project, sink and overrides of the owner; it is the object
`reconcilePullSubscription` creates when none exists, and on the owner of
`TestMakePullSubscription` it is the object that test expects. -/
theorem MakePullSubscription_shape (w : World) (s : Scheduler) (t : String) :
    (MakePullSubscription s t).ObjectMeta.Namespace = s.ObjectMeta.Namespace ∧
    (MakePullSubscription s t).ObjectMeta.Name = s.ObjectMeta.Name ∧
    (MakePullSubscription s t).ObjectMeta.Labels =
      [("receive-adapter", "scheduler.events.cloud.run")] ∧
    (MakePullSubscription s t).ObjectMeta.OwnerReferences =
      [{ APIVersion := "events.cloud.run/v1alpha1", Kind := "Scheduler"
         Name := s.ObjectMeta.Name, UID := s.ObjectMeta.UID
         Controller := some true, BlockOwnerDeletion := some true }] ∧
    (MakePullSubscription s t).Spec =
      { Secret := some s.Spec.GCSSecret, Project := s.Spec.Project, Topic := t
        Sink := s.Spec.Sink, CloudEventOverrides := s.Spec.CloudEventOverrides } ∧
    (∀ e, w.PullSubscriptionsGet s.ObjectMeta.Namespace s.ObjectMeta.Name = Except.error e →
      e.IsNotFound = true →
      (reconcilePullSubscription w s t).2 =
        [Call.PullSubscriptionsGet s.ObjectMeta.Namespace s.ObjectMeta.Name,
         Call.PullSubscriptionsCreate (MakePullSubscription s t)]) ∧
    MakePullSubscription pullSubscriptionTestSource "topic-abc" =
      { ObjectMeta := { Namespace := "bucket-namespace", Name := "bucket-name", UID := ""
                        ResourceVersion := "", Finalizers := [], DeletionTimestamp := none
                        Labels := [("receive-adapter", "scheduler.events.cloud.run")]
                        OwnerReferences :=
                          [{ APIVersion := "events.cloud.run/v1alpha1", Kind := "Scheduler"
                             Name := "bucket-name", UID := "bucket-uid"
                             Controller := some true, BlockOwnerDeletion := some true }] }
        Spec := { Secret := some { Name := "eventing-secret-name", Key := "eventing-secret-key" }
                  Project := "project-123"
                  Topic := "topic-abc"
                  Sink := { ObjectReference := some { APIVersion := "v1", Kind := "Kitchen"
                                                      Namespace := "", Name := "sink" }
                            URI := none }
                  CloudEventOverrides := some [("foo", "bar")] }
        Status := { IsReady := false, SinkURI := "" } } := by
  refine ⟨rfl, rfl, rfl, rfl, rfl, ?_, by decide⟩
  intro e h hn
  simp [reconcilePullSubscription, h, hn]

/-- Witness of C27: the PullSubscription created for the Scheduler of the
tests. -/
theorem MakePullSubscription_shape_witness :
    (reconcilePullSubscription quietWorld (testScheduler [finalizerName] none emptyStatus)
      "scheduler-test-scheduler-uid").2 =
      [Call.PullSubscriptionsGet "testnamespace" "my-test-scheduler",
       Call.PullSubscriptionsCreate
        (MakePullSubscription (testScheduler [finalizerName] none emptyStatus)
          "scheduler-test-scheduler-uid")] :=
  (MakePullSubscription_shape quietWorld (testScheduler [finalizerName] none emptyStatus)
    "scheduler-test-scheduler-uid").2.2.2.2.2.1 notFound rfl rfl


/-! ## Status update -/

/-- C28: `updateStatus` reads the Scheduler again from the lister; a lister
error is returned with no write; if the status read equals the desired one
the object read is returned with no write; otherwise the one object written
has the metadata and spec of the object read and the desired status. -/
theorem updateStatus_writes_status_only (w : World) (desired : Scheduler) :
    (∀ e, w.SchedulerListerGetAgain desired.ObjectMeta.Namespace desired.ObjectMeta.Name =
        Except.error e →
      updateStatus w desired =
        (Except.error e,
          [Call.SchedulerListerGet desired.ObjectMeta.Namespace desired.ObjectMeta.Name])) ∧
    (∀ fresh, w.SchedulerListerGetAgain desired.ObjectMeta.Namespace desired.ObjectMeta.Name =
        Except.ok fresh → fresh.Status = desired.Status →
      updateStatus w desired =
        (Except.ok fresh,
          [Call.SchedulerListerGet desired.ObjectMeta.Namespace desired.ObjectMeta.Name])) ∧
    (∀ fresh, w.SchedulerListerGetAgain desired.ObjectMeta.Namespace desired.ObjectMeta.Name =
        Except.ok fresh → fresh.Status ≠ desired.Status →
      updateStatus w desired =
        (w.SchedulersUpdateStatus
            { ObjectMeta := fresh.ObjectMeta, Spec := fresh.Spec, Status := desired.Status },
          [Call.SchedulerListerGet desired.ObjectMeta.Namespace desired.ObjectMeta.Name,
           Call.SchedulersUpdateStatus
            { ObjectMeta := fresh.ObjectMeta, Spec := fresh.Spec, Status := desired.Status }])) ∧
    (∀ c ∈ (updateStatus w desired).2,
      c = Call.SchedulerListerGet desired.ObjectMeta.Namespace desired.ObjectMeta.Name ∨
      ∃ fresh, w.SchedulerListerGetAgain desired.ObjectMeta.Namespace desired.ObjectMeta.Name =
          Except.ok fresh ∧
        c = Call.SchedulersUpdateStatus
          { ObjectMeta := fresh.ObjectMeta, Spec := fresh.Spec, Status := desired.Status }) := by
  refine ⟨?_, ?_, ?_, ?_⟩
  · intro e h; simp [updateStatus, h]
  · intro fresh h hs; simp [updateStatus, h, hs]
  · intro fresh h hs; simp [updateStatus, h, hs]
  · intro c hc
    simp only [updateStatus] at hc
    split at hc
    · simp at hc; exact Or.inl hc
    · split at hc
      · simp at hc; exact Or.inl hc
      · rename_i fresh hf _
        simp at hc
        rcases hc with rfl | rfl
        · exact Or.inl rfl
        · exact Or.inr ⟨fresh, hf, rfl⟩

/-- Witness of C28: the object written carries the finalizers of the object
read, not those of the desired object; and a failing read writes nothing. -/
theorem updateStatus_writes_status_only_witness :
    updateStatus statusWriteFailingWorld
        (testScheduler [] none topicNotReadyStatus) =
      (Except.error (errorsNew "update failed"),
        [Call.SchedulerListerGet "testnamespace" "my-test-scheduler",
         Call.SchedulersUpdateStatus
          (testScheduler [finalizerName] none topicNotReadyStatus)]) ∧
    updateStatus topicPendingWorld (testScheduler [finalizerName] none topicNotReadyStatus) =
      (Except.error notFound, [Call.SchedulerListerGet "testnamespace" "my-test-scheduler"]) :=
  ⟨(updateStatus_writes_status_only statusWriteFailingWorld
      (testScheduler [] none topicNotReadyStatus)).2.2.1
      (testScheduler [finalizerName] none emptyStatus) rfl (by decide),
   (updateStatus_writes_status_only topicPendingWorld
      (testScheduler [finalizerName] none topicNotReadyStatus)).1 notFound rfl⟩


/-! ## Finalizer round trip -/

/-- C29: for a finalizer list without the marker, `ensureFinalizer` patches in
the list with the marker appended; applying then the patch of
`removeFinalizer` gives back the original list exactly when the original
list is empty; when it is not empty `removeFinalizer` issues no patch and the
marker stays in the list. -/
theorem finalizer_round_trip (w : World) (csr : Scheduler)
    (h : finalizerName ∉ csr.ObjectMeta.Finalizers) :
    (ensureFinalizer w csr).calls =
      [Call.SchedulersPatch csr.ObjectMeta.Namespace csr.ObjectMeta.Name
        (marshalMergePatch { finalizers := finalizersAfterEnsure csr.ObjectMeta.Finalizers
                             resourceVersion := csr.ObjectMeta.ResourceVersion })] ∧
    finalizersAfterEnsure csr.ObjectMeta.Finalizers =
      csr.ObjectMeta.Finalizers ++ [finalizerName] ∧
    (csr.ObjectMeta.Finalizers = [] →
      (removeFinalizer w
        (withFinalizers csr (finalizersAfterEnsure csr.ObjectMeta.Finalizers))).calls =
        [Call.SchedulersPatch csr.ObjectMeta.Namespace csr.ObjectMeta.Name
          (marshalMergePatch
            { finalizers :=
                finalizersAfterRemove (finalizersAfterEnsure csr.ObjectMeta.Finalizers)
              resourceVersion := csr.ObjectMeta.ResourceVersion })]) ∧
    (finalizersAfterRemove (finalizersAfterEnsure csr.ObjectMeta.Finalizers) =
        csr.ObjectMeta.Finalizers ↔ csr.ObjectMeta.Finalizers = []) ∧
    (csr.ObjectMeta.Finalizers ≠ [] →
      (removeFinalizer w
        (withFinalizers csr (finalizersAfterEnsure csr.ObjectMeta.Finalizers))).calls = [] ∧
      (removeFinalizer w
        (withFinalizers csr (finalizersAfterEnsure csr.ObjectMeta.Finalizers))).err = none ∧
      finalizersAfterRemove (finalizersAfterEnsure csr.ObjectMeta.Finalizers) =
        csr.ObjectMeta.Finalizers ++ [finalizerName] ∧
      finalizerName ∈
        finalizersAfterRemove (finalizersAfterEnsure csr.ObjectMeta.Finalizers)) := by
  have hens : finalizersAfterEnsure csr.ObjectMeta.Finalizers =
      csr.ObjectMeta.Finalizers ++ [finalizerName] := by
    simp [finalizersAfterEnsure, h]
  refine ⟨?_, hens, ?_, ?_, ?_⟩
  · simp [ensureFinalizer, h, hens]
  · intro hl
    rw [hens, hl]
    simp [removeFinalizer, withFinalizers, finalizersAfterRemove]
  · rw [hens]
    cases hl : csr.ObjectMeta.Finalizers with
    | nil => simp [finalizersAfterRemove]
    | cons a rest =>
      have ha : a ≠ finalizerName := by
        intro hEq
        apply h
        rw [hl, hEq]
        exact List.mem_cons_self _ _
      simp [finalizersAfterRemove, ha]
  · intro hl
    rw [hens]
    cases hc : csr.ObjectMeta.Finalizers with
    | nil => exact absurd hc hl
    | cons a rest =>
      have ha : a ≠ finalizerName := by
        intro hEq
        apply h
        rw [hc, hEq]
        exact List.mem_cons_self _ _
      simp [removeFinalizer, withFinalizers, finalizersAfterRemove, ha]

/-- Witness of C29: the empty list comes back, a list with a foreign finalizer
keeps the marker. -/
theorem finalizer_round_trip_witness :
    finalizersAfterRemove (finalizersAfterEnsure []) = [] ∧
    finalizersAfterRemove (finalizersAfterEnsure ["foreign"]) = ["foreign", finalizerName] :=
  ⟨(finalizer_round_trip quietWorld (testScheduler [] none emptyStatus)
      (by decide)).2.2.2.1.2 rfl,
   ((finalizer_round_trip quietWorld (testScheduler ["foreign"] none emptyStatus)
      (by decide)).2.2.2.2 (by decide)).2.2.1⟩


/-! ## Defaults -/

/-- C30: `SchedulerSpec.SetDefaults` sets a nil Secret to the default selector
and changes nothing else; it leaves every non-nil Secret as it is, the empty
selector included; so it changes the spec exactly when Secret is nil, Secret
is non-nil afterwards, and the function is idempotent. -/
theorem SetDefaults_only_nil_secret (d : SecretKeySelector) (s : SchedulerSpec) :
    (s.Secret = none → s.SetDefaults d = { s with Secret := some d }) ∧
    (∀ p, s.Secret = some p → s.SetDefaults d = s) ∧
    (s.SetDefaults d ≠ s ↔ s.Secret = none) ∧
    ({ s with Secret := some { Name := "", Key := "" } } : SchedulerSpec).SetDefaults d =
      { s with Secret := some { Name := "", Key := "" } } ∧
    (s.SetDefaults d).Secret ≠ none ∧
    (s.SetDefaults d).SetDefaults d = s.SetDefaults d ∧
    (∀ c : Scheduler, (c.SetDefaults d).Spec = c.Spec.SetDefaults d ∧
      (c.SetDefaults d).ObjectMeta = c.ObjectMeta ∧ (c.SetDefaults d).Status = c.Status) := by
  refine ⟨?_, ?_, ?_, ?_, ?_, ?_, ?_⟩
  · intro h; simp [SchedulerSpec.SetDefaults, h]
  · intro p h; simp [SchedulerSpec.SetDefaults, h, semanticDeepEqualPointerValue]
  · cases hs : s.Secret with
    | none =>
      simp only [SchedulerSpec.SetDefaults, hs, iff_true]
      intro hEq
      have := congrArg SchedulerSpec.Secret hEq
      simp [hs] at this
    | some p => simp [SchedulerSpec.SetDefaults, hs, semanticDeepEqualPointerValue]
  · simp [SchedulerSpec.SetDefaults, semanticDeepEqualPointerValue]
  · cases hs : s.Secret <;> simp [SchedulerSpec.SetDefaults, hs, semanticDeepEqualPointerValue]
  · cases hs : s.Secret <;> simp [SchedulerSpec.SetDefaults, hs, semanticDeepEqualPointerValue]
  · intro c; exact ⟨rfl, rfl, rfl⟩

/-- Witness of C30: a nil Secret becomes the default selector, a pointer to the
empty selector is kept. -/
theorem SetDefaults_only_nil_secret_witness :
    ({ (testScheduler [] none emptyStatus).Spec with Secret := none } :
      SchedulerSpec).SetDefaults { Name := "google-cloud-key", Key := "key.json" } =
      (testScheduler [] none emptyStatus).Spec ∧
    ({ (testScheduler [] none emptyStatus).Spec with
        Secret := some { Name := "", Key := "" } } : SchedulerSpec).SetDefaults
        { Name := "google-cloud-key", Key := "key.json" } =
      { (testScheduler [] none emptyStatus).Spec with Secret := some { Name := "", Key := "" } } :=
  ⟨(SetDefaults_only_nil_secret { Name := "google-cloud-key", Key := "key.json" }
      { (testScheduler [] none emptyStatus).Spec with Secret := none }).1 rfl,
   (SetDefaults_only_nil_secret { Name := "google-cloud-key", Key := "key.json" }
      { (testScheduler [] none emptyStatus).Spec with
        Secret := some { Name := "", Key := "" } }).2.1 _ rfl⟩


end SchedulerReconciler
